import Mathlib

/-!
# avxTwo2sve: translation of one AVX2 instruction line into SVE

A shallow embedding of `avxTwo2sve.go` (package `avxtwo2sve`) and the
properties of the translator `AvxTwo2Sve` that its specification states.

Modelling conventions.

* A Go `string` holding text is a `List Char` (`Str`): the sequence of its
  Unicode scalar values, that is, valid UTF-8 text. Operations that Go performs
  on bytes (`len`, `s[i]`) are computed on the UTF-8 encoding `bytes s`.
  A slice `s[k:]` taken after the first `k` bytes were compared with ASCII
  characters is `s.drop k`.
* Go `int` and `int64` are 64 bits wide; integers are `Int`, and the library
  parsers reject values outside `[-2^63, 2^63)`.
* A Go panic is the value `none`; a normal return is `some _`.
-/

namespace avxtwo2sve

/-! ## Strings and the Go library functions used by the translator -/

/-- Text: the sequence of Unicode scalar values of a Go string. -/
abbrev Str := List Char

/-- UTF-8 encoding of one character, as a list of byte values. -/
def utf8Char (c : Char) : List Nat :=
  let v := c.toNat
  if v < 0x80 then [v]
  else if v < 0x800 then [0xC0 + v / 64, 0x80 + v % 64]
  else if v < 0x10000 then [0xE0 + v / 4096, 0x80 + v / 64 % 64, 0x80 + v % 64]
  else [0xF0 + v / 262144, 0x80 + v / 4096 % 64, 0x80 + v / 64 % 64, 0x80 + v % 64]

/-- The bytes of a Go string. -/
def bytes : Str → List Nat
  | [] => []
  | c :: cs => utf8Char c ++ bytes cs

/-- Go `len(s)`: the number of bytes. -/
def len (s : Str) : Nat := (bytes s).length

/-- Go `s[i]`: the byte at index `i`; `none` is the index-out-of-range panic. -/
def byteAt (s : Str) (i : Nat) : Option Nat := (bytes s)[i]?

/-- Go `unicode.IsSpace`. -/
def isSpace (c : Char) : Bool :=
  let v := c.toNat
  v == 0x09 || v == 0x0A || v == 0x0B || v == 0x0C || v == 0x0D || v == 0x20
    || v == 0x85 || v == 0xA0 || v == 0x1680 || (0x2000 ≤ v && v ≤ 0x200A)
    || v == 0x2028 || v == 0x2029 || v == 0x202F || v == 0x205F || v == 0x3000

/-- Scanner of `strings.Fields`: `cur` is the token being read. -/
def fieldsAux : Str → Str → List Str
  | [], cur => if cur.isEmpty then [] else [cur]
  | c :: cs, cur =>
    if isSpace c then
      (if cur.isEmpty then fieldsAux cs [] else cur :: fieldsAux cs [])
    else fieldsAux cs (cur ++ [c])

/-- Go `strings.Fields`: the maximal runs of non-space characters. -/
def Fields (s : Str) : List Str := fieldsAux s []

/-- Go `strings.HasPrefix`. -/
def HasPrefix (s pre : Str) : Bool := pre.isPrefixOf s

/-- Go `strings.Contains`. -/
def Contains : Str → Str → Bool
  | [], sub => sub.isEmpty
  | c :: cs, sub => sub.isPrefixOf (c :: cs) || Contains cs sub

/-- Scanner of `strings.Split` for a non-empty separator: `skip` counts the
characters of a matched separator still to pass, `cur` is the piece being read. -/
def splitAux (sep : Str) : Nat → Str → Str → List Str
  | _, [], cur => [cur]
  | skip + 1, _ :: cs, cur => splitAux sep skip cs cur
  | 0, c :: cs, cur =>
    if sep.isPrefixOf (c :: cs) then cur :: splitAux sep (sep.length - 1) cs []
    else splitAux sep 0 cs (cur ++ [c])

/-- Go `strings.Split(s, sep)`; every use in the program has a non-empty
constant separator. -/
def Split (s sep : Str) : List Str := splitAux sep 0 s []

/-- Scanner of `strings.ReplaceAll` for a non-empty `old`. -/
def replaceAux (old new : Str) : Nat → Str → Str
  | _, [] => []
  | skip + 1, _ :: cs => replaceAux old new skip cs
  | 0, c :: cs =>
    if old.isPrefixOf (c :: cs) then new ++ replaceAux old new (old.length - 1) cs
    else c :: replaceAux old new 0 cs

/-- Go `strings.ReplaceAll(s, old, new)`: non-overlapping occurrences, left to
right; an empty `old` matches before every character and at the end. -/
def ReplaceAll (s old new : Str) : Str :=
  if old.isEmpty then new ++ s.flatMap (fun c => c :: new)
  else replaceAux old new 0 s

/-- The replacer `strings.NewReplacer("[", "", "]", "")`: deletes both brackets. -/
def stripBrackets (s : Str) : Str := s.filter (fun c => c != '[' && c != ']')

/-- Digit value of one character in `strconv.ParseUint`: decimal digits, then
letters through `lower(c) = c | 0x20`; a value not below the base is rejected. -/
def digitVal (base : Nat) (c : Char) : Option Nat :=
  let v := c.toNat
  let lower := v ||| 32
  let d : Option Nat :=
    if 48 ≤ v ∧ v ≤ 57 then some (v - 48)
    else if 97 ≤ lower ∧ lower ≤ 122 then some (lower - 97 + 10)
    else none
  d.bind fun x => if x < base then some x else none

/-- Digit loop of `strconv.ParseUint` with an explicit base (no prefix, no
underscores); `none` is a syntax error. -/
def parseDigits (base : Nat) : Str → Nat → Option Nat
  | [], acc => some acc
  | c :: cs, acc =>
    match digitVal base c with
    | none => none
    | some d => parseDigits base cs (acc * base + d)

/-- Go `strconv.ParseInt(s, base, bitSize)` for an explicit base; `none` is a
returned error (syntax or range). -/
def ParseInt (s : Str) (base bitSize : Nat) : Option Int :=
  match s with
  | [] => none
  | c :: rest =>
    let neg : Bool := c == '-'
    let body : Str := if c == '+' || c == '-' then rest else s
    if body.isEmpty then none
    else
      match parseDigits base body 0 with
      | none => none
      | some un =>
        let cutoff : Nat := 2 ^ (bitSize - 1)
        if !neg && decide (cutoff ≤ un) then none
        else if neg && decide (cutoff < un) then none
        else some (if neg then -(un : Int) else (un : Int))

/-- Go `strconv.Atoi(s)`: `ParseInt(s, 10, 0)` with a 64-bit `int`. -/
def Atoi (s : Str) : Option Int := ParseInt s 10 64

/-- One decimal digit as a character. -/
def digitChar (d : Nat) : Char := Char.ofNat (48 + d)

/-- Decimal digits of `n` in front of `acc`; `fuel` bounds the number of digits. -/
def decAux : Nat → Nat → Str → Str
  | 0, _, acc => acc
  | fuel + 1, n, acc =>
    if n < 10 then digitChar n :: acc
    else decAux fuel (n / 10) (digitChar (n % 10) :: acc)

/-- Decimal numeral of a natural number. -/
def dec (n : Nat) : Str := decAux (n + 1) n []

/-- Go `fmt.Sprintf("%d", i)`. -/
def fmtInt (i : Int) : Str :=
  if i < 0 then '-' :: dec (-i).toNat else dec i.toNat

/-! ## Operand codecs -/

/-- Go `getRegister`: a `Y` register to `z<num>[.suffix]`. -/
def getRegister (reg suffix : Str) : Option Str :=
  match byteAt reg 0 with
  | none => none
  | some b =>
    if b = 'Y'.toNat then
      match Atoi (reg.drop 1) with
      | none => none
      | some num =>
        let suffix := if suffix ≠ [] then ".".toList ++ suffix else suffix
        some ("z".toList ++ fmtInt num ++ suffix)
    else none

/-- Go `getRegisterX`: an `X` register to `z<num>[.suffix]`. -/
def getRegisterX (reg suffix : Str) : Option Str :=
  match byteAt reg 0 with
  | none => none
  | some b =>
    if b = 'X'.toNat then
      match Atoi (reg.drop 1) with
      | none => none
      | some num =>
        let suffix := if suffix ≠ [] then ".".toList ++ suffix else suffix
        some ("z".toList ++ fmtInt num ++ suffix)
    else none

/-- Go `getImmediate`: `$0x<hex>` to its value. -/
def getImmediate (imm : Str) : Option Int :=
  if len imm < 3 then none
  else if (bytes imm).take 3 = bytes "$0x".toList then ParseInt (imm.drop 3) 16 64
  else none

/-- The closure `getreg` of `getScalarReg`: the ordinal of a scalar register,
printed in decimal. The byte subtraction `r[0] - 'A'` wraps modulo 256. -/
def getreg (r : Str) : Option Str :=
  let num : Option Int :=
    if len r = 2 ∧ byteAt r 1 = some 'X'.toNat then
      (byteAt r 0).map fun b => (((b + 256 - 'A'.toNat) % 256 : Nat) : Int)
    else if r = "SI".toList then some 4
    else if r = "DI".toList then some 5
    else if r = "BP".toList then some 6
    else if 2 ≤ len r ∧ byteAt r 0 = some 'R'.toNat then Atoi (r.drop 1)
    else some (-1)
  match num with
  | none => none
  | some n => if n = -1 then none else some (fmtInt n)

/-- Go `getScalarReg`. -/
def getScalarReg (reg : Str) (armAddrMode : Bool) : Option Str :=
  if Contains reg "(".toList && Contains reg ")".toList then
    match Split reg "(".toList with
    | [p0, p1] =>
      let parsed : Option Int := if 0 < len p0 then Atoi p0 else some 0
      match parsed with
      | none => none
      | some offset =>
        let suffix : Str :=
          if offset ≠ 0 then ", #".toList ++ fmtInt (Int.tdiv offset 32) ++ ", MUL VL".toList
          else []
        match getreg (ReplaceAll p1 ")".toList []) with
        | none => none
        | some num =>
          if armAddrMode then some ("[x".toList ++ num ++ suffix ++ "]".toList)
          else if offset ≠ 0 then some (fmtInt offset ++ "(x".toList ++ num ++ ")".toList)
          else some ("(x".toList ++ num ++ ")".toList)
    | _ => none
  else
    match getreg reg with
    | none => none
    | some num => some ("x".toList ++ num)

/-! ## Mnemonic registry -/

/-- Go `MnemonicType`. -/
structure MnemonicType where
  Mnemonic : Str
  Suffix : Str
deriving DecidableEq, Repr

/-- Go `mnemonicTbl` after `init`; a missing key gives the zero value. -/
def mnemonicTbl (mnemonic : Str) : MnemonicType :=
  if mnemonic = "VPSRLQ".toList then ⟨"lsr".toList, "d".toList⟩
  else if mnemonic = "VPAND".toList then ⟨"and".toList, "d".toList⟩
  else if mnemonic = "VPSHUFB".toList then ⟨"tbl".toList, "b".toList⟩
  else if mnemonic = "VPBROADCASTB".toList then ⟨"dup".toList, "b".toList⟩
  else if mnemonic = "VPXOR".toList then ⟨"eor".toList, "d".toList⟩
  else if mnemonic = "VMOVDQU".toList then ⟨[], []⟩
  else if mnemonic = "ADDQ".toList then ⟨"add".toList, []⟩
  else if mnemonic = "SHRQ".toList then ⟨"lsr".toList, []⟩
  else if mnemonic = "TESTQ".toList then ⟨"tst".toList, []⟩
  else if mnemonic = "DECQ".toList then ⟨"subs".toList, []⟩
  else if mnemonic = "JZ".toList then ⟨"BEQ".toList, []⟩
  else if mnemonic = "JNZ".toList then ⟨"BNE".toList, []⟩
  else ⟨[], []⟩

/-! ## The translator -/

/-- What a call of `AvxTwo2Sve` returns: `(out, plan9, err)`, with `err` the
message of the error or `none` for `nil`. -/
structure Result where
  out : Str
  plan9 : Bool
  err : Option Str
deriving DecidableEq, Repr

/-- The final `return "", false, fmt.Errorf("avxTwo2Sve unsupported: %s", avx2)`. -/
def unsupported (avx2 : Str) : Option Result :=
  some ⟨[], false, some ("avxTwo2Sve unsupported: ".toList ++ avx2)⟩

/-- The loop that strips one trailing comma from a token. Tokens of `Fields`
are never empty, so the index `len(p[i])-1` is in range. -/
def stripComma (t : Str) : Str :=
  if (bytes t).getLast? = some ','.toNat then t.dropLast else t

/-- The closure `scaledIndex` of the `VMOVDQU` case. -/
def scaledIndex (inp : Str) : Option (Str × Str) :=
  match Split inp ")(".toList with
  | s0 :: s1 :: _ =>
    match getScalarReg (s0 ++ ")".toList) true with
    | none => none
    | some xn =>
      let xm := ReplaceAll s1 "*8)".toList []
      match getScalarReg ("(".toList ++ xm ++ ")".toList) true with
      | none => none
      | some xm => some (stripBrackets xn, stripBrackets xm)
  | _ => none

/-- Case `"VPSRLQ", "VPAND", "VPSHUFB", "VPXOR", "VPBROADCASTB"` of the switch. -/
def caseVector (sveMT : MnemonicType) (p : List Str) (avx2 : Str) : Option Result :=
  match p with
  | [p0, p1, p2] => do
    let zd ← getRegister p2 sveMT.Suffix
    let zn ← getRegister p1 sveMT.Suffix
    let b ← byteAt p0 0
    if b = '$'.toNat then do
      let imm ← getImmediate p0
      some ⟨sveMT.Mnemonic ++ " ".toList ++ zd ++ ", ".toList ++ zn ++ ", #".toList ++ fmtInt imm,
        false, none⟩
    else if b = 'Y'.toNat then do
      let zn2 ← getRegister p0 sveMT.Suffix
      some ⟨sveMT.Mnemonic ++ " ".toList ++ zd ++ ", ".toList ++ zn ++ ", ".toList ++ zn2,
        false, none⟩
    else unsupported avx2
  | [p0, p1] => do
    let zd ← getRegister p1 sveMT.Suffix
    let b ← byteAt p0 0
    let zn ←
      if b = 'Y'.toNat then getRegister p0 sveMT.Suffix
      else do
        let zn ← getRegisterX p0 sveMT.Suffix
        if sveMT.Mnemonic = "dup".toList then some (zn ++ "[0]".toList) else some zn
    some ⟨sveMT.Mnemonic ++ " ".toList ++ zd ++ ", ".toList ++ zn, false, none⟩
  | _ => unsupported avx2

/-- Case `"VMOVDQU"` of the switch. -/
def caseVMOVDQU (sveMT : MnemonicType) (p : List Str) (avx2 : Str) : Option Result :=
  match p with
  | [p0, p1] => do
    let b1 ← byteAt p1 0
    if b1 = 'Y'.toNat then do
      let zd ← getRegister p1 sveMT.Suffix
      if Contains p0 "*8)".toList then do
        let (xn, xm) ← scaledIndex p0
        some ⟨"ld1d \x7b ".toList ++ zd ++ ".".toList ++ "d".toList ++ " \x7d, p0/z, [".toList ++ xn
          ++ ", ".toList ++ xm ++ ", lsl #3]".toList, false, none⟩
      else do
        let xn ← getScalarReg p0 true
        some ⟨"ldr ".toList ++ zd ++ ", ".toList ++ xn, false, none⟩
    else do
      let b0 ← byteAt p0 0
      if b0 = 'Y'.toNat then do
        let zd ← getRegister p0 sveMT.Suffix
        if Contains p1 "*8)".toList then do
          let (xn, xm) ← scaledIndex p1
          some ⟨"st1d \x7b ".toList ++ zd ++ ".".toList ++ "d".toList ++ " \x7d, p0, [".toList ++ xn
            ++ ", ".toList ++ xm ++ ", lsl #3]".toList, false, none⟩
        else do
          let xn ← getScalarReg p1 true
          some ⟨"str ".toList ++ zd ++ ", ".toList ++ xn, false, none⟩
      else unsupported avx2
  | _ => unsupported avx2

/-- Case `"MOVQ"` of the switch. -/
def caseMOVQ (p : List Str) (avx2 : Str) : Option Result :=
  match p with
  | [p0, p1] => do
    let b1 ← byteAt p1 0
    if b1 = 'X'.toNat then do
      let xd ← getRegisterX p1 "d".toList
      let xn ← getScalarReg p0 true
      some ⟨"mov ".toList ++ xd ++ ", ".toList ++ xn, false, none⟩
    else do
      let xn ← getScalarReg p1 true
      if HasPrefix p0 "$0x".toList then do
        let imm ← getImmediate p0
        some ⟨"mov ".toList ++ xn ++ ", #".toList ++ fmtInt imm, false, none⟩
      else do
        let src ←
          if !Contains p0 "(FP)".toList then
            (getScalarReg p0 false).map fun src => ReplaceAll src "x".toList "R".toList
          else some p0
        some ⟨"MOVD ".toList ++ src ++ ", ".toList ++ ReplaceAll xn "x".toList "R".toList,
          true, none⟩
  | _ => unsupported avx2

/-- Case `"ADDQ", "SHRQ"` of the switch. -/
def caseArith (sveMT : MnemonicType) (p : List Str) (avx2 : Str) : Option Result :=
  match p with
  | [p0, p1] => do
    let xn ← getScalarReg p1 true
    let b ← byteAt p0 0
    if b = '$'.toNat then do
      let imm ← getImmediate p0
      some ⟨sveMT.Mnemonic ++ " ".toList ++ xn ++ ", ".toList ++ xn ++ ", #".toList ++ fmtInt imm,
        false, none⟩
    else do
      let xn2 ← getScalarReg p0 true
      some ⟨sveMT.Mnemonic ++ " ".toList ++ xn ++ ", ".toList ++ xn ++ ", ".toList ++ xn2,
        false, none⟩
  | _ => unsupported avx2

/-- Case `"TESTQ"` of the switch. -/
def caseTESTQ (sveMT : MnemonicType) (p : List Str) (avx2 : Str) : Option Result :=
  match p with
  | [p0, p1] => do
    let xn ← getScalarReg p1 true
    let xn2 ← getScalarReg p0 true
    some ⟨sveMT.Mnemonic ++ " ".toList ++ xn ++ ", ".toList ++ xn2, false, none⟩
  | _ => unsupported avx2

/-- Case `"DECQ"` of the switch. -/
def caseDECQ (sveMT : MnemonicType) (p : List Str) (avx2 : Str) : Option Result :=
  match p with
  | [p0] => do
    let xn ← getScalarReg p0 true
    some ⟨sveMT.Mnemonic ++ " ".toList ++ xn ++ ", ".toList ++ xn ++ ", #1".toList, false, none⟩
  | _ => unsupported avx2

/-- The `switch mnemonic` of `AvxTwo2Sve` with the return that follows it. -/
def dispatch (mnemonic : Str) (p : List Str) (avx2 : Str)
    (patchLabel : Option (Str → Str)) : Option Result :=
  let sveMT := mnemonicTbl mnemonic
  if mnemonic = "VPSRLQ".toList ∨ mnemonic = "VPAND".toList ∨ mnemonic = "VPSHUFB".toList
      ∨ mnemonic = "VPXOR".toList ∨ mnemonic = "VPBROADCASTB".toList then
    caseVector sveMT p avx2
  else if mnemonic = "VMOVDQU".toList then caseVMOVDQU sveMT p avx2
  else if mnemonic = "MOVQ".toList then caseMOVQ p avx2
  else if mnemonic = "ADDQ".toList ∨ mnemonic = "SHRQ".toList then caseArith sveMT p avx2
  else if mnemonic = "TESTQ".toList then caseTESTQ sveMT p avx2
  else if mnemonic = "DECQ".toList then caseDECQ sveMT p avx2
  else if mnemonic = "VZEROUPPER".toList then some ⟨[], true, none⟩
  else if mnemonic = "JZ".toList ∨ mnemonic = "JNZ".toList then
    let out := ReplaceAll avx2 mnemonic sveMT.Mnemonic
    match patchLabel with
    | some f => some ⟨f out, true, none⟩
    | none => some ⟨out, true, none⟩
  else if mnemonic = "RET".toList then some ⟨avx2, true, none⟩
  else unsupported avx2

/-- The token list `p` after the comma-stripping loop. -/
def tokens (avx2 : Str) : List Str := (Fields avx2).map stripComma

/-- Go `AvxTwo2Sve`; the `nil` hook is `none`. A line without a token panics
at `p[0]`. -/
def AvxTwo2Sve (avx2 : Str) (patchLabel : Option (Str → Str)) : Option Result :=
  match tokens avx2 with
  | [] => none
  | mnemonic :: p => dispatch mnemonic p avx2 patchLabel

/-! ## Vocabulary of the specification -/

/-- The mnemonics that the switch of `AvxTwo2Sve` handles. -/
def handledMnemonics : List Str :=
  ["VPSRLQ".toList, "VPAND".toList, "VPSHUFB".toList, "VPXOR".toList, "VPBROADCASTB".toList,
   "VMOVDQU".toList, "MOVQ".toList, "ADDQ".toList, "SHRQ".toList, "TESTQ".toList,
   "DECQ".toList, "VZEROUPPER".toList, "JZ".toList, "JNZ".toList, "RET".toList]

/-- A whitespace-free piece of text. -/
def NoSpace (t : Str) : Prop := ∀ c ∈ t, isSpace c = false

/-- The five vector mnemonics of the first case of the switch. -/
inductive VecOp
  | VPSRLQ | VPAND | VPSHUFB | VPXOR | VPBROADCASTB
deriving DecidableEq, Repr

/-- The source mnemonic. -/
def VecOp.avx : VecOp → Str
  | .VPSRLQ => "VPSRLQ".toList
  | .VPAND => "VPAND".toList
  | .VPSHUFB => "VPSHUFB".toList
  | .VPXOR => "VPXOR".toList
  | .VPBROADCASTB => "VPBROADCASTB".toList

/-- The target mnemonic that the specification gives for a vector mnemonic. -/
def VecOp.sve : VecOp → Str
  | .VPSRLQ => "lsr".toList
  | .VPAND => "and".toList
  | .VPSHUFB => "tbl".toList
  | .VPXOR => "eor".toList
  | .VPBROADCASTB => "dup".toList

/-- The element suffix that the specification gives for a vector mnemonic. -/
def VecOp.suffix : VecOp → Str
  | .VPSRLQ => "d".toList
  | .VPAND => "d".toList
  | .VPSHUFB => "b".toList
  | .VPXOR => "d".toList
  | .VPBROADCASTB => "b".toList

/-- The hexadecimal digit characters, in either case. -/
def hexChars : Str := "0123456789abcdefABCDEF".toList

/-- A string of hexadecimal digits. -/
def IsHex (h : Str) : Prop := ∀ c ∈ h, c ∈ hexChars

/-- Value of one hexadecimal digit. -/
def hexDigitValue : Char → Nat
  | '0' => 0 | '1' => 1 | '2' => 2 | '3' => 3 | '4' => 4
  | '5' => 5 | '6' => 6 | '7' => 7 | '8' => 8 | '9' => 9
  | 'a' => 10 | 'b' => 11 | 'c' => 12 | 'd' => 13 | 'e' => 14 | 'f' => 15
  | 'A' => 10 | 'B' => 11 | 'C' => 12 | 'D' => 13 | 'E' => 14 | 'F' => 15
  | _ => 0

/-- Value of a string of hexadecimal digits, most significant digit first. -/
def hexValue (h : Str) : Nat := h.foldl (fun acc c => acc * 16 + hexDigitValue c) 0

/-- The names of the general-purpose registers: the four `?X` names with
ordinals 0 to 3, the fixed names `SI`, `DI`, `BP`, and the numbered pattern
`R<n>` with `n` written in decimal. -/
inductive GPReg
  | AX | BX | CX | DX | SI | DI | BP
  | R (n : Nat)
deriving DecidableEq, Repr

/-- The token that names a general-purpose register. -/
def GPReg.token : GPReg → Str
  | .AX => "AX".toList
  | .BX => "BX".toList
  | .CX => "CX".toList
  | .DX => "DX".toList
  | .SI => "SI".toList
  | .DI => "DI".toList
  | .BP => "BP".toList
  | .R n => 'R' :: dec n

/-- The ordinal of a general-purpose register. -/
def GPReg.ordinal : GPReg → Nat
  | .AX => 0
  | .BX => 1
  | .CX => 2
  | .DX => 3
  | .SI => 4
  | .DI => 5
  | .BP => 6
  | .R n => n

/-- The two scalar arithmetic mnemonics. -/
inductive ArithOp
  | ADDQ | SHRQ
deriving DecidableEq, Repr

/-- The source mnemonic. -/
def ArithOp.avx : ArithOp → Str
  | .ADDQ => "ADDQ".toList
  | .SHRQ => "SHRQ".toList

/-- The target mnemonic that the specification gives for a scalar arithmetic
mnemonic. -/
def ArithOp.sve : ArithOp → Str
  | .ADDQ => "add".toList
  | .SHRQ => "lsr".toList

/-- A decimal digit character. -/
def IsDigit (c : Char) : Prop := 48 ≤ c.toNat ∧ c.toNat ≤ 57

instance (c : Char) : Decidable (IsDigit c) := by
  unfold IsDigit
  infer_instance

instance (t : Str) : Decidable (NoSpace t) := by
  unfold NoSpace
  infer_instance

/-- A possible last token of a line: not empty, free of whitespace, and not
ending in a comma. -/
structure Word (t : Str) : Prop where
  noSpace : NoSpace t
  ne_nil : t ≠ []
  last : t.getLast? ≠ some ','

instance (t : Str) : Decidable (Word t) :=
  decidable_of_iff (NoSpace t ∧ t ≠ [] ∧ t.getLast? ≠ some ',')
    ⟨fun h => ⟨h.1, h.2.1, h.2.2⟩, fun h => ⟨h.1, h.2, h.3⟩⟩

instance (h : Str) : Decidable (IsHex h) := by
  unfold IsHex
  infer_instance

/-- A digit, an upper-case letter or the minus sign: the characters of
register names and decimal numbers. -/
def Plain (c : Char) : Prop :=
  (48 ≤ c.toNat ∧ c.toNat ≤ 57) ∨ (65 ≤ c.toNat ∧ c.toNat ≤ 90) ∨ c.toNat = 45

instance (c : Char) : Decidable (Plain c) := by
  unfold Plain
  infer_instance

/-- The text that `getScalarReg` gives for a memory reference with parsed
offset `k` and base ordinal `b`. -/
def memText (k : Int) (b : Nat) (armAddrMode : Bool) : Str :=
  if armAddrMode then
    "[x".toList ++ dec b
      ++ (if k ≠ 0 then ", #".toList ++ fmtInt (Int.tdiv k 32) ++ ", MUL VL".toList else [])
      ++ "]".toList
  else if k ≠ 0 then fmtInt k ++ "(x".toList ++ dec b ++ ")".toList
  else "(x".toList ++ dec b ++ ")".toList

/-- The characters of a decimal offset: digits and the minus sign. -/
def NumText (off : Str) : Prop := ∀ c ∈ off, IsDigit c ∨ c = '-'

/-- The operand `off(B)(I*8)`. -/
def scaledTok (off : Str) (B I : GPReg) : Str :=
  off ++ '(' :: (B.token ++ ')' :: '(' :: (I.token ++ ['*', '8', ')']))

/-- What the characters of an operand are not. -/
def Quiet (c : Char) : Prop := isSpace c = false ∧ c ≠ ','

instance (c : Char) : Decidable (Quiet c) := by
  unfold Quiet
  infer_instance

/-- What a caller observes of a returned result: the output text, the flag,
and whether the error is non-nil. -/
def observe (r : Result) : Str × Bool × Bool := (r.out, r.plan9, r.err.isSome)

/-- The token lists that the legacy-dialect flag marks: a conditional branch,
a return, the vector epilogue, or a scalar move whose destination is not an
X register and whose source is not a `$0x` immediate. -/
def legacyTokens (m : Str) (p : List Str) : Prop :=
  m = "JZ".toList ∨ m = "JNZ".toList ∨ m = "RET".toList ∨ m = "VZEROUPPER".toList
    ∨ (m = "MOVQ".toList ∧ ∃ p0 p1, p = [p0, p1] ∧ byteAt p1 0 ≠ some 'X'.toNat
        ∧ HasPrefix p0 "$0x".toList = false)

/-- The lines that the legacy-dialect flag marks. -/
def LegacyLine (avx2 : Str) : Prop :=
  match tokens avx2 with
  | [] => False
  | m :: p => legacyTokens m p

/-- The flag of a result that carries no error. -/
def legacyFlag (r : Result) : Bool := r.plan9 && r.err.isNone

/-- A text that is not an integer in the digits `allowed`: it is empty, a
lone sign, or contains a character that is not an allowed digit, a leading
sign apart. -/
def Malformed (allowed : Char → Prop) (s : Str) : Prop :=
  s = [] ∨ s = ['+'] ∨ s = ['-']
    ∨ ∃ pre c post, s = pre ++ c :: post ∧ ¬ allowed c ∧ (pre = [] → c ≠ '+' ∧ c ≠ '-')

/-- A result is either free of error or the unsupported error for the line. -/
def onlyUnsupported (a : Str) (r : Result) : Bool :=
  r.err.isNone || r == ⟨[], false, some ("avxTwo2Sve unsupported: ".toList ++ a)⟩

/-- Value of a string of decimal digits, most significant digit first. -/
def natValue (ds : Str) : Nat := ds.foldl (fun acc c => acc * 10 + (c.toNat - 48)) 0

/-- A decimal integer text and its value: one or more decimal digits,
optionally after one sign. -/
def IsDecimalInt (s : Str) (v : Int) : Prop :=
  ∃ ds, ds ≠ [] ∧ (∀ c ∈ ds, IsDigit c)
    ∧ ((s = ds ∧ v = (natValue ds : Int)) ∨ (s = '+' :: ds ∧ v = (natValue ds : Int))
        ∨ (s = '-' :: ds ∧ v = -(natValue ds : Int)))

/-! ## Facts about the library functions -/

theorem bytes_append (s t : Str) : bytes (s ++ t) = bytes s ++ bytes t := by
  induction s with
  | nil => rfl
  | cons c cs ih => simp [bytes, ih]

theorem utf8Char_ne_nil (c : Char) : utf8Char c ≠ [] := by
  unfold utf8Char
  simp only []
  split_ifs <;> simp

theorem utf8Char_getLast (c : Char) (b : Nat) (hb : b < 128) :
    (utf8Char c).getLast? = some b ↔ c.toNat = b := by
  unfold utf8Char
  simp only []
  split_ifs with h1 h2 h3
  · simp
  · simp [List.getLast?]; omega
  · simp [List.getLast?]; omega
  · simp [List.getLast?]; omega

theorem utf8Char_head (c : Char) (b : Nat) (hb : b < 128) :
    (utf8Char c).head? = some b ↔ c.toNat = b := by
  unfold utf8Char
  simp only []
  split_ifs with h1 h2 h3
  · simp
  · simp; omega
  · simp; omega
  · simp; omega

theorem toNat_eq_iff (c d : Char) : c.toNat = d.toNat ↔ c = d := by
  constructor
  · intro h
    have h1 : Char.ofNat c.toNat = Char.ofNat d.toNat := by rw [h]
    simpa [Char.ofNat_toNat] using h1
  · intro h; rw [h]

theorem bytes_getLast_comma (t : Str) :
    (bytes t).getLast? = some ','.toNat ↔ t.getLast? = some ',' := by
  rcases List.eq_nil_or_concat t with h | ⟨l, c, h⟩
  · subst h; simp [bytes]
  · subst h
    rw [List.concat_eq_append, bytes_append]
    have hb : bytes [c] = utf8Char c := by simp [bytes]
    rw [hb, List.getLast?_append_of_ne_nil _ (utf8Char_ne_nil c),
      utf8Char_getLast c _ (by decide), toNat_eq_iff]
    simp

theorem byteAt_zero_cons (c : Char) (s : Str) : byteAt (c :: s) 0 = (utf8Char c).head? := by
  unfold byteAt bytes
  have h := utf8Char_ne_nil c
  cases hu : utf8Char c with
  | nil => exact absurd hu h
  | cons x xs => simp

theorem byteAt_zero_eq (c d : Char) (s : Str) (hd : d.toNat < 128) :
    byteAt (c :: s) 0 = some d.toNat ↔ c = d := by
  rw [byteAt_zero_cons, utf8Char_head c _ hd, toNat_eq_iff]

theorem noSpace_append {s t : Str} (hs : NoSpace s) (ht : NoSpace t) : NoSpace (s ++ t) := by
  intro c hc
  rcases List.mem_append.mp hc with h | h
  · exact hs c h
  · exact ht c h

theorem noSpace_cons {c : Char} {t : Str} (hc : isSpace c = false) (ht : NoSpace t) :
    NoSpace (c :: t) := by
  intro d hd
  rcases List.mem_cons.mp hd with h | h
  · rw [h]; exact hc
  · exact ht d h

theorem fieldsAux_append (t rest cur : Str) (h : NoSpace t) :
    fieldsAux (t ++ rest) cur = fieldsAux rest (cur ++ t) := by
  induction t generalizing cur with
  | nil => simp
  | cons c cs ih =>
    have hc : isSpace c = false := h c (List.mem_cons_self c cs)
    have hcs : NoSpace cs := fun d hd => h d (List.mem_cons_of_mem c hd)
    simp [fieldsAux, hc, ih _ hcs]

theorem Fields_cons_space (t rest : Str) (h : NoSpace t) (hne : t ≠ []) :
    Fields (t ++ ' ' :: rest) = t :: Fields rest := by
  unfold Fields
  rw [fieldsAux_append _ _ _ h]
  have hsp : isSpace ' ' = true := by decide
  simp [fieldsAux, hsp, hne]

theorem Fields_single (t : Str) (h : NoSpace t) (hne : t ≠ []) : Fields t = [t] := by
  unfold Fields
  have := fieldsAux_append t [] [] h
  simp only [List.append_nil, List.nil_append] at this
  rw [this]
  simp [fieldsAux, hne]

theorem fieldsAux_ne_nil (s cur : Str) : ∀ t ∈ fieldsAux s cur, t ≠ [] := by
  induction s generalizing cur with
  | nil =>
    intro t ht
    unfold fieldsAux at ht
    split_ifs at ht with h
    · simp at ht
    · rw [List.mem_singleton.mp ht]
      simpa using h
  | cons c cs ih =>
    intro t ht
    unfold fieldsAux at ht
    split_ifs at ht with h1 h2
    · exact ih [] t ht
    · rcases List.mem_cons.mp ht with h | h
      · rw [h]; simpa using h2
      · exact ih [] t h
    · exact ih _ t ht

/-- No token of `strings.Fields` is empty: the index `len(p[i])-1` of the
comma-stripping loop is always in range. -/
theorem Fields_ne_nil (s : Str) : ∀ t ∈ Fields s, t ≠ [] :=
  fieldsAux_ne_nil s []

theorem stripComma_comma (t : Str) : stripComma (t ++ [',']) = t := by
  unfold stripComma
  rw [if_pos ((bytes_getLast_comma _).mpr (by simp))]
  simp

theorem stripComma_id (t : Str) (h : t.getLast? ≠ some ',') : stripComma t = t := by
  unfold stripComma
  rw [if_neg (fun hb => h ((bytes_getLast_comma _).mp hb))]

theorem tokens_comma (t rest : Str) (h : NoSpace t) :
    tokens (t ++ ',' :: ' ' :: rest) = t :: tokens rest := by
  have e : t ++ ',' :: ' ' :: rest = (t ++ [',']) ++ ' ' :: rest := by simp
  have hn : NoSpace (t ++ [',']) := noSpace_append h (noSpace_cons (by decide) (fun _ hc => by simp at hc))
  unfold tokens
  rw [e, Fields_cons_space _ _ hn (by simp), List.map_cons, stripComma_comma]

theorem tokens_space (t rest : Str) (h : NoSpace t) (hne : t ≠ [])
    (hl : t.getLast? ≠ some ',') : tokens (t ++ ' ' :: rest) = t :: tokens rest := by
  unfold tokens
  rw [Fields_cons_space _ _ h hne, List.map_cons, stripComma_id _ hl]

theorem tokens_last (t : Str) (h : NoSpace t) (hne : t ≠ [])
    (hl : t.getLast? ≠ some ',') : tokens t = [t] := by
  unfold tokens
  rw [Fields_single _ h hne, List.map_cons, stripComma_id _ hl, List.map_nil]

/-! ## Decimal numerals -/

theorem decAux_acc (fuel n : Nat) (acc : Str) :
    decAux fuel n acc = decAux fuel n [] ++ acc := by
  induction fuel generalizing n acc with
  | zero => simp [decAux]
  | succ f ih =>
    unfold decAux
    split_ifs with h
    · simp
    · rw [ih (n / 10) (digitChar (n % 10) :: acc), ih (n / 10) [digitChar (n % 10)]]
      simp

theorem decAux_fuel (fuel fuel' n : Nat) (acc : Str) (h : n < fuel) (h' : n < fuel') :
    decAux fuel n acc = decAux fuel' n acc := by
  induction fuel generalizing fuel' n acc with
  | zero => omega
  | succ f ih =>
    cases fuel' with
    | zero => omega
    | succ f' =>
      unfold decAux
      split_ifs with h10
      · rfl
      · exact ih f' (n / 10) _ (by omega) (by omega)

theorem dec_lt (n : Nat) (h : n < 10) : dec n = [digitChar n] := by
  simp [dec, decAux, h]

theorem dec_ge (n : Nat) (h : 10 ≤ n) : dec n = dec (n / 10) ++ [digitChar (n % 10)] := by
  have h10 : ¬ n < 10 := by omega
  unfold dec
  rw [decAux, if_neg h10, decAux_acc, decAux_fuel n (n / 10 + 1) (n / 10) [] (by omega) (by omega)]

theorem digitChar_toNat (d : Nat) (h : d < 10) : (digitChar d).toNat = 48 + d := by
  interval_cases d <;> rfl

theorem digitChar_isDigit (d : Nat) (h : d < 10) : IsDigit (digitChar d) := by
  unfold IsDigit
  rw [digitChar_toNat d h]
  omega

theorem dec_isDigit (n : Nat) : ∀ c ∈ dec n, IsDigit c := by
  induction n using Nat.strong_induction_on with
  | _ n ih =>
    intro c hc
    by_cases h : n < 10
    · rw [dec_lt n h] at hc
      rw [List.mem_singleton.mp hc]
      exact digitChar_isDigit n h
    · rw [dec_ge n (by omega)] at hc
      rcases List.mem_append.mp hc with h1 | h1
      · exact ih (n / 10) (by omega) c h1
      · rw [List.mem_singleton.mp h1]
        exact digitChar_isDigit _ (by omega)

theorem dec_ne_nil (n : Nat) : dec n ≠ [] := by
  by_cases h : n < 10
  · rw [dec_lt n h]; simp
  · rw [dec_ge n (by omega)]; simp

theorem digitVal_digitChar (d : Nat) (h : d < 10) : digitVal 10 (digitChar d) = some d := by
  interval_cases d <;> rfl

theorem parseDigits_concat (b : Nat) (s : Str) (c : Char) (acc : Nat) :
    parseDigits b (s ++ [c]) acc
      = (parseDigits b s acc).bind fun v => (digitVal b c).map fun d => v * b + d := by
  induction s generalizing acc with
  | nil =>
    simp only [List.nil_append, parseDigits]
    cases digitVal b c <;> simp
  | cons x xs ih =>
    simp only [List.cons_append, parseDigits]
    cases digitVal b x with
    | none => simp
    | some d => simp [ih]

theorem parseDigits_dec (n : Nat) : parseDigits 10 (dec n) 0 = some n := by
  induction n using Nat.strong_induction_on with
  | _ n ih =>
    by_cases h : n < 10
    · rw [dec_lt n h]
      simp [parseDigits, digitVal_digitChar n h]
    · rw [dec_ge n (by omega), parseDigits_concat, ih (n / 10) (by omega),
        digitVal_digitChar _ (Nat.mod_lt _ (by decide))]
      simp only [Option.some_bind, Option.map_some']
      congr 1
      omega

theorem isDigit_ne {c : Char} (hc : IsDigit c) (x : Char) (hx : ¬ IsDigit x) : c ≠ x := by
  intro h
  rw [h] at hc
  exact hx hc

theorem dec_head (n : Nat) : ∃ c cs, dec n = c :: cs ∧ IsDigit c := by
  cases h : dec n with
  | nil => exact absurd h (dec_ne_nil n)
  | cons c cs => exact ⟨c, cs, rfl, dec_isDigit n c (by rw [h]; simp)⟩

theorem Atoi_dec (n : Nat) (h : n < 2 ^ 63) : Atoi (dec n) = some (n : Int) := by
  obtain ⟨c, cs, e, hc⟩ := dec_head n
  have hp := parseDigits_dec n
  have h1 : c ≠ '-' := isDigit_ne hc _ (by decide)
  have h2 : c ≠ '+' := isDigit_ne hc _ (by decide)
  have h3 : ¬ (2 ^ 63 ≤ n) := by omega
  unfold Atoi ParseInt
  rw [e] at hp ⊢
  simp [h1, h2, hp]
  omega

theorem Atoi_neg_dec (n : Nat) (h : n ≤ 2 ^ 63) : Atoi ('-' :: dec n) = some (-(n : Int)) := by
  have hp := parseDigits_dec n
  have h3 : ¬ (2 ^ 63 < n) := by omega
  unfold Atoi ParseInt
  simp [hp, dec_ne_nil n]
  omega

theorem fmtInt_natCast (n : Nat) : fmtInt (n : Int) = dec n := by
  unfold fmtInt
  have : ¬ ((n : Int) < 0) := by omega
  simp [this]

theorem Atoi_fmtInt (k : Int) (h1 : -(2 ^ 63) ≤ k) (h2 : k < 2 ^ 63) :
    Atoi (fmtInt k) = some k := by
  unfold fmtInt
  split_ifs with h
  · have e := Atoi_neg_dec (-k).toNat (by omega)
    rw [e]
    congr 1
    omega
  · have e := Atoi_dec k.toNat (by omega)
    rw [e]
    congr 1
    omega

/-! ## Tokens of an instruction line -/

theorem getLast_ne_of_forall (s : Str) (x : Char) (h : ∀ c ∈ s, c ≠ x) :
    s.getLast? ≠ some x := by
  intro e
  exact h x (List.mem_of_getLast?_eq_some e) rfl

theorem word_of_forall {t : Str} (h1 : ∀ c ∈ t, isSpace c = false) (h2 : t ≠ [])
    (h3 : ∀ c ∈ t, c ≠ ',') : Word t :=
  ⟨h1, h2, getLast_ne_of_forall t ',' h3⟩

theorem tokens_line1 (m t1 : Str) (hm : Word m) (h1 : Word t1) :
    tokens (m ++ ' ' :: t1) = [m, t1] := by
  rw [tokens_space m _ hm.1 hm.2 hm.3, tokens_last t1 h1.1 h1.2 h1.3]

theorem tokens_line2 (m t1 t2 : Str) (hm : Word m) (h1 : NoSpace t1) (h2 : Word t2) :
    tokens (m ++ ' ' :: (t1 ++ ',' :: ' ' :: t2)) = [m, t1, t2] := by
  rw [tokens_space m _ hm.1 hm.2 hm.3, tokens_comma t1 _ h1, tokens_last t2 h2.1 h2.2 h2.3]

theorem tokens_line3 (m t1 t2 t3 : Str) (hm : Word m) (h1 : NoSpace t1) (h2 : NoSpace t2)
    (h3 : Word t3) :
    tokens (m ++ ' ' :: (t1 ++ ',' :: ' ' :: (t2 ++ ',' :: ' ' :: t3))) = [m, t1, t2, t3] := by
  rw [tokens_space m _ hm.1 hm.2 hm.3, tokens_comma t1 _ h1, tokens_comma t2 _ h2,
    tokens_last t3 h3.1 h3.2 h3.3]

theorem isDigit_noSpace {c : Char} (hc : IsDigit c) : isSpace c = false := by
  obtain ⟨h1, h2⟩ := hc
  unfold isSpace
  simp
  omega

theorem dec_noSpace (n : Nat) : NoSpace (dec n) :=
  fun c hc => isDigit_noSpace (dec_isDigit n c hc)

theorem dec_ne (n : Nat) (x : Char) (hx : ¬ IsDigit x) : ∀ c ∈ dec n, c ≠ x :=
  fun c hc => isDigit_ne (dec_isDigit n c hc) x hx

theorem word_reg (r : Char) (n : Nat) (hr : isSpace r = false) :
    Word (r :: dec n) := by
  refine ⟨noSpace_cons hr (dec_noSpace n), by simp, ?_⟩
  have e : (r :: dec n).getLast? = (dec n).getLast? := by
    obtain ⟨c, cs, e, -⟩ := dec_head n
    rw [e]
    simp [List.getLast?_cons_cons]
  rw [e]
  exact getLast_ne_of_forall _ _ (dec_ne n ',' (by decide))

/-! ## Vector registers -/

theorem getRegister_Y (n : Nat) (h : n < 2 ^ 63) (suffix : Str) :
    getRegister ('Y' :: dec n) suffix
      = some ('z' :: dec n ++ (if suffix ≠ [] then '.' :: suffix else suffix)) := by
  unfold getRegister
  rw [(byteAt_zero_eq 'Y' 'Y' _ (by decide)).mpr rfl]
  simp [Atoi_dec n h, fmtInt_natCast]

theorem getRegisterX_X (n : Nat) (h : n < 2 ^ 63) (suffix : Str) :
    getRegisterX ('X' :: dec n) suffix
      = some ('z' :: dec n ++ (if suffix ≠ [] then '.' :: suffix else suffix)) := by
  unfold getRegisterX
  rw [(byteAt_zero_eq 'X' 'X' _ (by decide)).mpr rfl]
  simp [Atoi_dec n h, fmtInt_natCast]

theorem dispatch_vector (op : VecOp) (p : List Str) (avx2 : Str)
    (patchLabel : Option (Str → Str)) :
    dispatch op.avx p avx2 patchLabel = caseVector ⟨op.sve, op.suffix⟩ p avx2 := by
  cases op <;> rfl

theorem vecOp_word (op : VecOp) : Word op.avx := by
  cases op <;> decide

/-! ## Hexadecimal immediates -/

theorem digitVal_hex : ∀ c ∈ hexChars, digitVal 16 c = some (hexDigitValue c) := by decide

theorem hexChars_plain :
    ∀ c ∈ hexChars, c ≠ '-' ∧ c ≠ '+' ∧ c ≠ ',' ∧ isSpace c = false := by decide

theorem parseDigits_hex (h : Str) (hh : IsHex h) (acc : Nat) :
    parseDigits 16 h acc = some (h.foldl (fun acc c => acc * 16 + hexDigitValue c) acc) := by
  induction h generalizing acc with
  | nil => rfl
  | cons c cs ih =>
    have hc : digitVal 16 c = some (hexDigitValue c) := digitVal_hex c (hh c (by simp))
    have hcs : IsHex cs := fun d hd => hh d (List.mem_cons_of_mem c hd)
    simp only [parseDigits, hc, List.foldl_cons]
    exact ih hcs _

theorem ParseInt_hex (h : Str) (hne : h ≠ []) (hh : IsHex h) (hv : hexValue h < 2 ^ 63) :
    ParseInt h 16 64 = some (hexValue h : Int) := by
  cases h with
  | nil => exact absurd rfl hne
  | cons c cs =>
    have hp := parseDigits_hex (c :: cs) hh 0
    obtain ⟨h1, h2, -, -⟩ := hexChars_plain c (hh c (by simp))
    have hv2 : decide (2 ^ (64 - 1) ≤ hexValue (c :: cs)) = false := by
      rw [decide_eq_false_iff_not]
      omega
    have b1 : (c == '-') = false := by simp [h1]
    have b2 : (c == '+') = false := by simp [h2]
    unfold ParseInt
    simp only [b1, b2, Bool.or_self, Bool.false_eq_true, if_false, List.isEmpty_cons, hp,
      Bool.not_false, Bool.true_and, Bool.false_and]
    unfold hexValue at hv2 ⊢
    rw [hv2]
    rfl

theorem getImmediate_hex (h : Str) (hne : h ≠ []) (hh : IsHex h) (hv : hexValue h < 2 ^ 63) :
    getImmediate ('$' :: '0' :: 'x' :: h) = some (hexValue h : Int) := by
  have hb : bytes ('$' :: '0' :: 'x' :: h) = 36 :: 48 :: 120 :: bytes h := rfl
  have hb3 : bytes "$0x".toList = [36, 48, 120] := rfl
  unfold getImmediate len
  rw [hb, hb3]
  simp [ParseInt_hex h hne hh hv]

theorem isHex_noSpace {h : Str} (hh : IsHex h) : NoSpace h :=
  fun c hc => (hexChars_plain c (hh c hc)).2.2.2

theorem noSpace_imm (h : Str) (hh : IsHex h) : NoSpace ('$' :: '0' :: 'x' :: h) :=
  noSpace_cons (by decide) (noSpace_cons (by decide) (noSpace_cons (by decide) (isHex_noSpace hh)))

/-! ## Searching, splitting and replacing -/

theorem isPrefixOf_cons_ne (a c : Char) (xs ys : Str) (h : c ≠ a) :
    (a :: xs).isPrefixOf (c :: ys) = false := by
  have : (a == c) = false := by simp [Ne.symm h]
  simp [List.isPrefixOf, this]

theorem Contains_skip (a : Char) (sub s rest : Str) (h : ∀ c ∈ s, c ≠ a) :
    Contains (s ++ rest) (a :: sub) = Contains rest (a :: sub) := by
  induction s with
  | nil => rfl
  | cons c cs ih =>
    have hc : c ≠ a := h c (List.mem_cons_self c cs)
    have hcs : ∀ d ∈ cs, d ≠ a := fun d hd => h d (List.mem_cons_of_mem c hd)
    simp only [List.cons_append, Contains, isPrefixOf_cons_ne a c _ _ hc, Bool.false_or]
    exact ih hcs

theorem Contains_of_forall_ne (a : Char) (sub s : Str) (h : ∀ c ∈ s, c ≠ a) :
    Contains s (a :: sub) = false := by
  have := Contains_skip a sub s [] h
  rw [List.append_nil] at this
  rw [this]
  rfl

theorem Contains_here (sub rest : Str) : Contains (sub ++ rest) sub = true := by
  cases h : sub ++ rest with
  | nil =>
    have : sub = [] := (List.append_eq_nil.mp h).1
    simp [Contains, this]
  | cons c cs =>
    have hp : sub.isPrefixOf (sub ++ rest) = true := by
      rw [List.isPrefixOf_iff_prefix]
      exact List.prefix_append sub rest
    rw [h] at hp
    simp [Contains, hp]

theorem splitAux_skip (a : Char) (sep s rest cur : Str) (h : ∀ c ∈ s, c ≠ a) :
    splitAux (a :: sep) 0 (s ++ rest) cur = splitAux (a :: sep) 0 rest (cur ++ s) := by
  induction s generalizing cur with
  | nil => simp
  | cons c cs ih =>
    have hc : c ≠ a := h c (List.mem_cons_self c cs)
    have hcs : ∀ d ∈ cs, d ≠ a := fun d hd => h d (List.mem_cons_of_mem c hd)
    simp only [List.cons_append, splitAux, isPrefixOf_cons_ne a c _ _ hc, Bool.false_eq_true,
      if_false, List.append_eq]
    rw [ih _ hcs]
    simp

theorem Split_paren (off rest : Str) (h1 : ∀ c ∈ off, c ≠ '(') (h2 : ∀ c ∈ rest, c ≠ '(') :
    Split (off ++ '(' :: rest) "(".toList = [off, rest] := by
  have e1 := splitAux_skip '(' [] off ('(' :: rest) [] h1
  have e2 := splitAux_skip '(' [] rest [] [] h2
  simp only [List.append_nil, List.nil_append] at e1 e2
  unfold Split
  show splitAux ['('] 0 (off ++ '(' :: rest) [] = [off, rest]
  rw [e1]
  simp only [splitAux, List.isPrefixOf, beq_self_eq_true, Bool.and_self, if_true,
    List.length_singleton, Nat.sub_self]
  rw [e2]
  rfl

theorem replaceAux_skip (a : Char) (old new s rest : Str) (h : ∀ c ∈ s, c ≠ a) :
    replaceAux (a :: old) new 0 (s ++ rest) = s ++ replaceAux (a :: old) new 0 rest := by
  induction s with
  | nil => rfl
  | cons c cs ih =>
    have hc : c ≠ a := h c (List.mem_cons_self c cs)
    have hcs : ∀ d ∈ cs, d ≠ a := fun d hd => h d (List.mem_cons_of_mem c hd)
    simp only [List.cons_append, replaceAux, isPrefixOf_cons_ne a c _ _ hc, Bool.false_eq_true,
      if_false, List.append_eq]
    rw [ih hcs]

theorem ReplaceAll_none (a : Char) (old new s : Str) (h : ∀ c ∈ s, c ≠ a) :
    ReplaceAll s (a :: old) new = s := by
  have := replaceAux_skip a old new s [] h
  simp only [List.append_nil] at this
  unfold ReplaceAll
  simp only [List.isEmpty_cons, Bool.false_eq_true, if_false]
  rw [this]
  simp [replaceAux]

theorem ReplaceAll_close (s : Str) (h : ∀ c ∈ s, c ≠ ')') :
    ReplaceAll (s ++ ")".toList) ")".toList [] = s := by
  unfold ReplaceAll
  show (if [')'].isEmpty = true then _ else replaceAux [')'] [] 0 (s ++ [')'])) = s
  simp only [List.isEmpty_cons, Bool.false_eq_true, if_false]
  rw [replaceAux_skip ')' [] [] s _ h]
  simp [replaceAux, List.isPrefixOf]

theorem ReplaceAll_scale (s : Str) (h : ∀ c ∈ s, c ≠ '*') :
    ReplaceAll (s ++ "*8)".toList) "*8)".toList [] = s := by
  unfold ReplaceAll
  show (if ['*', '8', ')'].isEmpty = true then _
    else replaceAux ['*', '8', ')'] [] 0 (s ++ ['*', '8', ')'])) = s
  simp only [List.isEmpty_cons, Bool.false_eq_true, if_false]
  rw [replaceAux_skip '*' _ [] s _ h]
  simp [replaceAux, List.isPrefixOf]

theorem ReplaceAll_x_append (s t : Str) (h : ∀ c ∈ s, c ≠ 'x') :
    ReplaceAll (s ++ t) "x".toList "R".toList = s ++ ReplaceAll t "x".toList "R".toList := by
  unfold ReplaceAll
  show (if ['x'].isEmpty = true then _ else replaceAux ['x'] ['R'] 0 (s ++ t))
    = s ++ (if ['x'].isEmpty = true then _ else replaceAux ['x'] ['R'] 0 t)
  simp only [List.isEmpty_cons, Bool.false_eq_true, if_false]
  exact replaceAux_skip 'x' [] _ s t h

theorem ReplaceAll_x_cons (t : Str) :
    ReplaceAll ('x' :: t) "x".toList "R".toList = 'R' :: ReplaceAll t "x".toList "R".toList := by
  unfold ReplaceAll
  show (if ['x'].isEmpty = true then _ else replaceAux ['x'] ['R'] 0 ('x' :: t))
    = 'R' :: (if ['x'].isEmpty = true then _ else replaceAux ['x'] ['R'] 0 t)
  simp [replaceAux, List.isPrefixOf]

theorem stripBrackets_id (s : Str) (h1 : ∀ c ∈ s, c ≠ '[') (h2 : ∀ c ∈ s, c ≠ ']') :
    stripBrackets s = s := by
  unfold stripBrackets
  rw [List.filter_eq_self]
  intro c hc
  simp [h1 c hc, h2 c hc]

/-! ## Scalar registers and memory references -/

theorem plain_ne {c : Char} (hc : Plain c) (x : Char) (hx : ¬ Plain x) : c ≠ x := by
  intro h
  rw [h] at hc
  exact hx hc

theorem plain_ascii {c : Char} (hc : Plain c) : c.toNat < 128 := by
  unfold Plain at hc
  omega

theorem plain_noSpace {c : Char} (hc : Plain c) : isSpace c = false := by
  unfold Plain at hc
  unfold isSpace
  simp
  omega

theorem isDigit_plain {c : Char} (hc : IsDigit c) : Plain c := Or.inl hc

theorem dec_plain (n : Nat) : ∀ c ∈ dec n, Plain c :=
  fun c hc => isDigit_plain (dec_isDigit n c hc)

theorem fmtInt_plain (k : Int) : ∀ c ∈ fmtInt k, Plain c := by
  intro c hc
  unfold fmtInt at hc
  split_ifs at hc
  · rcases List.mem_cons.mp hc with h | h
    · rw [h]; decide
    · exact dec_plain _ c h
  · exact dec_plain _ c hc

theorem fmtInt_ne_nil (k : Int) : fmtInt k ≠ [] := by
  unfold fmtInt
  split_ifs
  · simp
  · exact dec_ne_nil _

theorem gpReg_token_plain (g : GPReg) : ∀ c ∈ g.token, Plain c := by
  cases g with
  | R n =>
    intro c hc
    rcases List.mem_cons.mp hc with h | h
    · rw [h]; decide
    · exact dec_plain n c h
  | _ => decide

theorem gpReg_token_head (g : GPReg) :
    ∃ c cs, g.token = c :: cs ∧ c ∈ ['A', 'B', 'C', 'D', 'S', 'R'] := by
  cases g with
  | R n => exact ⟨'R', dec n, rfl, by decide⟩
  | _ => exact ⟨_, _, rfl, by decide⟩

theorem gpReg_word (g : GPReg) : Word g.token := by
  obtain ⟨c, cs, e, -⟩ := gpReg_token_head g
  exact word_of_forall (fun c hc => plain_noSpace (gpReg_token_plain g c hc)) (by rw [e]; simp)
    (fun c hc => plain_ne (gpReg_token_plain g c hc) ',' (by decide))

theorem bytes_cons_ascii (c : Char) (s : Str) (h : c.toNat < 128) :
    bytes (c :: s) = c.toNat :: bytes s := by
  simp [bytes, utf8Char, h]

theorem byteAt_zero_ascii (c : Char) (s : Str) (h : c.toNat < 128) :
    byteAt (c :: s) 0 = some c.toNat := by
  simp [byteAt, bytes_cons_ascii c s h]

theorem len_nil : len [] = 0 := rfl

theorem len_pos (s : Str) (h : s ≠ []) : 0 < len s := by
  cases s with
  | nil => exact absurd rfl h
  | cons c cs =>
    have := utf8Char_ne_nil c
    unfold len bytes
    rw [List.length_append]
    have : 0 < (utf8Char c).length := List.length_pos.mpr this
    omega

theorem getreg_R (n : Nat) (h : n < 2 ^ 63) : getreg ('R' :: dec n) = some (dec n) := by
  obtain ⟨d, ds, e, hd⟩ := dec_head n
  have hA := Atoi_dec n h
  have hb : bytes ('R' :: dec n) = 82 :: d.toNat :: bytes ds := by
    rw [e, bytes_cons_ascii 'R' _ (by decide), bytes_cons_ascii d _ (plain_ascii (isDigit_plain hd))]
    rfl
  have hd88 : d.toNat ≠ 88 := by have := hd.2; omega
  have hn : ¬ ((n : Int) = -1) := by omega
  have h1 : ¬ ('R' :: dec n = "SI".toList) := by simp
  have h2 : ¬ ('R' :: dec n = "DI".toList) := by simp
  have h3 : ¬ ('R' :: dec n = "BP".toList) := by simp
  unfold getreg len byteAt
  rw [hb]
  simp only [h1, h2, h3, if_false]
  simp [hd88, hA, hn, fmtInt_natCast]

theorem getreg_token (g : GPReg) (h : g.ordinal < 2 ^ 63) :
    getreg g.token = some (dec g.ordinal) := by
  cases g with
  | R n => exact getreg_R n h
  | _ => rfl

theorem Contains_open_false (s : Str) (h : ∀ c ∈ s, c ≠ '(') :
    Contains s "(".toList = false :=
  Contains_of_forall_ne '(' [] s h

theorem Contains_open_true (s t : Str) (h : ∀ c ∈ s, c ≠ '(') :
    Contains (s ++ '(' :: t) "(".toList = true := by
  have := Contains_skip '(' [] s ('(' :: t) h
  exact this.trans (Contains_here ['('] t)

theorem Contains_close_true (s : Str) (h : ∀ c ∈ s, c ≠ ')') :
    Contains (s ++ [')']) ")".toList = true := by
  have := Contains_skip ')' [] s [')'] h
  exact this.trans rfl

theorem getScalarReg_token (g : GPReg) (h : g.ordinal < 2 ^ 63) (armAddrMode : Bool) :
    getScalarReg g.token armAddrMode = some ('x' :: dec g.ordinal) := by
  unfold getScalarReg
  rw [Contains_open_false _ (fun c hc => plain_ne (gpReg_token_plain g c hc) '(' (by decide))]
  simp only [Bool.false_and, Bool.false_eq_true, if_false, getreg_token g h]
  rfl

theorem getScalarReg_paren (off : Str) (k : Int) (g : GPReg) (armAddrMode : Bool)
    (hoff : ∀ c ∈ off, Plain c)
    (hparse : (if 0 < len off then Atoi off else some 0) = some k)
    (hg : g.ordinal < 2 ^ 63) :
    getScalarReg (off ++ '(' :: (g.token ++ [')'])) armAddrMode
      = some (memText k g.ordinal armAddrMode) := by
  have ho1 : ∀ c ∈ off, c ≠ '(' := fun c hc => plain_ne (hoff c hc) _ (by decide)
  have ho2 : ∀ c ∈ off, c ≠ ')' := fun c hc => plain_ne (hoff c hc) _ (by decide)
  have hg1 : ∀ c ∈ g.token, c ≠ '(' := fun c hc => plain_ne (gpReg_token_plain g c hc) _ (by decide)
  have hg2 : ∀ c ∈ g.token, c ≠ ')' := fun c hc => plain_ne (gpReg_token_plain g c hc) _ (by decide)
  have hc1 : Contains (off ++ '(' :: (g.token ++ [')'])) "(".toList = true :=
    Contains_open_true off _ ho1
  have hc2 : Contains (off ++ '(' :: (g.token ++ [')'])) ")".toList = true := by
    have e : off ++ '(' :: (g.token ++ [')']) = (off ++ '(' :: g.token) ++ [')'] := by simp
    rw [e]
    apply Contains_close_true
    intro c hc
    rcases List.mem_append.mp hc with h | h
    · exact ho2 c h
    · rcases List.mem_cons.mp h with h | h
      · rw [h]; decide
      · exact hg2 c h
  have hsp : Split (off ++ '(' :: (g.token ++ [')'])) "(".toList = [off, g.token ++ [')']] := by
    apply Split_paren _ _ ho1
    intro c hc
    rcases List.mem_append.mp hc with h | h
    · exact hg1 c h
    · rw [List.mem_singleton.mp h]; decide
  have hr : ReplaceAll (g.token ++ [')']) ")".toList [] = g.token := ReplaceAll_close _ hg2
  unfold getScalarReg
  rw [hc1, hc2, hsp]
  simp only [Bool.and_self, if_true, hparse, hr, getreg_token g hg, memText]
  cases armAddrMode
  · simp
    split_ifs <;> rfl
  · simp

theorem numText_plain {off : Str} (h : NumText off) : ∀ c ∈ off, Plain c := by
  intro c hc
  rcases h c hc with h1 | h1
  · exact isDigit_plain h1
  · rw [h1]; decide

theorem numText_nil : NumText [] := fun _ hc => by simp at hc

theorem numText_fmtInt (k : Int) : NumText (fmtInt k) := by
  intro c hc
  unfold fmtInt at hc
  split_ifs at hc
  · rcases List.mem_cons.mp hc with h | h
    · exact Or.inr h
    · exact Or.inl (dec_isDigit _ c h)
  · exact Or.inl (dec_isDigit _ c hc)

theorem parse_fmtInt (k : Int) (h1 : -(2 ^ 63) ≤ k) (h2 : k < 2 ^ 63) :
    (if 0 < len (fmtInt k) then Atoi (fmtInt k) else some 0) = some k := by
  rw [if_pos (len_pos _ (fmtInt_ne_nil k)), Atoi_fmtInt k h1 h2]

theorem parse_nil : (if 0 < len [] then Atoi [] else some 0) = some (0 : Int) := rfl

/-- The first character of a memory reference is a digit, a minus sign or
the opening parenthesis. -/
theorem mem_head (off rest : Str) (h : NumText off) :
    ∃ c cs, off ++ '(' :: rest = c :: cs ∧ c.toNat < 128
      ∧ c ≠ 'Y' ∧ c ≠ 'X' ∧ c ≠ '$' := by
  cases off with
  | nil => exact ⟨'(', rest, rfl, by decide, by decide, by decide, by decide⟩
  | cons c cs =>
    refine ⟨c, cs ++ '(' :: rest, rfl, ?_⟩
    rcases h c (List.mem_cons_self c cs) with h1 | h1
    · exact ⟨plain_ascii (isDigit_plain h1), isDigit_ne h1 _ (by decide), isDigit_ne h1 _ (by decide),
        isDigit_ne h1 _ (by decide)⟩
    · rw [h1]; decide

theorem mem_word (off : Str) (g : GPReg) (h : NumText off) :
    Word (off ++ '(' :: (g.token ++ [')'])) := by
  have hne : ∀ c ∈ off ++ '(' :: (g.token ++ [')']), isSpace c = false ∧ c ≠ ',' ∧ c ≠ '*' := by
    intro c hc
    rcases List.mem_append.mp hc with h1 | h1
    · have := numText_plain h c h1
      exact ⟨plain_noSpace this, plain_ne this _ (by decide), plain_ne this _ (by decide)⟩
    · rcases List.mem_cons.mp h1 with h2 | h2
      · rw [h2]; decide
      · rcases List.mem_append.mp h2 with h3 | h3
        · have := gpReg_token_plain g c h3
          exact ⟨plain_noSpace this, plain_ne this _ (by decide), plain_ne this _ (by decide)⟩
        · rw [List.mem_singleton.mp h3]; decide
  exact word_of_forall (fun c hc => (hne c hc).1) (by simp) (fun c hc => (hne c hc).2.1)

theorem mem_not_scaled (off : Str) (g : GPReg) (h : NumText off) :
    Contains (off ++ '(' :: (g.token ++ [')'])) "*8)".toList = false := by
  apply Contains_of_forall_ne '*' ['8', ')']
  intro c hc
  rcases List.mem_append.mp hc with h1 | h1
  · exact plain_ne (numText_plain h c h1) _ (by decide)
  · rcases List.mem_cons.mp h1 with h2 | h2
    · rw [h2]; decide
    · rcases List.mem_append.mp h2 with h3 | h3
      · exact plain_ne (gpReg_token_plain g c h3) _ (by decide)
      · rw [List.mem_singleton.mp h3]; decide

theorem dispatch_VMOVDQU (p : List Str) (avx2 : Str) (patchLabel : Option (Str → Str)) :
    dispatch "VMOVDQU".toList p avx2 patchLabel = caseVMOVDQU ⟨[], []⟩ p avx2 := rfl

theorem load_plain (off : Str) (k : Int) (g : GPReg) (n : Nat) (hoff : NumText off)
    (hparse : (if 0 < len off then Atoi off else some 0) = some k)
    (hg : g.ordinal < 2 ^ 63) (hn : n < 2 ^ 63) :
    AvxTwo2Sve ("VMOVDQU ".toList ++ off ++ "(".toList ++ g.token ++ "), Y".toList ++ dec n) none
      = some ⟨"ldr z".toList ++ dec n ++ ", ".toList ++ memText k g.ordinal true, false, none⟩ := by
  have e : "VMOVDQU ".toList ++ off ++ "(".toList ++ g.token ++ "), Y".toList ++ dec n
      = "VMOVDQU".toList ++ ' ' :: ((off ++ '(' :: (g.token ++ [')'])) ++ ',' :: ' '
          :: ('Y' :: dec n)) := by simp
  have ht := tokens_line2 "VMOVDQU".toList (off ++ '(' :: (g.token ++ [')'])) ('Y' :: dec n)
    (by decide) (mem_word off g hoff).1 (word_reg 'Y' n (by decide))
  unfold AvxTwo2Sve
  rw [e, ht]
  simp only [dispatch_VMOVDQU, caseVMOVDQU, (byteAt_zero_eq 'Y' 'Y' _ (by decide)).mpr rfl,
    getRegister_Y _ hn, mem_not_scaled off g hoff,
    getScalarReg_paren off k g true (numText_plain hoff) hparse hg]
  simp

theorem store_plain (off : Str) (k : Int) (g : GPReg) (n : Nat) (hoff : NumText off)
    (hparse : (if 0 < len off then Atoi off else some 0) = some k)
    (hg : g.ordinal < 2 ^ 63) (hn : n < 2 ^ 63) :
    AvxTwo2Sve ("VMOVDQU Y".toList ++ dec n ++ ", ".toList ++ off ++ "(".toList ++ g.token
        ++ ")".toList) none
      = some ⟨"str z".toList ++ dec n ++ ", ".toList ++ memText k g.ordinal true, false, none⟩ := by
  have e : "VMOVDQU Y".toList ++ dec n ++ ", ".toList ++ off ++ "(".toList ++ g.token
        ++ ")".toList
      = "VMOVDQU".toList ++ ' ' :: (('Y' :: dec n) ++ ',' :: ' '
          :: (off ++ '(' :: (g.token ++ [')']))) := by simp
  have ht := tokens_line2 "VMOVDQU".toList ('Y' :: dec n) (off ++ '(' :: (g.token ++ [')']))
    (by decide) (word_reg 'Y' n (by decide)).1 (mem_word off g hoff)
  obtain ⟨c, cs, ec, hc, hY, -, -⟩ := mem_head off (g.token ++ [')']) hoff
  have hb1 : byteAt (off ++ '(' :: (g.token ++ [')'])) 0 = some c.toNat := by
    rw [ec]; exact byteAt_zero_ascii c cs hc
  have hne : ¬ (c.toNat = 89) := fun h => hY ((toNat_eq_iff c 'Y').mp h)
  unfold AvxTwo2Sve
  rw [e, ht]
  simp only [dispatch_VMOVDQU, caseVMOVDQU, hb1, (byteAt_zero_eq 'Y' 'Y' _ (by decide)).mpr rfl,
    getRegister_Y _ hn, mem_not_scaled off g hoff,
    getScalarReg_paren off k g true (numText_plain hoff) hparse hg]
  simp [hne]

/-! ## Scaled-index memory references -/

theorem plain_quiet {c : Char} (h : Plain c) : Quiet c :=
  ⟨plain_noSpace h, plain_ne h _ (by decide)⟩

theorem scaledTok_forall (P : Char → Prop) (off : Str) (B I : GPReg)
    (hplain : ∀ c, Plain c → P c) (h1 : P '(') (h2 : P ')') (h3 : P '*') (hoff : NumText off) :
    ∀ c ∈ scaledTok off B I, P c := by
  simp only [scaledTok, List.forall_mem_append, List.forall_mem_cons, List.not_mem_nil,
    false_implies, implies_true, and_true]
  exact ⟨fun c hc => hplain c (numText_plain hoff c hc), h1, fun c hc => hplain c (gpReg_token_plain B c hc),
    h2, h1, fun c hc => hplain c (gpReg_token_plain I c hc), h3, hplain _ (by decide), h2⟩

theorem scaledTok_word (off : Str) (B I : GPReg) (hoff : NumText off) :
    Word (scaledTok off B I) := by
  have h := scaledTok_forall Quiet off B I (fun c hc => plain_quiet hc) (by decide) (by decide)
    (by decide) hoff
  exact word_of_forall (fun c hc => (h c hc).1) (by simp [scaledTok]) (fun c hc => (h c hc).2)

theorem scaledTok_head (off : Str) (B I : GPReg) (hoff : NumText off) :
    ∃ c cs, scaledTok off B I = c :: cs ∧ c.toNat < 128 ∧ c ≠ 'Y' ∧ c ≠ 'X' ∧ c ≠ '$' :=
  mem_head off _ hoff

theorem scaledTok_contains (off : Str) (B I : GPReg) (hoff : NumText off) :
    Contains (scaledTok off B I) "*8)".toList = true := by
  have e : scaledTok off B I
      = (off ++ '(' :: (B.token ++ ')' :: '(' :: I.token)) ++ (['*', '8', ')'] ++ []) := by
    simp [scaledTok]
  rw [e]
  refine (Contains_skip '*' ['8', ')'] _ _ ?_).trans (Contains_here ['*', '8', ')'] [])
  simp only [List.forall_mem_append, List.forall_mem_cons]
  exact ⟨fun c hc => plain_ne (numText_plain hoff c hc) _ (by decide), by decide,
    fun c hc => plain_ne (gpReg_token_plain B c hc) _ (by decide), by decide, by decide,
    fun c hc => plain_ne (gpReg_token_plain I c hc) _ (by decide)⟩

theorem scaledTok_split (off : Str) (B I : GPReg) (hoff : NumText off) :
    Split (scaledTok off B I) ")(".toList
      = [off ++ '(' :: B.token, I.token ++ ['*', '8', ')']] := by
  have e : scaledTok off B I
      = (off ++ '(' :: B.token) ++ (')' :: '(' :: (I.token ++ ['*', '8', ')'])) := by
    simp [scaledTok]
  have h1 : ∀ c ∈ off ++ '(' :: B.token, c ≠ ')' := by
    simp only [List.forall_mem_append, List.forall_mem_cons]
    exact ⟨fun c hc => plain_ne (numText_plain hoff c hc) _ (by decide), by decide,
      fun c hc => plain_ne (gpReg_token_plain B c hc) _ (by decide)⟩
  have h2 : ∀ c ∈ I.token ++ ['*', '8'], c ≠ ')' := by
    simp only [List.forall_mem_append, List.forall_mem_cons, List.not_mem_nil, false_implies,
      implies_true, and_true]
    exact ⟨fun c hc => plain_ne (gpReg_token_plain I c hc) _ (by decide), by decide, by decide⟩
  have e2 : I.token ++ ['*', '8', ')'] = (I.token ++ ['*', '8']) ++ [')'] := by simp
  have s1 := splitAux_skip ')' ['('] (off ++ '(' :: B.token)
    (')' :: '(' :: (I.token ++ ['*', '8', ')'])) [] h1
  have s2 := splitAux_skip ')' ['('] (I.token ++ ['*', '8']) [')'] [] h2
  unfold Split
  show splitAux [')', '('] 0 (scaledTok off B I) [] = _
  rw [e, s1]
  simp only [splitAux, List.isPrefixOf, beq_self_eq_true, Bool.and_self, if_true, List.nil_append,
    List.length_cons, List.length_nil]
  show (off ++ '(' :: B.token) :: splitAux [')', '('] 0 (I.token ++ ['*', '8', ')']) [] = _
  rw [e2, s2]
  simp [splitAux, List.isPrefixOf]

theorem stripBrackets_memText (k : Int) (b : Nat) :
    stripBrackets (memText k b true)
      = 'x' :: dec b
        ++ (if k ≠ 0 then ", #".toList ++ fmtInt (Int.tdiv k 32) ++ ", MUL VL".toList else []) := by
  have hd := stripBrackets_id (dec b) (fun c hc => plain_ne (dec_plain b c hc) _ (by decide))
    (fun c hc => plain_ne (dec_plain b c hc) _ (by decide))
  have hf := stripBrackets_id (fmtInt (Int.tdiv k 32))
    (fun c hc => plain_ne (fmtInt_plain _ c hc) _ (by decide))
    (fun c hc => plain_ne (fmtInt_plain _ c hc) _ (by decide))
  unfold stripBrackets at hd hf ⊢
  unfold memText
  by_cases h : k = 0
  · simp [h, List.filter_append, hd, List.filter_cons]
  · simp [h, List.filter_append, hd, hf, List.filter_cons]

theorem scaledIndex_eq (off : Str) (k : Int) (B I : GPReg) (hoff : NumText off)
    (hparse : (if 0 < len off then Atoi off else some 0) = some k)
    (hB : B.ordinal < 2 ^ 63) (hI : I.ordinal < 2 ^ 63) :
    scaledIndex (scaledTok off B I)
      = some ('x' :: dec B.ordinal
          ++ (if k ≠ 0 then ", #".toList ++ fmtInt (Int.tdiv k 32) ++ ", MUL VL".toList else []),
          'x' :: dec I.ordinal) := by
  have g1 := getScalarReg_paren off k B true (numText_plain hoff) hparse hB
  have g2 := getScalarReg_paren [] 0 I true (numText_plain numText_nil) parse_nil hI
  have e1 : (off ++ '(' :: B.token) ++ ")".toList = off ++ '(' :: (B.token ++ [')']) := by simp
  have r : ReplaceAll (I.token ++ ['*', '8', ')']) "*8)".toList [] = I.token :=
    ReplaceAll_scale _ (fun c hc => plain_ne (gpReg_token_plain I c hc) _ (by decide))
  have e2 : "(".toList ++ I.token ++ ")".toList = [] ++ '(' :: (I.token ++ [')']) := by simp
  unfold scaledIndex
  rw [scaledTok_split off B I hoff]
  simp only [e1, g1, r, e2, g2, stripBrackets_memText]
  simp

theorem load_scaled (off : Str) (k : Int) (B I : GPReg) (n : Nat) (hoff : NumText off)
    (hparse : (if 0 < len off then Atoi off else some 0) = some k)
    (hB : B.ordinal < 2 ^ 63) (hI : I.ordinal < 2 ^ 63) (hn : n < 2 ^ 63) :
    AvxTwo2Sve ("VMOVDQU ".toList ++ scaledTok off B I ++ ", Y".toList ++ dec n) none
      = some ⟨"ld1d \x7b z".toList ++ dec n ++ ".d \x7d, p0/z, [x".toList ++ dec B.ordinal
          ++ (if k ≠ 0 then ", #".toList ++ fmtInt (Int.tdiv k 32) ++ ", MUL VL".toList else [])
          ++ ", x".toList ++ dec I.ordinal ++ ", lsl #3]".toList, false, none⟩ := by
  have e : "VMOVDQU ".toList ++ scaledTok off B I ++ ", Y".toList ++ dec n
      = "VMOVDQU".toList ++ ' ' :: (scaledTok off B I ++ ',' :: ' ' :: ('Y' :: dec n)) := by simp
  have ht := tokens_line2 "VMOVDQU".toList (scaledTok off B I) ('Y' :: dec n)
    (by decide) (scaledTok_word off B I hoff).1 (word_reg 'Y' n (by decide))
  unfold AvxTwo2Sve
  rw [e, ht]
  simp only [dispatch_VMOVDQU, caseVMOVDQU, (byteAt_zero_eq 'Y' 'Y' _ (by decide)).mpr rfl,
    getRegister_Y _ hn, scaledTok_contains off B I hoff,
    scaledIndex_eq off k B I hoff hparse hB hI]
  simp

theorem store_scaled (off : Str) (k : Int) (B I : GPReg) (n : Nat) (hoff : NumText off)
    (hparse : (if 0 < len off then Atoi off else some 0) = some k)
    (hB : B.ordinal < 2 ^ 63) (hI : I.ordinal < 2 ^ 63) (hn : n < 2 ^ 63) :
    AvxTwo2Sve ("VMOVDQU Y".toList ++ dec n ++ ", ".toList ++ scaledTok off B I) none
      = some ⟨"st1d \x7b z".toList ++ dec n ++ ".d \x7d, p0, [x".toList ++ dec B.ordinal
          ++ (if k ≠ 0 then ", #".toList ++ fmtInt (Int.tdiv k 32) ++ ", MUL VL".toList else [])
          ++ ", x".toList ++ dec I.ordinal ++ ", lsl #3]".toList, false, none⟩ := by
  have e : "VMOVDQU Y".toList ++ dec n ++ ", ".toList ++ scaledTok off B I
      = "VMOVDQU".toList ++ ' ' :: (('Y' :: dec n) ++ ',' :: ' ' :: scaledTok off B I) := by simp
  have ht := tokens_line2 "VMOVDQU".toList ('Y' :: dec n) (scaledTok off B I)
    (by decide) (word_reg 'Y' n (by decide)).1 (scaledTok_word off B I hoff)
  obtain ⟨c, cs, ec, hc, hY, -, -⟩ := scaledTok_head off B I hoff
  have hb1 : byteAt (scaledTok off B I) 0 = some c.toNat := by
    rw [ec]; exact byteAt_zero_ascii c cs hc
  have hne : ¬ (c.toNat = 89) := fun h => hY ((toNat_eq_iff c 'Y').mp h)
  unfold AvxTwo2Sve
  rw [e, ht]
  simp only [dispatch_VMOVDQU, caseVMOVDQU, hb1, (byteAt_zero_eq 'Y' 'Y' _ (by decide)).mpr rfl,
    getRegister_Y _ hn, scaledTok_contains off B I hoff,
    scaledIndex_eq off k B I hoff hparse hB hI]
  simp [hne]

/-! ## Scalar moves and scalar arithmetic -/

theorem dispatch_MOVQ (p : List Str) (avx2 : Str) (patchLabel : Option (Str → Str)) :
    dispatch "MOVQ".toList p avx2 patchLabel = caseMOVQ p avx2 := rfl

theorem dispatch_arith (op : ArithOp) (p : List Str) (avx2 : Str)
    (patchLabel : Option (Str → Str)) :
    dispatch op.avx p avx2 patchLabel = caseArith ⟨op.sve, []⟩ p avx2 := by
  cases op <;> rfl

theorem dispatch_DECQ (p : List Str) (avx2 : Str) (patchLabel : Option (Str → Str)) :
    dispatch "DECQ".toList p avx2 patchLabel = caseDECQ ⟨"subs".toList, []⟩ p avx2 := rfl

theorem arithOp_word (op : ArithOp) : Word op.avx := by
  cases op <;> decide

/-- The first byte of a register name is none of `X`, `Y`, `$`. -/
theorem gpReg_byte0 (g : GPReg) :
    ∃ b, byteAt g.token 0 = some b ∧ b ≠ 88 ∧ b ≠ 89 ∧ b ≠ 36 := by
  have hall : ∀ c ∈ ['A', 'B', 'C', 'D', 'S', 'R'],
      c.toNat < 128 ∧ c.toNat ≠ 88 ∧ c.toNat ≠ 89 ∧ c.toNat ≠ 36 := by decide
  obtain ⟨c, cs, e, hc⟩ := gpReg_token_head g
  obtain ⟨h1, h2⟩ := hall c hc
  exact ⟨c.toNat, by rw [e]; exact byteAt_zero_ascii c cs h1, h2⟩

theorem ReplaceAll_x_none (s : Str) (h : ∀ c ∈ s, c ≠ 'x') :
    ReplaceAll s "x".toList "R".toList = s :=
  ReplaceAll_none 'x' [] _ s h

theorem replace_xreg (d : Nat) :
    ReplaceAll ('x' :: dec d) "x".toList "R".toList = 'R' :: dec d := by
  rw [ReplaceAll_x_cons, ReplaceAll_x_none _ (fun c hc => plain_ne (dec_plain d c hc) _ (by decide))]

theorem replace_memText (k : Int) (b : Nat) :
    ReplaceAll (memText k b false) "x".toList "R".toList
      = (if k ≠ 0 then fmtInt k else []) ++ "(R".toList ++ dec b ++ ")".toList := by
  have htail : ReplaceAll (dec b ++ [')']) "x".toList "R".toList = dec b ++ [')'] := by
    apply ReplaceAll_x_none
    simp only [List.forall_mem_append, List.forall_mem_cons, List.not_mem_nil, false_implies,
      implies_true, and_true]
    exact ⟨fun c hc => plain_ne (dec_plain b c hc) _ (by decide), by decide⟩
  have hparen : ReplaceAll ('(' :: 'x' :: (dec b ++ [')'])) "x".toList "R".toList
      = '(' :: 'R' :: (dec b ++ [')']) := by
    have := ReplaceAll_x_append ['('] ('x' :: (dec b ++ [')'])) (by decide)
    simp only [List.singleton_append] at this
    rw [this, ReplaceAll_x_cons, htail]
  unfold memText
  by_cases h : k = 0
  · simp only [Bool.false_eq_true, if_false, h, ne_eq, not_true_eq_false]
    have e : "(x".toList ++ dec b ++ ")".toList = '(' :: 'x' :: (dec b ++ [')']) := by simp
    rw [e, hparen]
    simp
  · simp only [Bool.false_eq_true, if_false, h, ne_eq, not_false_eq_true, if_true]
    have e : fmtInt k ++ "(x".toList ++ dec b ++ ")".toList
        = fmtInt k ++ '(' :: 'x' :: (dec b ++ [')']) := by simp
    rw [e, ReplaceAll_x_append _ _ (fun c hc => plain_ne (fmtInt_plain k c hc) _ (by decide)), hparen]
    simp

theorem mem_not_frame (off : Str) (g : GPReg) (hoff : NumText off) :
    Contains (off ++ '(' :: (g.token ++ [')'])) "(FP)".toList = false := by
  have h1 := Contains_skip '(' ['F', 'P', ')'] off ('(' :: (g.token ++ [')']))
    (fun c hc => plain_ne (numText_plain hoff c hc) _ (by decide))
  have h2 := Contains_skip '(' ['F', 'P', ')'] g.token [')']
    (fun c hc => plain_ne (gpReg_token_plain g c hc) _ (by decide))
  obtain ⟨c, cs, e, hc⟩ := gpReg_token_head g
  have hF : c ≠ 'F' := by
    have : ∀ c ∈ ['A', 'B', 'C', 'D', 'S', 'R'], c ≠ 'F' := by decide
    exact this c hc
  have h3 : ['F', 'P', ')'].isPrefixOf (g.token ++ [')']) = false := by
    rw [e]
    exact isPrefixOf_cons_ne 'F' c _ _ hF
  show Contains (off ++ '(' :: (g.token ++ [')'])) ['(', 'F', 'P', ')'] = false
  rw [h1]
  simp only [Contains, List.isPrefixOf, beq_self_eq_true, Bool.true_and, h3, Bool.false_or]
  rw [h2]
  rfl

theorem mem_not_imm (off rest : Str) (hoff : NumText off) :
    HasPrefix (off ++ '(' :: rest) "$0x".toList = false := by
  obtain ⟨c, cs, e, -, -, -, hd⟩ := mem_head off rest hoff
  unfold HasPrefix
  rw [e]
  exact isPrefixOf_cons_ne '$' c _ _ hd

theorem movq_mem (off : Str) (k : Int) (B D : GPReg) (hoff : NumText off)
    (hparse : (if 0 < len off then Atoi off else some 0) = some k)
    (hB : B.ordinal < 2 ^ 63) (hD : D.ordinal < 2 ^ 63) :
    AvxTwo2Sve ("MOVQ ".toList ++ off ++ "(".toList ++ B.token ++ "), ".toList ++ D.token) none
      = some ⟨"MOVD ".toList ++ (if k ≠ 0 then fmtInt k else []) ++ "(R".toList ++ dec B.ordinal
          ++ "), R".toList ++ dec D.ordinal, true, none⟩ := by
  have e : "MOVQ ".toList ++ off ++ "(".toList ++ B.token ++ "), ".toList ++ D.token
      = "MOVQ".toList ++ ' ' :: ((off ++ '(' :: (B.token ++ [')'])) ++ ',' :: ' '
          :: D.token) := by simp
  have ht := tokens_line2 "MOVQ".toList (off ++ '(' :: (B.token ++ [')'])) D.token
    (by decide) (mem_word off B hoff).1 (gpReg_word D)
  obtain ⟨b1, hb1, hX, -, -⟩ := gpReg_byte0 D
  unfold AvxTwo2Sve
  rw [e, ht]
  simp only [dispatch_MOVQ, caseMOVQ, hb1, getScalarReg_token D hD, mem_not_imm off _ hoff,
    mem_not_frame off B hoff, getScalarReg_paren off k B false (numText_plain hoff) hparse hB,
    Option.map_some', replace_memText]
  simp [hX]
  exact replace_xreg _

/-! ## Compare, branches and return -/

theorem dispatch_TESTQ (p : List Str) (avx2 : Str) (patchLabel : Option (Str → Str)) :
    dispatch "TESTQ".toList p avx2 patchLabel = caseTESTQ ⟨"tst".toList, []⟩ p avx2 := rfl

theorem dispatch_JZ (p : List Str) (avx2 : Str) (patchLabel : Option (Str → Str)) :
    dispatch "JZ".toList p avx2 patchLabel
      = some ⟨(match patchLabel with
          | some f => f (ReplaceAll avx2 "JZ".toList "BEQ".toList)
          | none => ReplaceAll avx2 "JZ".toList "BEQ".toList), true, none⟩ := by
  cases patchLabel <;> rfl

theorem dispatch_JNZ (p : List Str) (avx2 : Str) (patchLabel : Option (Str → Str)) :
    dispatch "JNZ".toList p avx2 patchLabel
      = some ⟨(match patchLabel with
          | some f => f (ReplaceAll avx2 "JNZ".toList "BNE".toList)
          | none => ReplaceAll avx2 "JNZ".toList "BNE".toList), true, none⟩ := by
  cases patchLabel <;> rfl

theorem dispatch_RET (p : List Str) (avx2 : Str) (patchLabel : Option (Str → Str)) :
    dispatch "RET".toList p avx2 patchLabel = some ⟨avx2, true, none⟩ := rfl

theorem dispatch_hook (m : Str) (p : List Str) (avx2 : Str) (g1 g2 : Option (Str → Str))
    (h1 : m ≠ "JZ".toList) (h2 : m ≠ "JNZ".toList) :
    dispatch m p avx2 g1 = dispatch m p avx2 g2 := by
  unfold dispatch
  simp only [h1, h2, or_self, if_false]

/-! ## What depends on the line only through its tokens -/

theorem unsupported_observe (a : Str) :
    (unsupported a).map observe = some ([], false, true) := rfl

theorem caseVector_observe (mt : MnemonicType) (p : List Str) (a1 a2 : Str) :
    (caseVector mt p a1).map observe = (caseVector mt p a2).map observe := by
  unfold caseVector
  split <;>
    simp only [Option.bind_eq_bind, Option.map_bind, Function.comp_def,
      apply_ite (Option.map observe), unsupported_observe]

theorem caseVMOVDQU_observe (mt : MnemonicType) (p : List Str) (a1 a2 : Str) :
    (caseVMOVDQU mt p a1).map observe = (caseVMOVDQU mt p a2).map observe := by
  unfold caseVMOVDQU
  split <;>
    simp only [Option.bind_eq_bind, Option.map_bind, Function.comp_def,
      apply_ite (Option.map observe), unsupported_observe]

theorem caseMOVQ_observe (p : List Str) (a1 a2 : Str) :
    (caseMOVQ p a1).map observe = (caseMOVQ p a2).map observe := by
  unfold caseMOVQ
  split <;>
    simp only [Option.bind_eq_bind, Option.map_bind, Function.comp_def,
      apply_ite (Option.map observe), unsupported_observe]

theorem caseArith_observe (mt : MnemonicType) (p : List Str) (a1 a2 : Str) :
    (caseArith mt p a1).map observe = (caseArith mt p a2).map observe := by
  unfold caseArith
  split <;>
    simp only [Option.bind_eq_bind, Option.map_bind, Function.comp_def,
      apply_ite (Option.map observe), unsupported_observe]

theorem caseTESTQ_observe (mt : MnemonicType) (p : List Str) (a1 a2 : Str) :
    (caseTESTQ mt p a1).map observe = (caseTESTQ mt p a2).map observe := by
  unfold caseTESTQ
  split <;>
    simp only [Option.bind_eq_bind, Option.map_bind, Function.comp_def,
      apply_ite (Option.map observe), unsupported_observe]

theorem caseDECQ_observe (mt : MnemonicType) (p : List Str) (a1 a2 : Str) :
    (caseDECQ mt p a1).map observe = (caseDECQ mt p a2).map observe := by
  unfold caseDECQ
  split <;>
    simp only [Option.bind_eq_bind, Option.map_bind, Function.comp_def,
      apply_ite (Option.map observe), unsupported_observe]

theorem dispatch_observe (m : Str) (p : List Str) (a1 a2 : Str) (f g : Option (Str → Str))
    (h1 : m ≠ "JZ".toList) (h2 : m ≠ "JNZ".toList) (h3 : m ≠ "RET".toList) :
    (dispatch m p a1 f).map observe = (dispatch m p a2 g).map observe := by
  unfold dispatch
  simp only [h1, h2, h3, or_self, if_false]
  split_ifs
  · exact caseVector_observe _ p a1 a2
  · exact caseVMOVDQU_observe _ p a1 a2
  · exact caseMOVQ_observe p a1 a2
  · exact caseArith_observe _ p a1 a2
  · exact caseTESTQ_observe _ p a1 a2
  · exact caseDECQ_observe _ p a1 a2
  · rfl
  · rfl

/-! ## The legacy-dialect flag -/


theorem unsupported_legacyFlag (a : Str) :
    (unsupported a).map legacyFlag = some false := rfl

theorem flag_of_map_false {x : Option Result} {r : Result}
    (hx : x.map legacyFlag = x.map fun _ => false) (h : x = some r) (he : r.err = none) :
    r.plan9 = false := by
  rw [h] at hx
  simp only [Option.map_some', Option.some.injEq, legacyFlag, he, Option.isNone_none,
    Bool.and_true] at hx
  exact hx

theorem caseVector_flag (mt : MnemonicType) (p : List Str) (a : Str) :
    (caseVector mt p a).map legacyFlag = (caseVector mt p a).map fun _ => false := by
  unfold caseVector
  split <;>
    simp only [Option.bind_eq_bind, Option.map_bind, Function.comp_def, Option.map_some',
      apply_ite (Option.map legacyFlag), apply_ite (Option.map fun _ => false),
      unsupported_legacyFlag, unsupported, legacyFlag, Option.isNone_none, Bool.and_true,
      Bool.false_and]

theorem caseVMOVDQU_flag (mt : MnemonicType) (p : List Str) (a : Str) :
    (caseVMOVDQU mt p a).map legacyFlag = (caseVMOVDQU mt p a).map fun _ => false := by
  unfold caseVMOVDQU
  split <;>
    simp only [Option.bind_eq_bind, Option.map_bind, Function.comp_def, Option.map_some',
      apply_ite (Option.map legacyFlag), apply_ite (Option.map fun _ => false),
      unsupported_legacyFlag, unsupported, legacyFlag, Option.isNone_none, Bool.and_true,
      Bool.false_and]

theorem caseArith_flag (mt : MnemonicType) (p : List Str) (a : Str) :
    (caseArith mt p a).map legacyFlag = (caseArith mt p a).map fun _ => false := by
  unfold caseArith
  split <;>
    simp only [Option.bind_eq_bind, Option.map_bind, Function.comp_def, Option.map_some',
      apply_ite (Option.map legacyFlag), apply_ite (Option.map fun _ => false),
      unsupported_legacyFlag, unsupported, legacyFlag, Option.isNone_none, Bool.and_true,
      Bool.false_and]

theorem caseTESTQ_flag (mt : MnemonicType) (p : List Str) (a : Str) :
    (caseTESTQ mt p a).map legacyFlag = (caseTESTQ mt p a).map fun _ => false := by
  unfold caseTESTQ
  split <;>
    simp only [Option.bind_eq_bind, Option.map_bind, Function.comp_def, Option.map_some',
      apply_ite (Option.map legacyFlag), apply_ite (Option.map fun _ => false),
      unsupported_legacyFlag, unsupported, legacyFlag, Option.isNone_none, Bool.and_true,
      Bool.false_and]

theorem caseDECQ_flag (mt : MnemonicType) (p : List Str) (a : Str) :
    (caseDECQ mt p a).map legacyFlag = (caseDECQ mt p a).map fun _ => false := by
  unfold caseDECQ
  split <;>
    simp only [Option.bind_eq_bind, Option.map_bind, Function.comp_def, Option.map_some',
      apply_ite (Option.map legacyFlag), apply_ite (Option.map fun _ => false),
      unsupported_legacyFlag, unsupported, legacyFlag, Option.isNone_none, Bool.and_true,
      Bool.false_and]

theorem caseMOVQ_flag (p : List Str) (a : Str) (r : Result) (h : caseMOVQ p a = some r)
    (he : r.err = none) :
    r.plan9 = true ↔ ∃ p0 p1, p = [p0, p1] ∧ byteAt p1 0 ≠ some 'X'.toNat
      ∧ HasPrefix p0 "$0x".toList = false := by
  unfold caseMOVQ at h
  split at h
  · rename_i p0 p1
    cases hb : byteAt p1 0 with
    | none => simp [hb] at h
    | some b1 =>
      simp only [hb, Option.bind_eq_bind, Option.some_bind] at h
      by_cases hX : b1 = 'X'.toNat
      · rw [if_pos hX] at h
        simp only [Option.bind_eq_some, Option.some.injEq] at h
        obtain ⟨xd, -, xn, -, rfl⟩ := h
        simp [hb, hX]
      · rw [if_neg hX] at h
        simp only [Option.bind_eq_some] at h
        obtain ⟨xn, -, h⟩ := h
        by_cases hp : HasPrefix p0 "$0x".toList = true
        · rw [if_pos hp] at h
          simp only [Option.bind_eq_some, Option.some.injEq] at h
          obtain ⟨imm, -, rfl⟩ := h
          simp only [Bool.false_eq_true, false_iff, not_exists, not_and]
          intro q0 q1 hq _ hq0
          simp only [List.cons.injEq, and_true] at hq
          rw [← hq.1, hp] at hq0
          exact absurd hq0 (by simp)
        · rw [if_neg hp] at h
          have hr : r.plan9 = true := by
            split_ifs at h
            · simp only [Option.bind_eq_some, Option.some.injEq] at h
              obtain ⟨src, -, rfl⟩ := h
              rfl
            · simp only [Option.some.injEq] at h
              subst h
              rfl
          have hp2 : HasPrefix p0 "$0x".toList = false := by simpa using hp
          exact ⟨fun _ => ⟨p0, p1, rfl, by rw [hb]; simpa using hX, hp2⟩, fun _ => hr⟩
  · unfold unsupported at h
    simp only [Option.some.injEq] at h
    subst h
    simp at he

theorem not_legacyTokens (m : Str) (p : List Str)
    (h : m ∈ ["VPSRLQ".toList, "VPAND".toList, "VPSHUFB".toList, "VPXOR".toList,
      "VPBROADCASTB".toList, "VMOVDQU".toList, "ADDQ".toList, "SHRQ".toList, "TESTQ".toList,
      "DECQ".toList]) : ¬ legacyTokens m p := by
  simp only [List.mem_cons, List.mem_singleton, List.not_mem_nil, or_false] at h
  unfold legacyTokens
  rcases h with rfl | rfl | rfl | rfl | rfl | rfl | rfl | rfl | rfl | rfl <;> simp

theorem flag_false_iff (m : Str) (p : List Str) (r : Result) (hr : r.plan9 = false)
    (h : m ∈ ["VPSRLQ".toList, "VPAND".toList, "VPSHUFB".toList, "VPXOR".toList,
      "VPBROADCASTB".toList, "VMOVDQU".toList, "ADDQ".toList, "SHRQ".toList, "TESTQ".toList,
      "DECQ".toList]) : r.plan9 = true ↔ legacyTokens m p := by
  rw [hr]
  exact ⟨fun h0 => absurd h0 (by simp), fun hl => absurd hl (not_legacyTokens m p h)⟩

theorem dispatch_flag (m : Str) (p : List Str) (avx2 : Str) (patchLabel : Option (Str → Str))
    (r : Result) (h : dispatch m p avx2 patchLabel = some r) (he : r.err = none) :
    r.plan9 = true ↔ legacyTokens m p := by
  simp only [dispatch] at h
  split_ifs at h with h1 h2 h3 h4 h5 h6 h7 h8 h9
  · refine flag_false_iff m p r (flag_of_map_false (caseVector_flag _ p avx2) h he) ?_
    simp only [List.mem_cons]
    tauto
  · refine flag_false_iff m p r (flag_of_map_false (caseVMOVDQU_flag _ p avx2) h he) ?_
    simp only [List.mem_cons]
    tauto
  · rw [caseMOVQ_flag p avx2 r h he]
    subst h3
    simp [legacyTokens]
  · refine flag_false_iff m p r (flag_of_map_false (caseArith_flag _ p avx2) h he) ?_
    simp only [List.mem_cons]
    tauto
  · refine flag_false_iff m p r (flag_of_map_false (caseTESTQ_flag _ p avx2) h he) ?_
    simp only [List.mem_cons]
    tauto
  · refine flag_false_iff m p r (flag_of_map_false (caseDECQ_flag _ p avx2) h he) ?_
    simp only [List.mem_cons]
    tauto
  · simp only [Option.some.injEq] at h
    subst h
    exact ⟨fun _ => Or.inr (Or.inr (Or.inr (Or.inl h7))), fun _ => rfl⟩
  · have hr : r.plan9 = true := by
      cases patchLabel <;> (simp only [Option.some.injEq] at h; subst h; rfl)
    refine ⟨fun _ => ?_, fun _ => hr⟩
    unfold legacyTokens
    tauto
  · simp only [Option.some.injEq] at h
    subst h
    exact ⟨fun _ => Or.inr (Or.inr (Or.inl h9)), fun _ => rfl⟩
  · unfold unsupported at h
    simp only [Option.some.injEq] at h
    subst h
    simp at he

/-! ## Operand counts -/

theorem caseVector_count (mt : MnemonicType) (p : List Str) (a : Str) (h3 : p.length ≠ 3)
    (h2 : p.length ≠ 2) : caseVector mt p a = unsupported a := by
  unfold caseVector
  split
  · simp at h3
  · simp at h2
  · rfl

theorem caseVMOVDQU_count (mt : MnemonicType) (p : List Str) (a : Str) (h2 : p.length ≠ 2) :
    caseVMOVDQU mt p a = unsupported a := by
  unfold caseVMOVDQU
  split
  · simp at h2
  · rfl

theorem caseMOVQ_count (p : List Str) (a : Str) (h2 : p.length ≠ 2) :
    caseMOVQ p a = unsupported a := by
  unfold caseMOVQ
  split
  · simp at h2
  · rfl

theorem caseArith_count (mt : MnemonicType) (p : List Str) (a : Str) (h2 : p.length ≠ 2) :
    caseArith mt p a = unsupported a := by
  unfold caseArith
  split
  · simp at h2
  · rfl

theorem caseTESTQ_count (mt : MnemonicType) (p : List Str) (a : Str) (h2 : p.length ≠ 2) :
    caseTESTQ mt p a = unsupported a := by
  unfold caseTESTQ
  split
  · simp at h2
  · rfl

theorem caseDECQ_count (mt : MnemonicType) (p : List Str) (a : Str) (h1 : p.length ≠ 1) :
    caseDECQ mt p a = unsupported a := by
  unfold caseDECQ
  split
  · simp at h1
  · rfl

/-- Every case of the switch other than VZEROUPPER and the passthroughs checks
its operand count: a count that the case does not accept gives the
unsupported error with empty output text. -/
theorem operand_count_checked (avx2 : Str) (patchLabel : Option (Str → Str)) (m : Str)
    (p : List Str) (ht : tokens avx2 = m :: p)
    (h : (m ∈ ["VPSRLQ".toList, "VPAND".toList, "VPSHUFB".toList, "VPXOR".toList,
          "VPBROADCASTB".toList] ∧ p.length ≠ 3 ∧ p.length ≠ 2)
      ∨ (m ∈ ["VMOVDQU".toList, "MOVQ".toList, "ADDQ".toList, "SHRQ".toList, "TESTQ".toList]
          ∧ p.length ≠ 2)
      ∨ (m = "DECQ".toList ∧ p.length ≠ 1)) :
    AvxTwo2Sve avx2 patchLabel
      = some ⟨[], false, some ("avxTwo2Sve unsupported: ".toList ++ avx2)⟩ := by
  unfold AvxTwo2Sve
  rw [ht]
  show dispatch m p avx2 patchLabel = unsupported avx2
  simp only [List.mem_cons, List.mem_singleton, List.not_mem_nil, or_false] at h
  rcases h with ⟨hm, h3, h2⟩ | ⟨hm, h2⟩ | ⟨hm, h1⟩
  · rcases hm with rfl | rfl | rfl | rfl | rfl
    all_goals exact caseVector_count _ p avx2 h3 h2
  · rcases hm with rfl | rfl | rfl | rfl | rfl
    · exact caseVMOVDQU_count _ p avx2 h2
    · exact caseMOVQ_count p avx2 h2
    · exact caseArith_count _ p avx2 h2
    · exact caseArith_count _ p avx2 h2
    · exact caseTESTQ_count _ p avx2 h2
  · subst hm
    exact caseDECQ_count _ p avx2 h1

/-! ## Malformed operands -/

theorem digitVal_dec_none (c : Char) (h : ¬ IsDigit c) : digitVal 10 c = none := by
  unfold IsDigit at h
  unfold digitVal
  simp only [h, if_false]
  split_ifs with h2
  · have : ¬ (c.toNat ||| 32) - 97 + 10 < 10 := by omega
    simp [this]
  · rfl

theorem le_lor_32 (v : Nat) : v ≤ v ||| 32 := by
  apply Nat.le_of_testBit
  intro i hi
  simp [Nat.testBit_or, hi]

theorem digitVal_hex_small :
    ∀ v, v < 103 → (digitVal 16 (Char.ofNat v)).isSome = true → Char.ofNat v ∈ hexChars := by
  decide

theorem digitVal_hex_mem (c : Char) (d : Nat) (h : digitVal 16 c = some d) : c ∈ hexChars := by
  have hle := le_lor_32 c.toNat
  by_cases hlt : c.toNat < 103
  · have := digitVal_hex_small c.toNat hlt (by rw [Char.ofNat_toNat, h]; rfl)
    rw [Char.ofNat_toNat] at this
    exact this
  · exfalso
    unfold digitVal at h
    simp only [] at h
    have h1 : ¬ (48 ≤ c.toNat ∧ c.toNat ≤ 57) := by omega
    rw [if_neg h1] at h
    split_ifs at h with h2
    · simp only [Option.some_bind] at h
      split_ifs at h with h3
      omega
    · simp at h

theorem digitVal_hex_none (c : Char) (h : c ∉ hexChars) : digitVal 16 c = none := by
  cases hd : digitVal 16 c with
  | none => rfl
  | some d => exact absurd (digitVal_hex_mem c d hd) h

theorem parseDigits_bad (b : Nat) (pre : Str) (c : Char) (post : Str) (acc : Nat)
    (h : digitVal b c = none) : parseDigits b (pre ++ c :: post) acc = none := by
  induction pre generalizing acc with
  | nil => simp [parseDigits, h]
  | cons x xs ih =>
    simp only [List.cons_append, parseDigits]
    cases digitVal b x with
    | none => rfl
    | some d => exact ih _

theorem ParseInt_of_parseDigits_none (s : Str) (base bitSize : Nat)
    (h1 : parseDigits base s 0 = none) (h2 : parseDigits base (s.drop 1) 0 = none ∨ s.drop 1 = []) :
    ParseInt s base bitSize = none := by
  cases s with
  | nil => rfl
  | cons c rest =>
    simp only [List.drop_succ_cons, List.drop_zero] at h2
    unfold ParseInt
    simp only []
    by_cases hs : (c == '+' || c == '-') = true
    · simp only [hs, if_true]
      rcases h2 with h2 | h2
      · simp [h2]
      · simp [h2]
    · simp only [hs, if_false, List.isEmpty_cons, Bool.false_eq_true, h1]

theorem ParseInt_malformed (allowed : Char → Prop) (base bitSize : Nat) (s : Str)
    (hall : ∀ c, ¬ allowed c → digitVal base c = none) (hm : Malformed allowed s) :
    ParseInt s base bitSize = none := by
  rcases hm with rfl | rfl | rfl | ⟨pre, c, post, rfl, hc, hsign⟩
  · rfl
  · rfl
  · rfl
  · have hd := hall c hc
    cases pre with
    | nil =>
      obtain ⟨hp, hn⟩ := hsign rfl
      have b1 : (c == '+') = false := by simp [hp]
      have b2 : (c == '-') = false := by simp [hn]
      have h1 := parseDigits_bad base [] c post 0 hd
      simp only [List.nil_append] at h1 ⊢
      unfold ParseInt
      simp only [b1, b2, Bool.or_self, Bool.false_eq_true, if_false, List.isEmpty_cons, h1]
    | cons x xs =>
      apply ParseInt_of_parseDigits_none
      · exact parseDigits_bad base (x :: xs) c post 0 hd
      · left
        exact parseDigits_bad base xs c post 0 hd

theorem Atoi_malformed (s : Str) (hm : Malformed IsDigit s) : Atoi s = none :=
  ParseInt_malformed IsDigit 10 64 s digitVal_dec_none hm

theorem ParseInt_hex_malformed (h : Str) (hm : Malformed (fun c => c ∈ hexChars) h) :
    ParseInt h 16 64 = none :=
  ParseInt_malformed (fun c => c ∈ hexChars) 16 64 h digitVal_hex_none hm
theorem bytes_head_ascii (c : Char) (s : Str) (b : Nat) (rest : List Nat) (hb : b < 128)
    (h : bytes (c :: s) = b :: rest) : c.toNat = b ∧ bytes s = rest := by
  have hh : (utf8Char c).head? = some b := by
    have hne := utf8Char_ne_nil c
    unfold bytes at h
    cases hu : utf8Char c with
    | nil => exact absurd hu hne
    | cons x xs =>
      rw [hu] at h
      simp only [List.cons_append, List.cons.injEq] at h
      simp [h.1]
  have hc : c.toNat = b := (utf8Char_head c b hb).mp hh
  refine ⟨hc, ?_⟩
  rw [bytes_cons_ascii c s (by omega)] at h
  simp only [List.cons.injEq] at h
  exact h.2

theorem bytes_eq_nil (s : Str) (h : bytes s = []) : s = [] := by
  cases s with
  | nil => rfl
  | cons c cs =>
    unfold bytes at h
    exact absurd (List.append_eq_nil.mp h).1 (utf8Char_ne_nil c)

theorem getImmediate_unprefixed (imm : Str) (h : HasPrefix imm "$0x".toList = false) :
    getImmediate imm = none := by
  unfold getImmediate
  split_ifs with h1 h2
  · rfl
  · exfalso
    have hb3 : bytes "$0x".toList = [36, 48, 120] := rfl
    rw [hb3] at h2
    have hsplit := List.take_append_drop 3 (bytes imm)
    rw [h2] at hsplit
    cases imm with
    | nil => simp [len, bytes] at h1
    | cons c0 t0 =>
      obtain ⟨e0, r0⟩ := bytes_head_ascii c0 t0 36 _ (by decide) hsplit.symm
      cases t0 with
      | nil => simp [bytes] at r0
      | cons c1 t1 =>
        obtain ⟨e1, r1⟩ := bytes_head_ascii c1 t1 48 _ (by decide) r0
        cases t1 with
        | nil => simp [bytes] at r1
        | cons c2 t2 =>
          obtain ⟨e2, -⟩ := bytes_head_ascii c2 t2 120 _ (by decide) r1
          have f0 : c0 = '$' := (toNat_eq_iff c0 '$').mp e0
          have f1 : c1 = '0' := (toNat_eq_iff c1 '0').mp e1
          have f2 : c2 = 'x' := (toNat_eq_iff c2 'x').mp e2
          subst f0 f1 f2
          simp [HasPrefix, List.isPrefixOf] at h
  · rfl

theorem getImmediate_malformed (h : Str) (hm : Malformed (fun c => c ∈ hexChars) h) :
    getImmediate ('$' :: '0' :: 'x' :: h) = none := by
  have hb : bytes ('$' :: '0' :: 'x' :: h) = 36 :: 48 :: 120 :: bytes h := rfl
  have hb3 : bytes "$0x".toList = [36, 48, 120] := rfl
  unfold getImmediate len
  rw [hb, hb3]
  simp [ParseInt_hex_malformed h hm]

theorem getRegister_malformed (s suffix : Str) (hm : Malformed IsDigit s) :
    getRegister ('Y' :: s) suffix = none := by
  unfold getRegister
  rw [(byteAt_zero_eq 'Y' 'Y' _ (by decide)).mpr rfl]
  simp [Atoi_malformed s hm]

theorem getRegisterX_malformed (s suffix : Str) (hm : Malformed IsDigit s) :
    getRegisterX ('X' :: s) suffix = none := by
  unfold getRegisterX
  rw [(byteAt_zero_eq 'X' 'X' _ (by decide)).mpr rfl]
  simp [Atoi_malformed s hm]

theorem getreg_R_malformed (s : Str) (hm : Malformed IsDigit s) (hX : s ≠ ['X']) :
    getreg ('R' :: s) = none := by
  have hb : bytes ('R' :: s) = 82 :: bytes s := bytes_cons_ascii 'R' s (by decide)
  have h0 : ¬ (len ('R' :: s) = 2 ∧ byteAt ('R' :: s) 1 = some 'X'.toNat) := by
    rintro ⟨h1, h2⟩
    unfold len at h1
    unfold byteAt at h2
    rw [hb] at h1 h2
    simp only [List.length_cons, Nat.add_left_inj] at h1
    simp only [List.getElem?_cons_succ] at h2
    cases s with
    | nil => simp [bytes] at h1
    | cons c t =>
      cases hbs : bytes (c :: t) with
      | nil => rw [hbs] at h1; simp at h1
      | cons b rest =>
        rw [hbs] at h1 h2
        simp only [List.getElem?_cons_zero, Option.some.injEq] at h2
        have hrest : rest = [] := by
          simp only [List.length_cons] at h1
          exact List.length_eq_zero.mp (by omega)
        subst hrest h2
        obtain ⟨e, r⟩ := bytes_head_ascii c t _ _ (by decide) hbs
        have hc : c = 'X' := (toNat_eq_iff c 'X').mp e
        have ht : t = [] := bytes_eq_nil t r
        subst hc ht
        exact hX rfl
  have h1 : ¬ ('R' :: s = "SI".toList) := by simp
  have h2 : ¬ ('R' :: s = "DI".toList) := by simp
  have h3 : ¬ ('R' :: s = "BP".toList) := by simp
  unfold getreg
  simp only [h0, h1, h2, h3, if_false, List.drop_succ_cons, List.drop_zero,
    Atoi_malformed s hm]
  split_ifs <;> rfl

theorem getScalarReg_R_malformed (s : Str) (armAddrMode : Bool) (hm : Malformed IsDigit s)
    (hX : s ≠ ['X']) (hp : ∀ c ∈ s, c ≠ '(') :
    getScalarReg ('R' :: s) armAddrMode = none := by
  have hc : Contains ('R' :: s) "(".toList = false := by
    apply Contains_open_false
    intro c hc
    rcases List.mem_cons.mp hc with h | h
    · rw [h]; decide
    · exact hp c h
  unfold getScalarReg
  simp only [hc, Bool.false_and, Bool.false_eq_true, if_false, getreg_R_malformed s hm hX]
theorem unsupported_only (a : Str) : (unsupported a).map (onlyUnsupported a) = some true := by
  simp [unsupported, onlyUnsupported]

theorem caseVector_err (mt : MnemonicType) (p : List Str) (a : Str) :
    (caseVector mt p a).map (onlyUnsupported a) = (caseVector mt p a).map fun _ => true := by
  unfold caseVector
  split <;>
    simp only [Option.bind_eq_bind, Option.map_bind, Function.comp_def, Option.map_some',
      apply_ite (Option.map (onlyUnsupported a)), apply_ite (Option.map fun _ => true),
      unsupported_only, unsupported, onlyUnsupported, Option.isNone_none, Bool.true_or,
      beq_self_eq_true, Bool.or_true]

theorem caseVMOVDQU_err (mt : MnemonicType) (p : List Str) (a : Str) :
    (caseVMOVDQU mt p a).map (onlyUnsupported a) = (caseVMOVDQU mt p a).map fun _ => true := by
  unfold caseVMOVDQU
  split <;>
    simp only [Option.bind_eq_bind, Option.map_bind, Function.comp_def, Option.map_some',
      apply_ite (Option.map (onlyUnsupported a)), apply_ite (Option.map fun _ => true),
      unsupported_only, unsupported, onlyUnsupported, Option.isNone_none, Bool.true_or,
      beq_self_eq_true, Bool.or_true]

theorem caseMOVQ_err (p : List Str) (a : Str) :
    (caseMOVQ p a).map (onlyUnsupported a) = (caseMOVQ p a).map fun _ => true := by
  unfold caseMOVQ
  split <;>
    simp only [Option.bind_eq_bind, Option.map_bind, Function.comp_def, Option.map_some',
      apply_ite (Option.map (onlyUnsupported a)), apply_ite (Option.map fun _ => true),
      unsupported_only, unsupported, onlyUnsupported, Option.isNone_none, Bool.true_or,
      beq_self_eq_true, Bool.or_true]

theorem caseArith_err (mt : MnemonicType) (p : List Str) (a : Str) :
    (caseArith mt p a).map (onlyUnsupported a) = (caseArith mt p a).map fun _ => true := by
  unfold caseArith
  split <;>
    simp only [Option.bind_eq_bind, Option.map_bind, Function.comp_def, Option.map_some',
      apply_ite (Option.map (onlyUnsupported a)), apply_ite (Option.map fun _ => true),
      unsupported_only, unsupported, onlyUnsupported, Option.isNone_none, Bool.true_or,
      beq_self_eq_true, Bool.or_true]

theorem caseTESTQ_err (mt : MnemonicType) (p : List Str) (a : Str) :
    (caseTESTQ mt p a).map (onlyUnsupported a) = (caseTESTQ mt p a).map fun _ => true := by
  unfold caseTESTQ
  split <;>
    simp only [Option.bind_eq_bind, Option.map_bind, Function.comp_def, Option.map_some',
      apply_ite (Option.map (onlyUnsupported a)), apply_ite (Option.map fun _ => true),
      unsupported_only, unsupported, onlyUnsupported, Option.isNone_none, Bool.true_or,
      beq_self_eq_true, Bool.or_true]

theorem caseDECQ_err (mt : MnemonicType) (p : List Str) (a : Str) :
    (caseDECQ mt p a).map (onlyUnsupported a) = (caseDECQ mt p a).map fun _ => true := by
  unfold caseDECQ
  split <;>
    simp only [Option.bind_eq_bind, Option.map_bind, Function.comp_def, Option.map_some',
      apply_ite (Option.map (onlyUnsupported a)), apply_ite (Option.map fun _ => true),
      unsupported_only, unsupported, onlyUnsupported, Option.isNone_none, Bool.true_or,
      beq_self_eq_true, Bool.or_true]

theorem only_of_map_true {a : Str} {x : Option Result} {r : Result}
    (hx : x.map (onlyUnsupported a) = x.map fun _ => true) (h : x = some r) :
    onlyUnsupported a r = true := by
  rw [h] at hx
  simpa using hx

theorem dispatch_err (m : Str) (p : List Str) (a : Str) (patchLabel : Option (Str → Str))
    (r : Result) (h : dispatch m p a patchLabel = some r) : onlyUnsupported a r = true := by
  simp only [dispatch] at h
  split_ifs at h
  · exact only_of_map_true (caseVector_err _ p a) h
  · exact only_of_map_true (caseVMOVDQU_err _ p a) h
  · exact only_of_map_true (caseMOVQ_err p a) h
  · exact only_of_map_true (caseArith_err _ p a) h
  · exact only_of_map_true (caseTESTQ_err _ p a) h
  · exact only_of_map_true (caseDECQ_err _ p a) h
  · simp only [Option.some.injEq] at h
    subst h
    rfl
  · cases patchLabel <;> (simp only [Option.some.injEq] at h; subst h; rfl)
  · simp only [Option.some.injEq] at h
    subst h
    rfl
  · unfold unsupported at h
    simp only [Option.some.injEq] at h
    subst h
    simp [onlyUnsupported]
theorem arith_bad_immediate (op : ArithOp) (D : GPReg) (imm : Str) (hD : D.ordinal < 2 ^ 63)
    (hs : NoSpace imm) (hd : imm.head? = some '$') (hi : getImmediate imm = none) :
    AvxTwo2Sve (op.avx ++ " ".toList ++ imm ++ ", ".toList ++ D.token) none = none := by
  have e : op.avx ++ " ".toList ++ imm ++ ", ".toList ++ D.token
      = op.avx ++ ' ' :: (imm ++ ',' :: ' ' :: D.token) := by simp
  have ht := tokens_line2 op.avx imm D.token (arithOp_word op) hs (gpReg_word D)
  have hb : byteAt imm 0 = some '$'.toNat := by
    cases imm with
    | nil => simp at hd
    | cons c cs =>
      simp only [List.head?_cons, Option.some.injEq] at hd
      subst hd
      exact (byteAt_zero_eq '$' '$' _ (by decide)).mpr rfl
  unfold AvxTwo2Sve
  rw [e, ht]
  simp only [dispatch_arith, caseArith, getScalarReg_token D hD, hb, hi]
  simp

theorem vector_bad_register (op : VecOp) (t0 t1 s : Str) (h0 : NoSpace t0) (h1 : NoSpace t1)
    (hs : NoSpace s) (hl : s.getLast? ≠ some ',') (hm : Malformed IsDigit s) :
    AvxTwo2Sve (op.avx ++ " ".toList ++ t0 ++ ", ".toList ++ t1 ++ ", Y".toList ++ s) none
      = none := by
  have e : op.avx ++ " ".toList ++ t0 ++ ", ".toList ++ t1 ++ ", Y".toList ++ s
      = op.avx ++ ' ' :: (t0 ++ ',' :: ' ' :: (t1 ++ ',' :: ' ' :: ('Y' :: s))) := by simp
  have hw : Word ('Y' :: s) := by
    refine ⟨noSpace_cons (by decide) hs, by simp, ?_⟩
    cases s with
    | nil => decide
    | cons c t => rw [List.getLast?_cons_cons]; exact hl
  have ht := tokens_line3 op.avx t0 t1 ('Y' :: s) (vecOp_word op) h0 h1 hw
  unfold AvxTwo2Sve
  rw [e, ht]
  simp only [dispatch_vector, caseVector, getRegister_malformed s _ hm]
  simp

theorem returned_error_unsupported (avx2 : Str) (patchLabel : Option (Str → Str)) (r : Result)
    (h : AvxTwo2Sve avx2 patchLabel = some r) (he : r.err ≠ none) :
    r = ⟨[], false, some ("avxTwo2Sve unsupported: ".toList ++ avx2)⟩ := by
  unfold AvxTwo2Sve at h
  cases ht : tokens avx2 with
  | nil => rw [ht] at h; simp at h
  | cons m p =>
    rw [ht] at h
    have ho := dispatch_err m p avx2 patchLabel r h
    unfold onlyUnsupported at ho
    rcases Bool.or_eq_true _ _ |>.mp ho with h1 | h1
    · exact absurd (Option.isNone_iff_eq_none.mp h1) he
    · exact eq_of_beq h1

/-! ## Names that are not scalar registers -/

theorem getScalarReg_bare_none (r : Str) (armAddrMode : Bool) (hp : ∀ c ∈ r, c ≠ '(')
    (hX : ¬ (len r = 2 ∧ byteAt r 1 = some 'X'.toNat)) (h1 : r ≠ "SI".toList)
    (h2 : r ≠ "DI".toList) (h3 : r ≠ "BP".toList) (hR : byteAt r 0 ≠ some 'R'.toNat) :
    getScalarReg r armAddrMode = none := by
  have hR2 : ¬ (2 ≤ len r ∧ byteAt r 0 = some 'R'.toNat) := fun h => hR h.2
  unfold getScalarReg
  rw [Contains_open_false r hp]
  simp only [Bool.false_and, Bool.false_eq_true, if_false]
  unfold getreg
  simp only [hX, h1, h2, h3, hR2, if_false]
  rfl

theorem digitVal_dec (c : Char) (h : IsDigit c) : digitVal 10 c = some (c.toNat - 48) := by
  unfold IsDigit at h
  have h2 : c.toNat - 48 < 10 := by omega
  unfold digitVal
  simp [h, h2]

theorem parseDigits_digits (ds : Str) (h : ∀ c ∈ ds, IsDigit c) (acc : Nat) :
    parseDigits 10 ds acc = some (ds.foldl (fun acc c => acc * 10 + (c.toNat - 48)) acc) := by
  induction ds generalizing acc with
  | nil => rfl
  | cons c cs ih =>
    have hc := digitVal_dec c (h c (List.mem_cons_self c cs))
    simp only [parseDigits, hc, List.foldl_cons]
    exact ih (fun d hd => h d (List.mem_cons_of_mem c hd)) _

theorem Atoi_unsigned (ds : Str) (hne : ds ≠ []) (h : ∀ c ∈ ds, IsDigit c) :
    Atoi ds = if natValue ds < 2 ^ 63 then some (natValue ds : Int) else none := by
  cases ds with
  | nil => exact absurd rfl hne
  | cons c cs =>
    have hp := parseDigits_digits (c :: cs) h 0
    have hc := h c (List.mem_cons_self c cs)
    have b1 : (c == '-') = false := by simp [isDigit_ne hc '-' (by decide)]
    have b2 : (c == '+') = false := by simp [isDigit_ne hc '+' (by decide)]
    unfold Atoi ParseInt
    simp only [b1, b2, Bool.or_self, Bool.false_eq_true, if_false, List.isEmpty_cons, hp,
      Bool.not_false, Bool.true_and, Bool.false_and]
    unfold natValue
    by_cases hv : List.foldl (fun acc c => acc * 10 + (c.toNat - 48)) 0 (c :: cs) < 2 ^ 63
    · have hd : decide (2 ^ (64 - 1) ≤ List.foldl (fun acc c => acc * 10 + (c.toNat - 48)) 0
          (c :: cs)) = false := by
        rw [decide_eq_false_iff_not]; omega
      rw [hd, if_pos hv]
      rfl
    · have hd : decide (2 ^ (64 - 1) ≤ List.foldl (fun acc c => acc * 10 + (c.toNat - 48)) 0
          (c :: cs)) = true := by
        rw [decide_eq_true_iff]; omega
      rw [hd, if_neg hv]
      rfl

theorem Atoi_plus (ds : Str) (hne : ds ≠ []) (h : ∀ c ∈ ds, IsDigit c) :
    Atoi ('+' :: ds) = if natValue ds < 2 ^ 63 then some (natValue ds : Int) else none := by
  have hp := parseDigits_digits ds h 0
  have he : ds.isEmpty = false := by
    cases ds with
    | nil => exact absurd rfl hne
    | cons c cs => rfl
  unfold Atoi ParseInt
  simp only [beq_self_eq_true, Bool.true_or, if_true, he, Bool.false_eq_true, if_false, hp]
  unfold natValue
  by_cases hv : List.foldl (fun acc c => acc * 10 + (c.toNat - 48)) 0 ds < 2 ^ 63
  · have hd : decide (2 ^ (64 - 1) ≤ List.foldl (fun acc c => acc * 10 + (c.toNat - 48)) 0 ds)
        = false := by
      rw [decide_eq_false_iff_not]; omega
    rw [hd, if_pos hv]
    rfl
  · have hd : decide (2 ^ (64 - 1) ≤ List.foldl (fun acc c => acc * 10 + (c.toNat - 48)) 0 ds)
        = true := by
      rw [decide_eq_true_iff]; omega
    rw [hd, if_neg hv]
    rfl

theorem Atoi_minus (ds : Str) (hne : ds ≠ []) (h : ∀ c ∈ ds, IsDigit c) :
    Atoi ('-' :: ds) = if natValue ds ≤ 2 ^ 63 then some (-(natValue ds : Int)) else none := by
  have hp := parseDigits_digits ds h 0
  have he : ds.isEmpty = false := by
    cases ds with
    | nil => exact absurd rfl hne
    | cons c cs => rfl
  unfold Atoi ParseInt
  simp only [beq_self_eq_true, Bool.or_true, if_true, he, Bool.false_eq_true, if_false, hp]
  unfold natValue
  by_cases hv : List.foldl (fun acc c => acc * 10 + (c.toNat - 48)) 0 ds ≤ 2 ^ 63
  · have hd : decide (2 ^ (64 - 1) < List.foldl (fun acc c => acc * 10 + (c.toNat - 48)) 0 ds)
        = false := by
      rw [decide_eq_false_iff_not]; omega
    rw [hd, if_pos hv]
    rfl
  · have hd : decide (2 ^ (64 - 1) < List.foldl (fun acc c => acc * 10 + (c.toNat - 48)) 0 ds)
        = true := by
      rw [decide_eq_true_iff]; omega
    rw [hd, if_neg hv]
    rfl

/-- `strconv.Atoi` on a decimal integer text: its value inside the int range,
an error outside. -/
theorem Atoi_decimal (s : Str) (v : Int) (h : IsDecimalInt s v) :
    Atoi s = if -(2 ^ 63) ≤ v ∧ v < 2 ^ 63 then some v else none := by
  obtain ⟨ds, hne, hd, h⟩ := h
  rcases h with ⟨hs, hv⟩ | ⟨hs, hv⟩ | ⟨hs, hv⟩
  · rw [hs, hv, Atoi_unsigned ds hne hd]
    by_cases hn : natValue ds < 2 ^ 63
    · rw [if_pos hn, if_pos (by omega)]
    · rw [if_neg hn, if_neg (by omega)]
  · rw [hs, hv, Atoi_plus ds hne hd]
    by_cases hn : natValue ds < 2 ^ 63
    · rw [if_pos hn, if_pos (by omega)]
    · rw [if_neg hn, if_neg (by omega)]
  · rw [hs, hv, Atoi_minus ds hne hd]
    by_cases hn : natValue ds ≤ 2 ^ 63
    · rw [if_pos hn, if_pos (by omega)]
    · rw [if_neg hn, if_neg (by omega)]

theorem not_twoByteX_R (s : Str) (hX : s ≠ ['X']) :
    ¬ (len ('R' :: s) = 2 ∧ byteAt ('R' :: s) 1 = some 'X'.toNat) := by
  have hb : bytes ('R' :: s) = 82 :: bytes s := bytes_cons_ascii 'R' s (by decide)
  rintro ⟨h1, h2⟩
  unfold len at h1
  unfold byteAt at h2
  rw [hb] at h1 h2
  simp only [List.getElem?_cons_succ] at h2
  cases hbs : bytes s with
  | nil => rw [hbs] at h2; simp at h2
  | cons b rest =>
    rw [hbs] at h1 h2
    simp only [List.getElem?_cons_zero, Option.some.injEq] at h2
    have hrest : rest = [] := by
      simp only [List.length_cons] at h1
      exact List.length_eq_zero.mp (by omega)
    subst hrest h2
    cases s with
    | nil => simp [bytes] at hbs
    | cons c t =>
      obtain ⟨e, r⟩ := bytes_head_ascii c t _ _ (by decide) hbs
      have hc : c = 'X' := (toNat_eq_iff c 'X').mp e
      have ht : t = [] := bytes_eq_nil t r
      subst hc ht
      exact hX rfl

theorem getreg_R_eq (s : Str) (hX : s ≠ ['X']) (hne : s ≠ []) :
    getreg ('R' :: s)
      = match Atoi s with
        | none => none
        | some n => if n = -1 then none else some (fmtInt n) := by
  have h0 := not_twoByteX_R s hX
  have h1 : ¬ ('R' :: s = "SI".toList) := by simp
  have h2 : ¬ ('R' :: s = "DI".toList) := by simp
  have h3 : ¬ ('R' :: s = "BP".toList) := by simp
  have h4 : 2 ≤ len ('R' :: s) ∧ byteAt ('R' :: s) 0 = some 'R'.toNat := by
    refine ⟨?_, byteAt_zero_ascii 'R' s (by decide)⟩
    have := len_pos s hne
    unfold len at this ⊢
    rw [bytes_cons_ascii 'R' s (by decide), List.length_cons]
    omega
  unfold getreg
  simp only [h0, h1, h2, h3, h4, if_false, and_self, if_true, List.drop_succ_cons, List.drop_zero]

theorem decimalInt_chars (s : Str) (v : Int) (h : IsDecimalInt s v) :
    s ≠ [] ∧ s ≠ ['X'] ∧ ∀ c ∈ s, c ≠ '(' := by
  obtain ⟨ds, hne, hd, h⟩ := h
  have hd2 : ∀ c ∈ ds, c ≠ '(' := fun c hc => isDigit_ne (hd c hc) _ (by decide)
  have hdX : ds ≠ ['X'] := by
    intro e
    have := hd 'X' (by rw [e]; simp)
    exact absurd this (by decide)
  rcases h with ⟨hs, -⟩ | ⟨hs, -⟩ | ⟨hs, -⟩
  · rw [hs]; exact ⟨hne, hdX, hd2⟩
  · rw [hs]
    refine ⟨by simp, by simp, ?_⟩
    intro c hc
    rcases List.mem_cons.mp hc with h | h
    · rw [h]; decide
    · exact hd2 c h
  · rw [hs]
    refine ⟨by simp, by simp, ?_⟩
    intro c hc
    rcases List.mem_cons.mp hc with h | h
    · rw [h]; decide
    · exact hd2 c h

theorem getScalarReg_R_decimal_none (s : Str) (v : Int) (armAddrMode : Bool)
    (h : IsDecimalInt s v) (hv : v = -1 ∨ v < -(2 ^ 63) ∨ 2 ^ 63 ≤ v) :
    getScalarReg ('R' :: s) armAddrMode = none := by
  obtain ⟨hne, hX, hp⟩ := decimalInt_chars s v h
  have hc : Contains ('R' :: s) "(".toList = false := by
    apply Contains_open_false
    intro c hc
    rcases List.mem_cons.mp hc with h | h
    · rw [h]; decide
    · exact hp c h
  unfold getScalarReg
  simp only [hc, Bool.false_and, Bool.false_eq_true, if_false, getreg_R_eq s hX hne,
    Atoi_decimal s v h]
  by_cases hr : -(2 ^ 63) ≤ v ∧ v < 2 ^ 63
  · have h1 : v = -1 := by omega
    rw [if_pos hr, h1]
    rfl
  · rw [if_neg hr]

theorem digits_or_bad (t : Str) :
    (∀ c ∈ t, IsDigit c) ∨ ∃ pre c post, t = pre ++ c :: post ∧ ¬ IsDigit c := by
  by_cases h : ∀ c ∈ t, IsDigit c
  · exact Or.inl h
  · right
    push_neg at h
    obtain ⟨c, hc, hn⟩ := h
    obtain ⟨pre, post, e⟩ := List.append_of_mem hc
    exact ⟨pre, c, post, e, hn⟩

/-- Every text is either a decimal integer text or malformed. -/
theorem malformed_or_decimal (s : Str) : Malformed IsDigit s ∨ ∃ v, IsDecimalInt s v := by
  cases s with
  | nil => exact Or.inl (Or.inl rfl)
  | cons c t =>
    rcases digits_or_bad t with ht | ⟨pre, d, post, e, hd⟩
    · by_cases hc : IsDigit c
      · right
        refine ⟨_, c :: t, by simp, ?_, Or.inl ⟨rfl, rfl⟩⟩
        intro x hx
        rcases List.mem_cons.mp hx with h | h
        · rw [h]; exact hc
        · exact ht x h
      · by_cases hplus : c = '+'
        · by_cases hnil : t = []
          · left; right; left
            rw [hplus, hnil]
          · right
            exact ⟨_, t, hnil, ht, Or.inr (Or.inl ⟨by rw [hplus], rfl⟩)⟩
        · by_cases hminus : c = '-'
          · by_cases hnil : t = []
            · left; right; right; left
              rw [hminus, hnil]
            · right
              exact ⟨_, t, hnil, ht, Or.inr (Or.inr ⟨by rw [hminus], rfl⟩)⟩
          · left; right; right; right
            exact ⟨[], c, t, rfl, hc, fun _ => ⟨hplus, hminus⟩⟩
    · left; right; right; right
      refine ⟨c :: pre, d, post, by rw [e]; rfl, hd, ?_⟩
      intro h
      exact absurd h (by simp)

/-! ## Scalar move to memory -/

theorem replace_memText_arm (k : Int) (b : Nat) :
    ReplaceAll (memText k b true) "x".toList "R".toList
      = "[R".toList ++ dec b
        ++ (if k ≠ 0 then ", #".toList ++ fmtInt (Int.tdiv k 32) ++ ", MUL VL".toList else [])
        ++ "]".toList := by
  have htail : ∀ c ∈ dec b
      ++ (if k ≠ 0 then ", #".toList ++ fmtInt (Int.tdiv k 32) ++ ", MUL VL".toList else [])
      ++ "]".toList, c ≠ 'x' := by
    simp only [List.forall_mem_append]
    refine ⟨⟨fun c hc => plain_ne (dec_plain b c hc) _ (by decide), ?_⟩, by decide⟩
    split_ifs
    · simp only [List.forall_mem_append]
      exact ⟨⟨by decide, fun c hc => plain_ne (fmtInt_plain _ c hc) _ (by decide)⟩, by decide⟩
    · simp
  have e : memText k b true = ['['] ++ 'x' :: (dec b
      ++ (if k ≠ 0 then ", #".toList ++ fmtInt (Int.tdiv k 32) ++ ", MUL VL".toList else [])
      ++ "]".toList) := by
    simp [memText]
  rw [e, ReplaceAll_x_append ['['] _ (by decide), ReplaceAll_x_cons,
    ReplaceAll_x_none _ htail]
  simp

/-- Every scalar move from a register to a memory reference renders its
destination in the bracketed dialect, inside a legacy-dialect line. -/
theorem movq_to_memory (S D : GPReg) (k : Int) (hS : S.ordinal < 2 ^ 63)
    (hD : D.ordinal < 2 ^ 63) (hk1 : -(2 ^ 63) ≤ k) (hk2 : k < 2 ^ 63) :
    AvxTwo2Sve ("MOVQ ".toList ++ S.token ++ ", ".toList ++ fmtInt k ++ "(".toList ++ D.token
        ++ ")".toList) none
      = some ⟨"MOVD R".toList ++ dec S.ordinal ++ ", [R".toList ++ dec D.ordinal
          ++ (if k ≠ 0 then ", #".toList ++ fmtInt (Int.tdiv k 32) ++ ", MUL VL".toList else [])
          ++ "]".toList, true, none⟩ := by
  have hoff := numText_fmtInt k
  have e : "MOVQ ".toList ++ S.token ++ ", ".toList ++ fmtInt k ++ "(".toList ++ D.token
        ++ ")".toList
      = "MOVQ".toList ++ ' ' :: (S.token ++ ',' :: ' '
          :: (fmtInt k ++ '(' :: (D.token ++ [')']))) := by simp
  have ht := tokens_line2 "MOVQ".toList S.token (fmtInt k ++ '(' :: (D.token ++ [')']))
    (by decide) (gpReg_word S).1 (mem_word (fmtInt k) D hoff)
  obtain ⟨c, cs, ec, hc, -, hX, -⟩ := mem_head (fmtInt k) (D.token ++ [')']) hoff
  have hb1 : byteAt (fmtInt k ++ '(' :: (D.token ++ [')'])) 0 = some c.toNat := by
    rw [ec]; exact byteAt_zero_ascii c cs hc
  have hne : ¬ (c.toNat = 88) := fun h => hX ((toNat_eq_iff c 'X').mp h)
  obtain ⟨c0, cs0, e0, hc0⟩ := gpReg_token_head S
  have hdollar : c0 ≠ '$' := by
    have : ∀ c ∈ ['A', 'B', 'C', 'D', 'S', 'R'], c ≠ '$' := by decide
    exact this c0 hc0
  have hp : HasPrefix S.token "$0x".toList = false := by
    unfold HasPrefix
    rw [e0]
    exact isPrefixOf_cons_ne '$' c0 _ _ hdollar
  have hfp : Contains S.token "(FP)".toList = false :=
    Contains_of_forall_ne '(' ['F', 'P', ')'] S.token
      (fun c hc => plain_ne (gpReg_token_plain S c hc) _ (by decide))
  unfold AvxTwo2Sve
  rw [e, ht]
  simp only [dispatch_MOVQ, caseMOVQ, hb1, hp, hfp,
    getScalarReg_paren (fmtInt k) k D true (numText_plain hoff) (parse_fmtInt k hk1 hk2) hD,
    getScalarReg_token S hS, replace_memText_arm]
  simp [hne]
  show ReplaceAll ('x' :: dec S.ordinal) "x".toList "R".toList ++ ',' :: ' '
    :: ReplaceAll (memText k D.ordinal true) "x".toList "R".toList = _
  rw [replace_xreg, replace_memText_arm]
  simp

/-! ## The claims -/

/-- C1. A line with at least one token whose first token, after the removal
of one trailing comma, is not a handled mnemonic gives, for every hook (nil
or not), empty output text, flag false and the error
"avxTwo2Sve unsupported: " followed by the original line; so no output text
is ever paired with this error. -/
theorem unsupported_mnemonic (avx2 : Str) (patchLabel : Option (Str → Str)) (t : Str)
    (ts : List Str) (hf : Fields avx2 = t :: ts) (hm : stripComma t ∉ handledMnemonics) :
    AvxTwo2Sve avx2 patchLabel
      = some ⟨[], false, some ("avxTwo2Sve unsupported: ".toList ++ avx2)⟩ := by
  simp only [handledMnemonics, List.mem_cons, List.mem_singleton, not_or, List.not_mem_nil,
    or_false] at hm
  obtain ⟨h1, h2, h3, h4, h5, h6, h7, h8, h9, h10, h11, h12, h13, h14, h15⟩ := hm
  unfold AvxTwo2Sve tokens
  rw [hf]
  simp only [List.map_cons, dispatch, h1, h2, h3, h4, h5, h6, h7, h8, h9, h10, h11, h12, h13,
    h14, h15, or_self, if_false, unsupported]

/-- C1 at the line "VPADDQ Y1, Y2, Y3" with a non-nil hook. -/
theorem unsupported_mnemonic_witness :
    AvxTwo2Sve "VPADDQ Y1, Y2, Y3".toList (some fun s => s ++ s)
      = some ⟨[], false, some "avxTwo2Sve unsupported: VPADDQ Y1, Y2, Y3".toList⟩ :=
  unsupported_mnemonic "VPADDQ Y1, Y2, Y3".toList (some fun s => s ++ s) "VPADDQ".toList
    ["Y1,".toList, "Y2,".toList, "Y3".toList] (by decide) (by decide)

/-- C2. Three-register vector form: for each of the five vector mnemonics,
with registry entry (m, s), and all natural numbers a, b, c below 2^63 written
in decimal, the line "M Ya, Yb, Yc" with the nil hook gives output
"m zc.s, zb.s, za.s", flag false and no error; every register keeps its
ordinal and the destination moves from last to first. -/
theorem vector_three_register (op : VecOp) (a b c : Nat) (ha : a < 2 ^ 63) (hb : b < 2 ^ 63)
    (hc : c < 2 ^ 63) :
    AvxTwo2Sve (op.avx ++ " Y".toList ++ dec a ++ ", Y".toList ++ dec b ++ ", Y".toList ++ dec c)
        none
      = some ⟨op.sve ++ " z".toList ++ dec c ++ ".".toList ++ op.suffix ++ ", z".toList ++ dec b
          ++ ".".toList ++ op.suffix ++ ", z".toList ++ dec a ++ ".".toList ++ op.suffix,
          false, none⟩ := by
  have e : op.avx ++ " Y".toList ++ dec a ++ ", Y".toList ++ dec b ++ ", Y".toList ++ dec c
      = op.avx ++ ' ' :: (('Y' :: dec a) ++ ',' :: ' ' :: (('Y' :: dec b) ++ ',' :: ' '
          :: ('Y' :: dec c))) := by simp
  have ht := tokens_line3 op.avx ('Y' :: dec a) ('Y' :: dec b) ('Y' :: dec c) (vecOp_word op)
    (word_reg 'Y' a (by decide)).1 (word_reg 'Y' b (by decide)).1 (word_reg 'Y' c (by decide))
  have hs : op.suffix ≠ [] := by cases op <;> decide
  unfold AvxTwo2Sve
  rw [e, ht]
  simp only [dispatch_vector, caseVector, getRegister_Y _ ha, getRegister_Y _ hb,
    getRegister_Y _ hc, (byteAt_zero_eq 'Y' 'Y' _ (by decide)).mpr rfl]
  simp [hs]

/-- C2 at "VPSHUFB Y11, Y5, Y7". -/
theorem vector_three_register_witness :
    AvxTwo2Sve (VecOp.VPSHUFB.avx ++ " Y".toList ++ dec 11 ++ ", Y".toList ++ dec 5
        ++ ", Y".toList ++ dec 7) none
      = some ⟨VecOp.VPSHUFB.sve ++ " z".toList ++ dec 7 ++ ".".toList ++ VecOp.VPSHUFB.suffix
          ++ ", z".toList ++ dec 5 ++ ".".toList ++ VecOp.VPSHUFB.suffix ++ ", z".toList
          ++ dec 11 ++ ".".toList ++ VecOp.VPSHUFB.suffix, false, none⟩ :=
  vector_three_register VecOp.VPSHUFB 11 5 7 (by norm_num) (by norm_num) (by norm_num)

/-- C3 (as amended). Vector immediate form: for each of the five vector
mnemonics, with registry entry (m, s), every non-empty string h of hexadecimal
digits (any case, leading zeros allowed) whose value v is below 2^63, and all
natural numbers a, b below 2^63, the line "M $0xh, Ya, Yb" with the nil hook
gives output "m zb.s, za.s, #v" with v in decimal, flag false and no error. -/
theorem vector_immediate (op : VecOp) (h : Str) (a b : Nat) (hne : h ≠ []) (hh : IsHex h)
    (hv : hexValue h < 2 ^ 63) (ha : a < 2 ^ 63) (hb : b < 2 ^ 63) :
    AvxTwo2Sve (op.avx ++ " $0x".toList ++ h ++ ", Y".toList ++ dec a ++ ", Y".toList ++ dec b)
        none
      = some ⟨op.sve ++ " z".toList ++ dec b ++ ".".toList ++ op.suffix ++ ", z".toList ++ dec a
          ++ ".".toList ++ op.suffix ++ ", #".toList ++ dec (hexValue h), false, none⟩ := by
  have e : op.avx ++ " $0x".toList ++ h ++ ", Y".toList ++ dec a ++ ", Y".toList ++ dec b
      = op.avx ++ ' ' :: (('$' :: '0' :: 'x' :: h) ++ ',' :: ' ' :: (('Y' :: dec a) ++ ',' :: ' '
          :: ('Y' :: dec b))) := by simp
  have ht := tokens_line3 op.avx ('$' :: '0' :: 'x' :: h) ('Y' :: dec a) ('Y' :: dec b) (vecOp_word op)
    (noSpace_imm h hh) (word_reg 'Y' a (by decide)).1 (word_reg 'Y' b (by decide))
  have hs : op.suffix ≠ [] := by cases op <;> decide
  unfold AvxTwo2Sve
  rw [e, ht]
  simp only [dispatch_vector, caseVector, getRegister_Y _ ha, getRegister_Y _ hb,
    (byteAt_zero_eq '$' '$' _ (by decide)).mpr rfl, getImmediate_hex h hne hh hv]
  simp [hs, fmtInt_natCast]

/-- C3 (as amended) at "VPSRLQ $0x04, Y9, Y10". -/
theorem vector_immediate_witness :
    AvxTwo2Sve (VecOp.VPSRLQ.avx ++ " $0x".toList ++ "04".toList ++ ", Y".toList ++ dec 9
        ++ ", Y".toList ++ dec 10) none
      = some ⟨VecOp.VPSRLQ.sve ++ " z".toList ++ dec 10 ++ ".".toList ++ VecOp.VPSRLQ.suffix
          ++ ", z".toList ++ dec 9 ++ ".".toList ++ VecOp.VPSRLQ.suffix ++ ", #".toList
          ++ dec (hexValue "04".toList), false, none⟩ :=
  vector_immediate VecOp.VPSRLQ "04".toList 9 10 (by decide) (by decide) (by decide)
    (by norm_num) (by norm_num)

/-- C3 as stated fails: with a = 2^63 the line "M $0xh, Ya, Yb" is
"VPSRLQ $0x04, Y9223372036854775808, Y10", on which `strconv.Atoi` reports a
range error inside `getRegister` and the call panics instead of returning. -/
theorem vector_immediate_counterexample :
    VecOp.VPSRLQ.avx ++ " $0x".toList ++ "04".toList ++ ", Y".toList ++ dec (2 ^ 63)
        ++ ", Y".toList ++ dec 10 = "VPSRLQ $0x04, Y9223372036854775808, Y10".toList
    ∧ AvxTwo2Sve "VPSRLQ $0x04, Y9223372036854775808, Y10".toList none = none := by
  decide

/-- C4 (as amended). Two-operand vector form: for each of the five vector
mnemonics, with registry entry (m, s), and all natural numbers a, b below
2^63, the line "M Ya, Yb" gives "m zb.s, za.s", and the line "M Xa, Yb" gives
"m zb.s, za.s" followed by "[0]" exactly when m is dup, which is the case
exactly for M = VPBROADCASTB; flag false and no error in every case. -/
theorem vector_two_operand (op : VecOp) (a b : Nat) (ha : a < 2 ^ 63) (hb : b < 2 ^ 63) :
    AvxTwo2Sve (op.avx ++ " Y".toList ++ dec a ++ ", Y".toList ++ dec b) none
      = some ⟨op.sve ++ " z".toList ++ dec b ++ ".".toList ++ op.suffix ++ ", z".toList ++ dec a
          ++ ".".toList ++ op.suffix, false, none⟩
    ∧ AvxTwo2Sve (op.avx ++ " X".toList ++ dec a ++ ", Y".toList ++ dec b) none
      = some ⟨op.sve ++ " z".toList ++ dec b ++ ".".toList ++ op.suffix ++ ", z".toList ++ dec a
          ++ ".".toList ++ op.suffix ++ (if op.sve = "dup".toList then "[0]".toList else []),
          false, none⟩
    ∧ (op.sve = "dup".toList ↔ op = VecOp.VPBROADCASTB) := by
  have hs : op.suffix ≠ [] := by cases op <;> decide
  refine ⟨?_, ?_, ?_⟩
  · have e : op.avx ++ " Y".toList ++ dec a ++ ", Y".toList ++ dec b
        = op.avx ++ ' ' :: (('Y' :: dec a) ++ ',' :: ' ' :: ('Y' :: dec b)) := by simp
    have ht := tokens_line2 op.avx ('Y' :: dec a) ('Y' :: dec b) (vecOp_word op)
      (word_reg 'Y' a (by decide)).1 (word_reg 'Y' b (by decide))
    unfold AvxTwo2Sve
    rw [e, ht]
    simp only [dispatch_vector, caseVector, getRegister_Y _ ha, getRegister_Y _ hb,
      (byteAt_zero_eq 'Y' 'Y' _ (by decide)).mpr rfl]
    simp [hs]
  · have e : op.avx ++ " X".toList ++ dec a ++ ", Y".toList ++ dec b
        = op.avx ++ ' ' :: (('X' :: dec a) ++ ',' :: ' ' :: ('Y' :: dec b)) := by simp
    have ht := tokens_line2 op.avx ('X' :: dec a) ('Y' :: dec b) (vecOp_word op)
      (word_reg 'X' a (by decide)).1 (word_reg 'Y' b (by decide))
    have hx : byteAt ('X' :: dec a) 0 = some 'X'.toNat :=
      (byteAt_zero_eq 'X' 'X' _ (by decide)).mpr rfl
    unfold AvxTwo2Sve
    rw [e, ht]
    simp only [dispatch_vector, caseVector, getRegisterX_X _ ha, getRegister_Y _ hb, hx]
    by_cases hd : op.sve = ['d', 'u', 'p']
    · simp [hs, hd]
    · simp [hs, hd]
  · cases op <;> decide

/-- C4 (as amended) at "VPBROADCASTB X4, Y4" and "VPBROADCASTB Y4, Y4". -/
theorem vector_two_operand_witness :
    AvxTwo2Sve (VecOp.VPBROADCASTB.avx ++ " Y".toList ++ dec 4 ++ ", Y".toList ++ dec 4) none
      = some ⟨VecOp.VPBROADCASTB.sve ++ " z".toList ++ dec 4 ++ ".".toList
          ++ VecOp.VPBROADCASTB.suffix ++ ", z".toList ++ dec 4 ++ ".".toList
          ++ VecOp.VPBROADCASTB.suffix, false, none⟩
    ∧ AvxTwo2Sve (VecOp.VPBROADCASTB.avx ++ " X".toList ++ dec 4 ++ ", Y".toList ++ dec 4) none
      = some ⟨VecOp.VPBROADCASTB.sve ++ " z".toList ++ dec 4 ++ ".".toList
          ++ VecOp.VPBROADCASTB.suffix ++ ", z".toList ++ dec 4 ++ ".".toList
          ++ VecOp.VPBROADCASTB.suffix
          ++ (if VecOp.VPBROADCASTB.sve = "dup".toList then "[0]".toList else []),
          false, none⟩
    ∧ (VecOp.VPBROADCASTB.sve = "dup".toList ↔ VecOp.VPBROADCASTB = VecOp.VPBROADCASTB) :=
  vector_two_operand VecOp.VPBROADCASTB 4 4 (by norm_num) (by norm_num)

/-- C4 as stated fails: with b = 2^63 the line "M Xa, Yb" is
"VPBROADCASTB X4, Y9223372036854775808", on which `strconv.Atoi` reports a
range error inside `getRegister` and the call panics instead of returning. -/
theorem vector_two_operand_counterexample :
    VecOp.VPBROADCASTB.avx ++ " X".toList ++ dec 4 ++ ", Y".toList ++ dec (2 ^ 63)
        = "VPBROADCASTB X4, Y9223372036854775808".toList
    ∧ AvxTwo2Sve "VPBROADCASTB X4, Y9223372036854775808".toList none = none := by
  decide

/-- C5 (as amended). Plain vector load/store offset rule: for every
general-purpose base register B with ordinal b below 2^63, every natural n
below 2^63 and every integer byte offset k with -2^63 ≤ k < 2^63 written in
decimal, "VMOVDQU k(B), Yn" gives "ldr zn, [xb, #q, MUL VL]" when k is not
zero, where q is k divided by 32 truncated toward zero, and "ldr zn, [xb]"
when k is zero; "VMOVDQU (B), Yn", with the offset absent, gives
"ldr zn, [xb]"; the store lines "VMOVDQU Yn, k(B)" and "VMOVDQU Yn, (B)" give
the same text with str in place of ldr; flag false and no error. The
truncated quotient q is exact on multiples of 32 and is 0 for |k| < 32. -/
theorem plain_load_store (B : GPReg) (n : Nat) (k : Int) (hB : B.ordinal < 2 ^ 63)
    (hn : n < 2 ^ 63) (hk1 : -(2 ^ 63) ≤ k) (hk2 : k < 2 ^ 63) :
    AvxTwo2Sve ("VMOVDQU ".toList ++ fmtInt k ++ "(".toList ++ B.token ++ "), Y".toList ++ dec n)
        none
      = some ⟨"ldr z".toList ++ dec n ++ ", [x".toList ++ dec B.ordinal
          ++ (if k ≠ 0 then ", #".toList ++ fmtInt (Int.tdiv k 32) ++ ", MUL VL".toList else [])
          ++ "]".toList, false, none⟩
    ∧ AvxTwo2Sve ("VMOVDQU (".toList ++ B.token ++ "), Y".toList ++ dec n) none
      = some ⟨"ldr z".toList ++ dec n ++ ", [x".toList ++ dec B.ordinal ++ "]".toList,
          false, none⟩
    ∧ AvxTwo2Sve ("VMOVDQU Y".toList ++ dec n ++ ", ".toList ++ fmtInt k ++ "(".toList ++ B.token
        ++ ")".toList) none
      = some ⟨"str z".toList ++ dec n ++ ", [x".toList ++ dec B.ordinal
          ++ (if k ≠ 0 then ", #".toList ++ fmtInt (Int.tdiv k 32) ++ ", MUL VL".toList else [])
          ++ "]".toList, false, none⟩
    ∧ AvxTwo2Sve ("VMOVDQU Y".toList ++ dec n ++ ", (".toList ++ B.token ++ ")".toList) none
      = some ⟨"str z".toList ++ dec n ++ ", [x".toList ++ dec B.ordinal ++ "]".toList,
          false, none⟩
    ∧ (32 ∣ k → 32 * Int.tdiv k 32 = k)
    ∧ (-32 < k → k < 32 → Int.tdiv k 32 = 0) := by
  have l1 := load_plain (fmtInt k) k B n (numText_fmtInt k) (parse_fmtInt k hk1 hk2) hB hn
  have l2 := load_plain [] 0 B n numText_nil parse_nil hB hn
  have s1 := store_plain (fmtInt k) k B n (numText_fmtInt k) (parse_fmtInt k hk1 hk2) hB hn
  have s2 := store_plain [] 0 B n numText_nil parse_nil hB hn
  refine ⟨?_, ?_, ?_, ?_, ?_, ?_⟩
  · rw [l1]; simp [memText]
  · have e : "VMOVDQU (".toList ++ B.token ++ "), Y".toList ++ dec n
        = "VMOVDQU ".toList ++ [] ++ "(".toList ++ B.token ++ "), Y".toList ++ dec n := by simp
    rw [e, l2]; simp [memText]
  · rw [s1]; simp [memText]
  · have e : "VMOVDQU Y".toList ++ dec n ++ ", (".toList ++ B.token ++ ")".toList
        = "VMOVDQU Y".toList ++ dec n ++ ", ".toList ++ [] ++ "(".toList ++ B.token
            ++ ")".toList := by simp
    rw [e, s2]; simp [memText]
  · intro h
    exact Int.mul_tdiv_cancel' h
  · intro h1 h2
    rcases le_or_lt 0 k with h0 | h0
    · exact Int.tdiv_eq_zero_of_lt h0 h2
    · have h3 : (-k).tdiv 32 = 0 := Int.tdiv_eq_zero_of_lt (by omega) (by omega)
      rw [Int.neg_tdiv] at h3
      omega

/-- C5 (as amended) at "VMOVDQU 32(BX), Y11" and its siblings. -/
theorem plain_load_store_witness :
    AvxTwo2Sve ("VMOVDQU ".toList ++ fmtInt 32 ++ "(".toList ++ GPReg.BX.token ++ "), Y".toList
        ++ dec 11) none
      = some ⟨"ldr z".toList ++ dec 11 ++ ", [x".toList ++ dec GPReg.BX.ordinal
          ++ (if (32 : Int) ≠ 0 then ", #".toList ++ fmtInt (Int.tdiv 32 32)
              ++ ", MUL VL".toList else [])
          ++ "]".toList, false, none⟩
    ∧ AvxTwo2Sve ("VMOVDQU (".toList ++ GPReg.BX.token ++ "), Y".toList ++ dec 11) none
      = some ⟨"ldr z".toList ++ dec 11 ++ ", [x".toList ++ dec GPReg.BX.ordinal ++ "]".toList,
          false, none⟩
    ∧ AvxTwo2Sve ("VMOVDQU Y".toList ++ dec 11 ++ ", ".toList ++ fmtInt 32 ++ "(".toList
        ++ GPReg.BX.token ++ ")".toList) none
      = some ⟨"str z".toList ++ dec 11 ++ ", [x".toList ++ dec GPReg.BX.ordinal
          ++ (if (32 : Int) ≠ 0 then ", #".toList ++ fmtInt (Int.tdiv 32 32)
              ++ ", MUL VL".toList else [])
          ++ "]".toList, false, none⟩
    ∧ AvxTwo2Sve ("VMOVDQU Y".toList ++ dec 11 ++ ", (".toList ++ GPReg.BX.token ++ ")".toList)
        none
      = some ⟨"str z".toList ++ dec 11 ++ ", [x".toList ++ dec GPReg.BX.ordinal ++ "]".toList,
          false, none⟩
    ∧ (32 ∣ (32 : Int) → 32 * Int.tdiv 32 32 = (32 : Int))
    ∧ (-32 < (32 : Int) → (32 : Int) < 32 → Int.tdiv 32 32 = 0) :=
  plain_load_store GPReg.BX 11 32 (by decide) (by norm_num) (by norm_num) (by norm_num)

/-- C5 as stated fails: with the byte offset k = 2^63 the line
"VMOVDQU k(B), Yn" is "VMOVDQU 9223372036854775808(BX), Y11", on which
`strconv.Atoi` reports a range error for the offset inside `getScalarReg` and
the call panics instead of returning. -/
theorem plain_load_store_counterexample :
    "VMOVDQU ".toList ++ fmtInt (2 ^ 63) ++ "(".toList ++ GPReg.BX.token ++ "), Y".toList
        ++ dec 11 = "VMOVDQU 9223372036854775808(BX), Y11".toList
    ∧ AvxTwo2Sve "VMOVDQU 9223372036854775808(BX), Y11".toList none = none := by
  decide

/-- C6 (as amended). Scaled-index load/store: for all general-purpose
registers B and I with ordinals b and i below 2^63 and every natural n below
2^63, "VMOVDQU (B)(I*8), Yn" gives "ld1d { zn.d }, p0/z, [xb, xi, lsl #3]" and
"VMOVDQU Yn, (B)(I*8)" gives "st1d { zn.d }, p0, [xb, xi, lsl #3]", both with
flag false and no error: the line is a load when the Y register is the
second operand and a store when it is the first. -/
theorem scaled_load_store (B I : GPReg) (n : Nat) (hB : B.ordinal < 2 ^ 63)
    (hI : I.ordinal < 2 ^ 63) (hn : n < 2 ^ 63) :
    AvxTwo2Sve ("VMOVDQU (".toList ++ B.token ++ ")(".toList ++ I.token ++ "*8), Y".toList
        ++ dec n) none
      = some ⟨"ld1d \x7b z".toList ++ dec n ++ ".d \x7d, p0/z, [x".toList ++ dec B.ordinal
          ++ ", x".toList ++ dec I.ordinal ++ ", lsl #3]".toList, false, none⟩
    ∧ AvxTwo2Sve ("VMOVDQU Y".toList ++ dec n ++ ", (".toList ++ B.token ++ ")(".toList ++ I.token
        ++ "*8)".toList) none
      = some ⟨"st1d \x7b z".toList ++ dec n ++ ".d \x7d, p0, [x".toList ++ dec B.ordinal
          ++ ", x".toList ++ dec I.ordinal ++ ", lsl #3]".toList, false, none⟩ := by
  have l := load_scaled [] 0 B I n numText_nil parse_nil hB hI hn
  have s := store_scaled [] 0 B I n numText_nil parse_nil hB hI hn
  constructor
  · have e : "VMOVDQU (".toList ++ B.token ++ ")(".toList ++ I.token ++ "*8), Y".toList ++ dec n
        = "VMOVDQU ".toList ++ scaledTok [] B I ++ ", Y".toList ++ dec n := by
      simp [scaledTok]
    rw [e, l]
    simp
  · have e : "VMOVDQU Y".toList ++ dec n ++ ", (".toList ++ B.token ++ ")(".toList ++ I.token
          ++ "*8)".toList
        = "VMOVDQU Y".toList ++ dec n ++ ", ".toList ++ scaledTok [] B I := by
      simp [scaledTok]
    rw [e, s]
    simp

/-- C6 (as amended) at "VMOVDQU (R3)(R4*8), Y2" and "VMOVDQU Y2, (R3)(R4*8)". -/
theorem scaled_load_store_witness :
    AvxTwo2Sve ("VMOVDQU (".toList ++ (GPReg.R 3).token ++ ")(".toList ++ (GPReg.R 4).token
        ++ "*8), Y".toList ++ dec 2) none
      = some ⟨"ld1d \x7b z".toList ++ dec 2 ++ ".d \x7d, p0/z, [x".toList
          ++ dec (GPReg.R 3).ordinal ++ ", x".toList ++ dec (GPReg.R 4).ordinal
          ++ ", lsl #3]".toList, false, none⟩
    ∧ AvxTwo2Sve ("VMOVDQU Y".toList ++ dec 2 ++ ", (".toList ++ (GPReg.R 3).token ++ ")(".toList
        ++ (GPReg.R 4).token ++ "*8)".toList) none
      = some ⟨"st1d \x7b z".toList ++ dec 2 ++ ".d \x7d, p0, [x".toList
          ++ dec (GPReg.R 3).ordinal ++ ", x".toList ++ dec (GPReg.R 4).ordinal
          ++ ", lsl #3]".toList, false, none⟩ :=
  scaled_load_store (GPReg.R 3) (GPReg.R 4) 2 (by decide) (by decide) (by norm_num)

/-- C6 as stated fails: with the index register R9223372036854775808, of
ordinal 2^63, the line "VMOVDQU (B)(I*8), Yn" is
"VMOVDQU (R3)(R9223372036854775808*8), Y2", on which `strconv.Atoi` reports a
range error for the register number inside `getScalarReg` and the call panics
instead of returning. -/
theorem scaled_load_store_counterexample :
    "VMOVDQU (".toList ++ (GPReg.R 3).token ++ ")(".toList ++ (GPReg.R (2 ^ 63)).token
        ++ "*8), Y".toList ++ dec 2 = "VMOVDQU (R3)(R9223372036854775808*8), Y2".toList
    ∧ AvxTwo2Sve "VMOVDQU (R3)(R9223372036854775808*8), Y2".toList none = none := by
  decide

/-- C7 (as amended). Legacy scalar move from memory keeps the byte offset: for
all general-purpose registers B and D with ordinals b and d below 2^63 and
every integer k with -2^63 ≤ k < 2^63 written in decimal, "MOVQ k(B), D" gives
"MOVD k(Rb), Rd" when k is not zero (the offset is printed unchanged, not
divided by 32) and "MOVD (Rb), Rd" when k is zero; "MOVQ (B), D", with the
offset absent, gives "MOVD (Rb), Rd"; flag true and no error. -/
theorem legacy_move_from_memory (B D : GPReg) (k : Int) (hB : B.ordinal < 2 ^ 63)
    (hD : D.ordinal < 2 ^ 63) (hk1 : -(2 ^ 63) ≤ k) (hk2 : k < 2 ^ 63) :
    AvxTwo2Sve ("MOVQ ".toList ++ fmtInt k ++ "(".toList ++ B.token ++ "), ".toList ++ D.token)
        none
      = some ⟨"MOVD ".toList ++ (if k ≠ 0 then fmtInt k else []) ++ "(R".toList
          ++ dec B.ordinal ++ "), R".toList ++ dec D.ordinal, true, none⟩
    ∧ AvxTwo2Sve ("MOVQ (".toList ++ B.token ++ "), ".toList ++ D.token) none
      = some ⟨"MOVD (R".toList ++ dec B.ordinal ++ "), R".toList ++ dec D.ordinal,
          true, none⟩ := by
  have m1 := movq_mem (fmtInt k) k B D (numText_fmtInt k) (parse_fmtInt k hk1 hk2) hB hD
  have m2 := movq_mem [] 0 B D numText_nil parse_nil hB hD
  constructor
  · exact m1
  · have e : "MOVQ (".toList ++ B.token ++ "), ".toList ++ D.token
        = "MOVQ ".toList ++ [] ++ "(".toList ++ B.token ++ "), ".toList ++ D.token := by simp
    rw [e, m2]
    simp

/-- C7 (as amended) at "MOVQ 24(DX), SI" and "MOVQ (DX), SI". -/
theorem legacy_move_from_memory_witness :
    AvxTwo2Sve ("MOVQ ".toList ++ fmtInt 24 ++ "(".toList ++ GPReg.DX.token ++ "), ".toList
        ++ GPReg.SI.token) none
      = some ⟨"MOVD ".toList ++ (if (24 : Int) ≠ 0 then fmtInt 24 else []) ++ "(R".toList
          ++ dec GPReg.DX.ordinal ++ "), R".toList ++ dec GPReg.SI.ordinal, true, none⟩
    ∧ AvxTwo2Sve ("MOVQ (".toList ++ GPReg.DX.token ++ "), ".toList ++ GPReg.SI.token) none
      = some ⟨"MOVD (R".toList ++ dec GPReg.DX.ordinal ++ "), R".toList
          ++ dec GPReg.SI.ordinal, true, none⟩ :=
  legacy_move_from_memory GPReg.DX GPReg.SI 24 (by decide) (by decide) (by norm_num)
    (by norm_num)

/-- C7 as stated fails: with k = -2^63 - 1 the line "MOVQ k(B), D" is
"MOVQ -9223372036854775809(DX), SI", on which `strconv.Atoi` reports a range
error for the offset inside `getScalarReg` and the call panics instead of
returning. -/
theorem legacy_move_from_memory_counterexample :
    "MOVQ ".toList ++ fmtInt (-9223372036854775809) ++ "(".toList ++ GPReg.DX.token
        ++ "), ".toList ++ GPReg.SI.token = "MOVQ -9223372036854775809(DX), SI".toList
    ∧ AvxTwo2Sve "MOVQ -9223372036854775809(DX), SI".toList none = none := by
  decide

/-- C8 (as amended). Stack/frame-relative scalar move keeps its source
verbatim: for every whitespace-free source S that contains "(FP)" and does not
start with "$0x" (whether or not it ends with a comma), and every
general-purpose destination register D with ordinal d below 2^63,
"MOVQ S, D" gives "MOVD S, Rd" with flag true and no error; S is copied
character for character. -/
theorem frame_move_verbatim (S : Str) (D : GPReg) (hS : NoSpace S)
    (hfp : Contains S "(FP)".toList = true) (himm : HasPrefix S "$0x".toList = false)
    (hD : D.ordinal < 2 ^ 63) :
    AvxTwo2Sve ("MOVQ ".toList ++ S ++ ", ".toList ++ D.token) none
      = some ⟨"MOVD ".toList ++ S ++ ", R".toList ++ dec D.ordinal, true, none⟩ := by
  have e : "MOVQ ".toList ++ S ++ ", ".toList ++ D.token
      = "MOVQ".toList ++ ' ' :: (S ++ ',' :: ' ' :: D.token) := by simp
  have ht := tokens_line2 "MOVQ".toList S D.token (by decide) hS (gpReg_word D)
  obtain ⟨b1, hb1, hX, -, -⟩ := gpReg_byte0 D
  unfold AvxTwo2Sve
  rw [e, ht]
  simp only [dispatch_MOVQ, caseMOVQ, hb1, getScalarReg_token D hD, himm, hfp]
  simp [hX]
  exact replace_xreg _

/-- C8 (as amended) at "MOVQ matrix_base+0(FP), CX". -/
theorem frame_move_verbatim_witness :
    AvxTwo2Sve ("MOVQ ".toList ++ "matrix_base+0(FP)".toList ++ ", ".toList ++ GPReg.CX.token)
        none
      = some ⟨"MOVD ".toList ++ "matrix_base+0(FP)".toList ++ ", R".toList
          ++ dec GPReg.CX.ordinal, true, none⟩ :=
  frame_move_verbatim "matrix_base+0(FP)".toList GPReg.CX (by decide) (by decide) (by decide)
    (by decide)

/-- C8 as stated fails: with the destination register R9223372036854775808,
of ordinal 2^63, the line "MOVQ S, D" is
"MOVQ n+80(FP), R9223372036854775808", on which `strconv.Atoi` reports a range
error for the register number inside `getScalarReg` and the call panics
instead of returning. -/
theorem frame_move_verbatim_counterexample :
    "MOVQ ".toList ++ "n+80(FP)".toList ++ ", ".toList ++ (GPReg.R (2 ^ 63)).token
        = "MOVQ n+80(FP), R9223372036854775808".toList
    ∧ NoSpace "n+80(FP)".toList ∧ Contains "n+80(FP)".toList "(FP)".toList = true
    ∧ HasPrefix "n+80(FP)".toList "$0x".toList = false
    ∧ "n+80(FP)".toList.getLast? ≠ some ','
    ∧ AvxTwo2Sve "MOVQ n+80(FP), R9223372036854775808".toList none = none := by
  decide

/-- C9 (as amended). Native-syntax scalar moves: for every general-purpose
register G with ordinal g below 2^63 and every natural n below 2^63,
"MOVQ G, Xn" gives "mov zn.d, xg"; and for every non-empty string h of
hexadecimal digits whose value v is below 2^63, "MOVQ $0xh, G" gives
"mov xg, #v" with v in decimal; both with flag false and no error. -/
theorem native_scalar_moves (G : GPReg) (n : Nat) (h : Str) (hG : G.ordinal < 2 ^ 63)
    (hn : n < 2 ^ 63) (hne : h ≠ []) (hh : IsHex h) (hv : hexValue h < 2 ^ 63) :
    AvxTwo2Sve ("MOVQ ".toList ++ G.token ++ ", X".toList ++ dec n) none
      = some ⟨"mov z".toList ++ dec n ++ ".d, x".toList ++ dec G.ordinal, false, none⟩
    ∧ AvxTwo2Sve ("MOVQ $0x".toList ++ h ++ ", ".toList ++ G.token) none
      = some ⟨"mov x".toList ++ dec G.ordinal ++ ", #".toList ++ dec (hexValue h),
          false, none⟩ := by
  obtain ⟨b1, hb1, hX, -, -⟩ := gpReg_byte0 G
  constructor
  · have e : "MOVQ ".toList ++ G.token ++ ", X".toList ++ dec n
        = "MOVQ".toList ++ ' ' :: (G.token ++ ',' :: ' ' :: ('X' :: dec n)) := by simp
    have ht := tokens_line2 "MOVQ".toList G.token ('X' :: dec n) (by decide) (gpReg_word G).1
      (word_reg 'X' n (by decide))
    unfold AvxTwo2Sve
    rw [e, ht]
    simp only [dispatch_MOVQ, caseMOVQ, (byteAt_zero_eq 'X' 'X' _ (by decide)).mpr rfl,
      getRegisterX_X _ hn, getScalarReg_token G hG]
    simp
  · have e : "MOVQ $0x".toList ++ h ++ ", ".toList ++ G.token
        = "MOVQ".toList ++ ' ' :: (('$' :: '0' :: 'x' :: h) ++ ',' :: ' ' :: G.token) := by simp
    have ht := tokens_line2 "MOVQ".toList ('$' :: '0' :: 'x' :: h) G.token (by decide)
      (noSpace_imm h hh) (gpReg_word G)
    have hp : HasPrefix ('$' :: '0' :: 'x' :: h) "$0x".toList = true := by
      simp [HasPrefix, List.isPrefixOf]
    unfold AvxTwo2Sve
    rw [e, ht]
    simp only [dispatch_MOVQ, caseMOVQ, hb1, getScalarReg_token G hG, hp,
      getImmediate_hex h hne hh hv]
    simp [hX, fmtInt_natCast]

/-- C9 (as amended) at "MOVQ R10, X4" and "MOVQ $0x0000000f, R10". -/
theorem native_scalar_moves_witness :
    AvxTwo2Sve ("MOVQ ".toList ++ (GPReg.R 10).token ++ ", X".toList ++ dec 4) none
      = some ⟨"mov z".toList ++ dec 4 ++ ".d, x".toList ++ dec (GPReg.R 10).ordinal,
          false, none⟩
    ∧ AvxTwo2Sve ("MOVQ $0x".toList ++ "0000000f".toList ++ ", ".toList ++ (GPReg.R 10).token)
        none
      = some ⟨"mov x".toList ++ dec (GPReg.R 10).ordinal ++ ", #".toList
          ++ dec (hexValue "0000000f".toList), false, none⟩ :=
  native_scalar_moves (GPReg.R 10) 4 "0000000f".toList (by decide) (by norm_num) (by decide)
    (by decide) (by decide)

/-- C9 as stated fails: with n = 2^63 the line "MOVQ G, Xn" is
"MOVQ R10, X9223372036854775808", on which `strconv.Atoi` reports a range
error inside `getRegisterX` and the call panics instead of returning. -/
theorem native_scalar_moves_counterexample :
    "MOVQ ".toList ++ (GPReg.R 10).token ++ ", X".toList ++ dec (2 ^ 63)
        = "MOVQ R10, X9223372036854775808".toList
    ∧ AvxTwo2Sve "MOVQ R10, X9223372036854775808".toList none = none := by
  decide

/-- C10 (as amended). Scalar arithmetic uses the destination as accumulator:
for M in {ADDQ, SHRQ} with target m = add, lsr, all general-purpose registers
S and D with ordinals s and d below 2^63, and every non-empty string h of
hexadecimal digits with value v below 2^63, "M $0xh, D" gives "m xd, xd, #v"
with v in decimal, "M S, D" gives "m xd, xd, xs", and "DECQ D" gives
"subs xd, xd, #1"; all with flag false and no error. -/
theorem scalar_arithmetic (op : ArithOp) (S D : GPReg) (h : Str) (hS : S.ordinal < 2 ^ 63)
    (hD : D.ordinal < 2 ^ 63) (hne : h ≠ []) (hh : IsHex h) (hv : hexValue h < 2 ^ 63) :
    AvxTwo2Sve (op.avx ++ " $0x".toList ++ h ++ ", ".toList ++ D.token) none
      = some ⟨op.sve ++ " x".toList ++ dec D.ordinal ++ ", x".toList ++ dec D.ordinal
          ++ ", #".toList ++ dec (hexValue h), false, none⟩
    ∧ AvxTwo2Sve (op.avx ++ " ".toList ++ S.token ++ ", ".toList ++ D.token) none
      = some ⟨op.sve ++ " x".toList ++ dec D.ordinal ++ ", x".toList ++ dec D.ordinal
          ++ ", x".toList ++ dec S.ordinal, false, none⟩
    ∧ AvxTwo2Sve ("DECQ ".toList ++ D.token) none
      = some ⟨"subs x".toList ++ dec D.ordinal ++ ", x".toList ++ dec D.ordinal
          ++ ", #1".toList, false, none⟩ := by
  refine ⟨?_, ?_, ?_⟩
  · have e : op.avx ++ " $0x".toList ++ h ++ ", ".toList ++ D.token
        = op.avx ++ ' ' :: (('$' :: '0' :: 'x' :: h) ++ ',' :: ' ' :: D.token) := by simp
    have ht := tokens_line2 op.avx ('$' :: '0' :: 'x' :: h) D.token (arithOp_word op)
      (noSpace_imm h hh) (gpReg_word D)
    unfold AvxTwo2Sve
    rw [e, ht]
    simp only [dispatch_arith, caseArith, getScalarReg_token D hD,
      (byteAt_zero_eq '$' '$' _ (by decide)).mpr rfl, getImmediate_hex h hne hh hv]
    simp [fmtInt_natCast]
  · have e : op.avx ++ " ".toList ++ S.token ++ ", ".toList ++ D.token
        = op.avx ++ ' ' :: (S.token ++ ',' :: ' ' :: D.token) := by simp
    have ht := tokens_line2 op.avx S.token D.token (arithOp_word op) (gpReg_word S).1 (gpReg_word D)
    obtain ⟨b0, hb0, -, -, hdollar⟩ := gpReg_byte0 S
    unfold AvxTwo2Sve
    rw [e, ht]
    simp only [dispatch_arith, caseArith, getScalarReg_token D hD, hb0,
      getScalarReg_token S hS]
    simp [hdollar]
  · have e : "DECQ ".toList ++ D.token = "DECQ".toList ++ ' ' :: D.token := by simp
    have ht := tokens_line1 "DECQ".toList D.token (by decide) (gpReg_word D)
    unfold AvxTwo2Sve
    rw [e, ht]
    simp only [dispatch_DECQ, caseDECQ, getScalarReg_token D hD]
    simp

/-- C10 (as amended) at "ADDQ $0x100, R2", "ADDQ R10, R2" and "DECQ R2". -/
theorem scalar_arithmetic_witness :
    AvxTwo2Sve (ArithOp.ADDQ.avx ++ " $0x".toList ++ "100".toList ++ ", ".toList
        ++ (GPReg.R 2).token) none
      = some ⟨ArithOp.ADDQ.sve ++ " x".toList ++ dec (GPReg.R 2).ordinal ++ ", x".toList
          ++ dec (GPReg.R 2).ordinal ++ ", #".toList ++ dec (hexValue "100".toList),
          false, none⟩
    ∧ AvxTwo2Sve (ArithOp.ADDQ.avx ++ " ".toList ++ (GPReg.R 10).token ++ ", ".toList
        ++ (GPReg.R 2).token) none
      = some ⟨ArithOp.ADDQ.sve ++ " x".toList ++ dec (GPReg.R 2).ordinal ++ ", x".toList
          ++ dec (GPReg.R 2).ordinal ++ ", x".toList ++ dec (GPReg.R 10).ordinal,
          false, none⟩
    ∧ AvxTwo2Sve ("DECQ ".toList ++ (GPReg.R 2).token) none
      = some ⟨"subs x".toList ++ dec (GPReg.R 2).ordinal ++ ", x".toList
          ++ dec (GPReg.R 2).ordinal ++ ", #1".toList, false, none⟩ :=
  scalar_arithmetic ArithOp.ADDQ (GPReg.R 10) (GPReg.R 2) "100".toList (by decide) (by decide)
    (by decide) (by decide) (by decide)

/-- C10 as stated fails: with the register R9223372036854775808, of ordinal
2^63, the line "DECQ D" is "DECQ R9223372036854775808", on which
`strconv.Atoi` reports a range error for the register number inside
`getScalarReg` and the call panics instead of returning. -/
theorem scalar_arithmetic_counterexample :
    "DECQ ".toList ++ (GPReg.R (2 ^ 63)).token = "DECQ R9223372036854775808".toList
    ∧ AvxTwo2Sve "DECQ R9223372036854775808".toList none = none := by
  decide

/-- C11 (as amended). Scalar compare swaps its operands and has no
destination: for all general-purpose registers A and B with ordinals a and b
below 2^63, "TESTQ A, B" gives "tst xb, xa" (source operand 1 first, then
source operand 0), with flag false and no error. -/
theorem scalar_compare (A B : GPReg) (hA : A.ordinal < 2 ^ 63) (hB : B.ordinal < 2 ^ 63) :
    AvxTwo2Sve ("TESTQ ".toList ++ A.token ++ ", ".toList ++ B.token) none
      = some ⟨"tst x".toList ++ dec B.ordinal ++ ", x".toList ++ dec A.ordinal,
          false, none⟩ := by
  have e : "TESTQ ".toList ++ A.token ++ ", ".toList ++ B.token
      = "TESTQ".toList ++ ' ' :: (A.token ++ ',' :: ' ' :: B.token) := by simp
  have ht := tokens_line2 "TESTQ".toList A.token B.token (by decide) (gpReg_word A).1
    (gpReg_word B)
  unfold AvxTwo2Sve
  rw [e, ht]
  simp only [dispatch_TESTQ, caseTESTQ, getScalarReg_token A hA, getScalarReg_token B hB]
  simp

/-- C11 (as amended) at "TESTQ AX, R9". -/
theorem scalar_compare_witness :
    AvxTwo2Sve ("TESTQ ".toList ++ GPReg.AX.token ++ ", ".toList ++ (GPReg.R 9).token) none
      = some ⟨"tst x".toList ++ dec (GPReg.R 9).ordinal ++ ", x".toList
          ++ dec GPReg.AX.ordinal, false, none⟩ :=
  scalar_compare GPReg.AX (GPReg.R 9) (by decide) (by decide)

/-- C11 as stated fails: with the register R9223372036854775808, of ordinal
2^63, as second operand the line "TESTQ A, B" is
"TESTQ AX, R9223372036854775808", on which `strconv.Atoi` reports a range
error for the register number inside `getScalarReg` and the call panics
instead of returning. -/
theorem scalar_compare_counterexample :
    "TESTQ ".toList ++ GPReg.AX.token ++ ", ".toList ++ (GPReg.R (2 ^ 63)).token
        = "TESTQ AX, R9223372036854775808".toList
    ∧ AvxTwo2Sve "TESTQ AX, R9223372036854775808".toList none = none := by
  decide

/-- C12. Label-patch hook contract, the tokens being those of the data model
(split on whitespace, one trailing comma stripped). For a line whose first
token is JZ (resp. JNZ), with t the line in which every occurrence of "JZ" is
replaced by "BEQ" (resp. "JNZ" by "BNE"), the output is f(t) for every non-nil
hook f and t for the nil hook, with flag true and no error: the hook is
applied once, to the text after substitution. For a line whose first token is
neither JZ nor JNZ the result is the same for every choice of hook. -/
theorem label_patch_hook (avx2 : Str) (f : Str → Str) (g1 g2 : Option (Str → Str)) :
    ((tokens avx2).head? = some "JZ".toList →
        AvxTwo2Sve avx2 (some f)
          = some ⟨f (ReplaceAll avx2 "JZ".toList "BEQ".toList), true, none⟩
        ∧ AvxTwo2Sve avx2 none = some ⟨ReplaceAll avx2 "JZ".toList "BEQ".toList, true, none⟩)
    ∧ ((tokens avx2).head? = some "JNZ".toList →
        AvxTwo2Sve avx2 (some f)
          = some ⟨f (ReplaceAll avx2 "JNZ".toList "BNE".toList), true, none⟩
        ∧ AvxTwo2Sve avx2 none = some ⟨ReplaceAll avx2 "JNZ".toList "BNE".toList, true, none⟩)
    ∧ ((tokens avx2).head? ≠ some "JZ".toList → (tokens avx2).head? ≠ some "JNZ".toList →
        AvxTwo2Sve avx2 g1 = AvxTwo2Sve avx2 g2) := by
  unfold AvxTwo2Sve
  cases ht : tokens avx2 with
  | nil => simp
  | cons m p =>
    simp only [List.head?_cons, Option.some.injEq]
    refine ⟨?_, ?_, ?_⟩
    · intro h
      subst h
      exact ⟨dispatch_JZ p avx2 (some f), dispatch_JZ p avx2 none⟩
    · intro h
      subst h
      exact ⟨dispatch_JNZ p avx2 (some f), dispatch_JNZ p avx2 none⟩
    · intro h1 h2
      exact dispatch_hook m p avx2 g1 g2 (fun e => h1 (by rw [e])) (fun e => h2 (by rw [e]))

/-- C12 at the line "JNZ loop_JNZ" with a hook that appends "_sve". -/
theorem label_patch_hook_witness :
    AvxTwo2Sve "JNZ loop_JNZ".toList (some fun s => s ++ "_sve".toList)
      = some ⟨"BNE loop_BNE_sve".toList, true, none⟩
    ∧ AvxTwo2Sve "JNZ loop_JNZ".toList none = some ⟨"BNE loop_BNE".toList, true, none⟩ :=
  (label_patch_hook "JNZ loop_JNZ".toList (fun s => s ++ "_sve".toList) none none).2.1
    (by decide)

/-- C13. Return is a passthrough: for every line whose first token is RET,
and every hook, the output is the input line itself, character for character,
with flag true and no error. -/
theorem return_passthrough (avx2 : Str) (patchLabel : Option (Str → Str))
    (h : (tokens avx2).head? = some "RET".toList) :
    AvxTwo2Sve avx2 patchLabel = some ⟨avx2, true, none⟩ := by
  unfold AvxTwo2Sve
  cases ht : tokens avx2 with
  | nil => rw [ht] at h; simp at h
  | cons m p =>
    rw [ht] at h
    simp only [List.head?_cons, Option.some.injEq] at h
    subst h
    exact dispatch_RET p avx2 patchLabel

/-- C13 at the line "RET  , x" with a non-nil hook. -/
theorem return_passthrough_witness :
    AvxTwo2Sve "RET  , x".toList (some fun s => s ++ s) = some ⟨"RET  , x".toList, true, none⟩ :=
  return_passthrough "RET  , x".toList (some fun s => s ++ s) (by decide)

/-- C14 (as amended). Characterisation of the legacy-dialect flag: for every
line on which the call returns with no error, whatever the hook, the flag is
true exactly when the first token is JZ, JNZ, RET or VZEROUPPER, or the line
is a MOVQ with two operands whose destination does not start with X (the
non-broadcast form) and whose source does not start with "$0x"; it is false
for every other successfully translated line. -/
theorem flag_characterisation (avx2 : Str) (patchLabel : Option (Str → Str)) (r : Result)
    (h : AvxTwo2Sve avx2 patchLabel = some r) (he : r.err = none) :
    r.plan9 = true ↔ LegacyLine avx2 := by
  unfold AvxTwo2Sve at h
  unfold LegacyLine
  cases ht : tokens avx2 with
  | nil => rw [ht] at h; simp at h
  | cons m p =>
    rw [ht] at h
    exact dispatch_flag m p avx2 patchLabel r h he

/-- C14 (as amended) at "MOVQ 24(DX), SI", a legacy line, with flag true. -/
theorem flag_characterisation_witness :
    (⟨"MOVD 24(R3), R4".toList, true, none⟩ : Result).plan9 = true
      ↔ LegacyLine "MOVQ 24(DX), SI".toList :=
  flag_characterisation "MOVQ 24(DX), SI".toList none ⟨"MOVD 24(R3), R4".toList, true, none⟩
    (by decide) rfl

/-- C14 as stated fails: "MOVQ $0x0000000f, R10" is a scalar move whose
destination is the general-purpose register R10 (the non-broadcast form); it
is translated with no error, to "mov x10, #15", and its flag is false. -/
theorem flag_characterisation_counterexample :
    tokens "MOVQ $0x0000000f, R10".toList
        = ["MOVQ".toList, "$0x0000000f".toList, (GPReg.R 10).token]
    ∧ AvxTwo2Sve "MOVQ $0x0000000f, R10".toList none
        = some ⟨"mov x10, #15".toList, false, none⟩ := by
  decide

/-- C15 fails on the code for VZEROUPPER: the case returns without looking at
the operands, so "VZEROUPPER Y1", with one operand where none is accepted,
gives empty output, flag true and no error, where the claim requires an
error. For the other families the claim holds (`operand_count_checked`). -/
theorem vzeroupper_ignores_operands :
    tokens "VZEROUPPER Y1".toList = ["VZEROUPPER".toList, "Y1".toList]
    ∧ AvxTwo2Sve "VZEROUPPER Y1".toList none = some ⟨[], true, none⟩ := by
  decide

/-- C16 (as amended). Decode failures are not surfaced as errors: they abort
the call. `getImmediate` panics on every token without the "$0x" prefix and
on every "$0x" token whose text after the prefix is not a hexadecimal integer
(empty, a lone sign, or with a character that is not a hexadecimal digit, a
leading sign apart); `getRegister` and `getRegisterX` panic on every Y or X
token, and `getScalarReg` on every bare R token other than RX, whose numeric
part is not a decimal integer in the same sense. The call of `AvxTwo2Sve`
panics with them: on "M imm, D" for M in {ADDQ, SHRQ}, a register D of
ordinal below 2^63 and an immediate token on which `getImmediate` panics, and
on "M t0, t1, Ys" for each vector mnemonic and a numeric part s that is not a
decimal integer. The only error the call ever returns is the unsupported
error, with empty output text and flag false. -/
theorem decode_failures_panic (imm h s suffix t0 t1 avx2 : Str) (armAddrMode : Bool)
    (patchLabel : Option (Str → Str)) (r : Result) (op : ArithOp) (D : GPReg) (vop : VecOp) :
    (HasPrefix imm "$0x".toList = false → getImmediate imm = none)
    ∧ (Malformed (fun c => c ∈ hexChars) h → getImmediate ("$0x".toList ++ h) = none)
    ∧ (Malformed IsDigit s →
        getRegister ("Y".toList ++ s) suffix = none
        ∧ getRegisterX ("X".toList ++ s) suffix = none)
    ∧ (Malformed IsDigit s → s ≠ "X".toList → (∀ c ∈ s, c ≠ '(') →
        getScalarReg ("R".toList ++ s) armAddrMode = none)
    ∧ (D.ordinal < 2 ^ 63 → NoSpace imm → imm.head? = some '$' → getImmediate imm = none →
        AvxTwo2Sve (op.avx ++ " ".toList ++ imm ++ ", ".toList ++ D.token) none = none)
    ∧ (NoSpace t0 → NoSpace t1 → NoSpace s → s.getLast? ≠ some ',' → Malformed IsDigit s →
        AvxTwo2Sve (vop.avx ++ " ".toList ++ t0 ++ ", ".toList ++ t1 ++ ", Y".toList ++ s)
          none = none)
    ∧ (AvxTwo2Sve avx2 patchLabel = some r → r.err ≠ none →
        r = ⟨[], false, some ("avxTwo2Sve unsupported: ".toList ++ avx2)⟩) :=
  ⟨getImmediate_unprefixed imm,
   getImmediate_malformed h,
   fun hm => ⟨getRegister_malformed s suffix hm, getRegisterX_malformed s suffix hm⟩,
   fun hm hX hp => getScalarReg_R_malformed s armAddrMode hm hX hp,
   fun hD hs hd hi => arith_bad_immediate op D imm hD hs hd hi,
   fun h0 h1 hs hl hm => vector_bad_register vop t0 t1 s h0 h1 hs hl hm,
   returned_error_unsupported avx2 patchLabel r⟩

/-- C16 (as amended) at the claim's own lines "ADDQ $12, AX" and
"VPAND Y4, Y9, YA": both calls panic. -/
theorem decode_failures_panic_witness :
    AvxTwo2Sve (ArithOp.ADDQ.avx ++ " ".toList ++ "$12".toList ++ ", ".toList ++ GPReg.AX.token)
        none = none
    ∧ AvxTwo2Sve (VecOp.VPAND.avx ++ " ".toList ++ "Y4".toList ++ ", ".toList ++ "Y9".toList
        ++ ", Y".toList ++ "A".toList) none = none :=
  have t := decode_failures_panic "$12".toList "ZZ".toList "A".toList [] "Y4".toList "Y9".toList
    [] true none ⟨[], false, none⟩ ArithOp.ADDQ GPReg.AX VecOp.VPAND
  ⟨t.2.2.2.2.1 (by decide) (by decide) (by decide) (t.1 (by decide)),
   t.2.2.2.2.2.1 (by decide) (by decide) (by decide) (by decide)
     (Or.inr (Or.inr (Or.inr ⟨[], 'A', [], rfl, by decide, fun _ => by decide⟩)))⟩

/-- C16 as stated fails: on each of the claim's own lines "ADDQ $0xZZ, AX",
"ADDQ $12, AX" and "VPAND Y4, Y9, YA" the call panics inside a decoder
(`getImmediate`, `getImmediate`, `getRegister`) and returns nothing to its
caller, neither an error nor an output text. -/
theorem decode_failures_panic_counterexample :
    AvxTwo2Sve "ADDQ $0xZZ, AX".toList none = none
    ∧ AvxTwo2Sve "ADDQ $12, AX".toList none = none
    ∧ AvxTwo2Sve "VPAND Y4, Y9, YA".toList none = none := by
  decide

/-- C17 (as amended). Scalar register name resolution: applied to a bare
token, in either addressing dialect, `getScalarReg` returns x0, x1, x2, x3 for
AX, BX, CX, DX; x4, x5, x6 for SI, DI, BP; and xn for Rn with n a decimal
natural number below 2^63; and it fails, with a panic, for every token
without a parenthesis that is not two bytes long ending in X, is none of SI,
DI, BP, and is not R followed by a decimal integer, optionally signed, that
lies in [-2^63, 2^63) and is not -1: that is, for every such token that does
not start with R, for R followed by text that is not a decimal integer (R
alone, R+, R-, Rfoo, R1a), for R-1, and for R followed by an integer outside
[-2^63, 2^63). Every text is either a decimal integer text or not one in that
sense, so nothing else is left out. -/
theorem scalar_register_names (g : GPReg) (r : Str) (armAddrMode : Bool) :
    (getScalarReg "AX".toList armAddrMode = some "x0".toList
      ∧ getScalarReg "BX".toList armAddrMode = some "x1".toList
      ∧ getScalarReg "CX".toList armAddrMode = some "x2".toList
      ∧ getScalarReg "DX".toList armAddrMode = some "x3".toList
      ∧ getScalarReg "SI".toList armAddrMode = some "x4".toList
      ∧ getScalarReg "DI".toList armAddrMode = some "x5".toList
      ∧ getScalarReg "BP".toList armAddrMode = some "x6".toList)
    ∧ (g.ordinal < 2 ^ 63 → getScalarReg g.token armAddrMode = some ("x".toList ++ dec g.ordinal))
    ∧ ((∀ c ∈ r, c ≠ '(' ∧ c ≠ ')') → ¬ (len r = 2 ∧ byteAt r 1 = some 'X'.toNat) →
        r ≠ "SI".toList → r ≠ "DI".toList → r ≠ "BP".toList →
        (byteAt r 0 ≠ some 'R'.toNat
          ∨ ∃ s, r = 'R' :: s
              ∧ (Malformed IsDigit s
                  ∨ ∃ v, IsDecimalInt s v ∧ (v = -1 ∨ v < -(2 ^ 63) ∨ 2 ^ 63 ≤ v))) →
        getScalarReg r armAddrMode = none)
    ∧ (∀ s, Malformed IsDigit s ∨ ∃ v, IsDecimalInt s v) := by
  refine ⟨?_, fun hg => getScalarReg_token g hg armAddrMode, ?_, malformed_or_decimal⟩
  · cases armAddrMode <;> decide
  · intro hp hX h1 h2 h3 hR
    rcases hR with hR | ⟨s, rfl, hm | ⟨v, hd, hv⟩⟩
    · exact getScalarReg_bare_none r armAddrMode (fun c hc => (hp c hc).1) hX h1 h2 h3 hR
    · have hsX : s ≠ ['X'] := by
        intro e
        subst e
        exact hX (by decide)
      exact getScalarReg_R_malformed s armAddrMode hm hsX
        (fun c hc => (hp c (List.mem_cons_of_mem 'R' hc)).1)
    · exact getScalarReg_R_decimal_none s v armAddrMode hd hv

/-- C17 (as amended) at the register R10 and at the tokens "FP", "R1a" and
"R-1", on which the call panics. -/
theorem scalar_register_names_witness :
    getScalarReg (GPReg.R 10).token false = some ("x".toList ++ dec (GPReg.R 10).ordinal)
    ∧ getScalarReg "FP".toList false = none
    ∧ getScalarReg "R1a".toList false = none
    ∧ getScalarReg "R-1".toList true = none :=
  ⟨(scalar_register_names (GPReg.R 10) "FP".toList false).2.1 (by decide),
   (scalar_register_names (GPReg.R 10) "FP".toList false).2.2.1 (by decide) (by decide)
     (by decide) (by decide) (by decide) (Or.inl (by decide)),
   (scalar_register_names (GPReg.R 10) "R1a".toList false).2.2.1 (by decide) (by decide)
     (by decide) (by decide) (by decide)
     (Or.inr ⟨"1a".toList, rfl, Or.inl (Or.inr (Or.inr (Or.inr
       ⟨['1'], 'a', [], rfl, by decide, fun h => absurd h (by simp)⟩)))⟩),
   (scalar_register_names (GPReg.R 10) "R-1".toList true).2.2.1 (by decide) (by decide)
     (by decide) (by decide) (by decide)
     (Or.inr ⟨"-1".toList, rfl, Or.inr ⟨-1, ⟨['1'], by simp, by decide,
       Or.inr (Or.inr ⟨rfl, by decide⟩)⟩, Or.inl rfl⟩⟩)⟩

/-- C17 as stated fails in three ways. The bare token "ZX" is none of AX, BX,
CX, DX, SI, DI, BP and is not R followed by a number, yet `getScalarReg` does
not fail on it: every two-byte token ending in X is accepted, and it returns
"x25". The tokens "R-2" and "R+5" are not R followed by a decimal natural
number either, yet `strconv.Atoi` accepts the sign and `getScalarReg` returns
"x-2" and "x5". And for R9223372036854775808, of ordinal 2^63, `strconv.Atoi`
reports a range error and `getScalarReg` panics instead of returning
x9223372036854775808. -/
theorem scalar_register_names_counterexample :
    getScalarReg "ZX".toList true = some "x25".toList
    ∧ getScalarReg "ZX".toList false = some "x25".toList
    ∧ getScalarReg "R-2".toList true = some "x-2".toList
    ∧ getScalarReg "R+5".toList true = some "x5".toList
    ∧ (GPReg.R (2 ^ 63)).token = "R9223372036854775808".toList
    ∧ getScalarReg "R9223372036854775808".toList true = none := by
  decide

/-- C18. Tokenisation invariance: two lines that yield the same token
sequence once split on whitespace and stripped of one trailing comma per
token, and whose first token is not JZ, JNZ or RET, give the same outcome,
whatever the hooks: either both calls panic, or both return, with the same
output text, the same flag, and an error on one exactly when on the other. -/
theorem tokenisation_invariance (l1 l2 : Str) (f g : Option (Str → Str))
    (ht : tokens l1 = tokens l2)
    (hm : ∀ m ∈ (tokens l1).head?, m ≠ "JZ".toList ∧ m ≠ "JNZ".toList ∧ m ≠ "RET".toList) :
    (AvxTwo2Sve l1 f).map observe = (AvxTwo2Sve l2 g).map observe := by
  unfold AvxTwo2Sve
  rw [← ht]
  cases h : tokens l1 with
  | nil => rfl
  | cons m p =>
    obtain ⟨h1, h2, h3⟩ := hm m (by rw [h]; rfl)
    exact dispatch_observe m p l1 l2 f g h1 h2 h3

/-- C18 at the lines "VPAND   Y4, Y9, Y9" and "VPAND Y4 Y9 Y9". -/
theorem tokenisation_invariance_witness :
    (AvxTwo2Sve "VPAND   Y4, Y9, Y9".toList none).map observe
      = (AvxTwo2Sve "VPAND Y4 Y9 Y9".toList none).map observe :=
  tokenisation_invariance "VPAND   Y4, Y9, Y9".toList "VPAND Y4 Y9 Y9".toList none none
    (by decide) (by decide)

/-- C19 fails on the code for a memory destination: the MOVQ case decodes
its destination in the bracketed dialect and its source in the legacy one, so
"MOVQ AX, 8(BX)" gives the legacy-dialect line "MOVD R0, [R1, #0, MUL VL]",
with a bracketed operand, and "MOVQ 8(AX), 16(BX)" mixes both styles in one
instruction (`movq_to_memory` shows the same for every memory destination). -/
theorem movq_memory_destination_mixes_dialects :
    AvxTwo2Sve "MOVQ AX, 8(BX)".toList none
        = some ⟨"MOVD R0, [R1, #0, MUL VL]".toList, true, none⟩
    ∧ AvxTwo2Sve "MOVQ 8(AX), 16(BX)".toList none
        = some ⟨"MOVD 8(R0), [R1, #0, MUL VL]".toList, true, none⟩ := by
  decide

/-- C20 (as amended). Scaled-index form with a constant offset: for all
general-purpose registers B and I with ordinals b and i below 2^63, every
natural n below 2^63 and every integer k with -2^63 ≤ k < 2^63 written in
decimal, "VMOVDQU k(B)(I*8), Yn" succeeds with flag false and gives
"ld1d { zn.d }, p0/z, [xb, #q, MUL VL, xi, lsl #3]" when k is not zero, where
q is k divided by 32 truncated toward zero (the vector-length term is spliced
between base and index), and "ld1d { zn.d }, p0/z, [xb, xi, lsl #3]" when k
is zero; with the offset absent, "VMOVDQU (B)(I*8), Yn" gives the latter. -/
theorem scaled_load_with_offset (B I : GPReg) (n : Nat) (k : Int) (hB : B.ordinal < 2 ^ 63)
    (hI : I.ordinal < 2 ^ 63) (hn : n < 2 ^ 63) (hk1 : -(2 ^ 63) ≤ k) (hk2 : k < 2 ^ 63) :
    AvxTwo2Sve ("VMOVDQU ".toList ++ fmtInt k ++ "(".toList ++ B.token ++ ")(".toList ++ I.token
        ++ "*8), Y".toList ++ dec n) none
      = some ⟨"ld1d \x7b z".toList ++ dec n ++ ".d \x7d, p0/z, [x".toList ++ dec B.ordinal
          ++ (if k ≠ 0 then ", #".toList ++ fmtInt (Int.tdiv k 32) ++ ", MUL VL".toList else [])
          ++ ", x".toList ++ dec I.ordinal ++ ", lsl #3]".toList, false, none⟩
    ∧ AvxTwo2Sve ("VMOVDQU (".toList ++ B.token ++ ")(".toList ++ I.token ++ "*8), Y".toList
        ++ dec n) none
      = some ⟨"ld1d \x7b z".toList ++ dec n ++ ".d \x7d, p0/z, [x".toList ++ dec B.ordinal
          ++ ", x".toList ++ dec I.ordinal ++ ", lsl #3]".toList, false, none⟩ := by
  have l1 := load_scaled (fmtInt k) k B I n (numText_fmtInt k) (parse_fmtInt k hk1 hk2) hB hI hn
  have l2 := load_scaled [] 0 B I n numText_nil parse_nil hB hI hn
  constructor
  · have e : "VMOVDQU ".toList ++ fmtInt k ++ "(".toList ++ B.token ++ ")(".toList ++ I.token
          ++ "*8), Y".toList ++ dec n
        = "VMOVDQU ".toList ++ scaledTok (fmtInt k) B I ++ ", Y".toList ++ dec n := by
      simp [scaledTok]
    rw [e, l1]
  · have e : "VMOVDQU (".toList ++ B.token ++ ")(".toList ++ I.token ++ "*8), Y".toList ++ dec n
        = "VMOVDQU ".toList ++ scaledTok [] B I ++ ", Y".toList ++ dec n := by
      simp [scaledTok]
    rw [e, l2]
    simp

/-- C20 (as amended) at "VMOVDQU 64(R3)(R4*8), Y2". -/
theorem scaled_load_with_offset_witness :
    AvxTwo2Sve ("VMOVDQU ".toList ++ fmtInt 64 ++ "(".toList ++ (GPReg.R 3).token ++ ")(".toList
        ++ (GPReg.R 4).token ++ "*8), Y".toList ++ dec 2) none
      = some ⟨"ld1d \x7b z".toList ++ dec 2 ++ ".d \x7d, p0/z, [x".toList
          ++ dec (GPReg.R 3).ordinal
          ++ (if (64 : Int) ≠ 0 then ", #".toList ++ fmtInt (Int.tdiv 64 32)
              ++ ", MUL VL".toList else [])
          ++ ", x".toList ++ dec (GPReg.R 4).ordinal ++ ", lsl #3]".toList, false, none⟩
    ∧ AvxTwo2Sve ("VMOVDQU (".toList ++ (GPReg.R 3).token ++ ")(".toList ++ (GPReg.R 4).token
        ++ "*8), Y".toList ++ dec 2) none
      = some ⟨"ld1d \x7b z".toList ++ dec 2 ++ ".d \x7d, p0/z, [x".toList
          ++ dec (GPReg.R 3).ordinal ++ ", x".toList ++ dec (GPReg.R 4).ordinal
          ++ ", lsl #3]".toList, false, none⟩ :=
  scaled_load_with_offset (GPReg.R 3) (GPReg.R 4) 2 64 (by decide) (by decide) (by norm_num)
    (by norm_num) (by norm_num)

/-- C20 as stated fails: with the offset k = 2^63 the line
"VMOVDQU k(B)(I*8), Yn" is "VMOVDQU 9223372036854775808(R3)(R4*8), Y2", on
which `strconv.Atoi` reports a range error for the offset inside
`getScalarReg` and the call panics instead of succeeding. -/
theorem scaled_load_with_offset_counterexample :
    "VMOVDQU ".toList ++ fmtInt (2 ^ 63) ++ "(".toList ++ (GPReg.R 3).token ++ ")(".toList
        ++ (GPReg.R 4).token ++ "*8), Y".toList ++ dec 2
        = "VMOVDQU 9223372036854775808(R3)(R4*8), Y2".toList
    ∧ AvxTwo2Sve "VMOVDQU 9223372036854775808(R3)(R4*8), Y2".toList none = none := by
  decide

end avxtwo2sve
